import Mathlib

/-!
Shallow embedding of the varvm virtual machine (Rust sources under src/):
the value and type model (src/types.rs), the instruction model
(src/opcode.rs, with `Call` argument operands as used by the interpreter,
encoder, decoder and assembler), the program image (src/program.rs), the
binary codec (src/bytecode/encoder.rs, src/bytecode/decoder.rs), the
interpreter (src/vm.rs) and the function-related part of the assembler
(src/asm/assembler.rs).

Machine integers are modelled as `Int` (signed arms) and `Nat` (unsigned
arms and `usize`), with explicit wrapping where the Rust code wraps.
`f32`/`f64` payloads are modelled by their IEEE-754 bit patterns as `Nat`;
total comparisons, negation, absolute value and zero tests on bit patterns
are implemented concretely, while transcendental and rounding operations
(`+`, `*`, `sqrt`, `sin`, int-to-float conversions, ...) are provided by a
`SemParams` parameter: every theorem below is independent of their values.
Identifier strings are modelled by their UTF-8 byte lists (`List Nat`).
-/

namespace VarVM

/-! ## IEEE-754 bit-pattern helpers (for `f32`/`f64` payloads) -/

/-- Exponent field of an IEEE float with mantissa width `m` and exponent
width `e`, from the bit pattern. -/
def floatExp (m e bits : Nat) : Nat := bits / 2 ^ m % 2 ^ e

/-- Mantissa field of an IEEE float with mantissa width `m`. -/
def floatMan (m bits : Nat) : Nat := bits % 2 ^ m

/-- NaN test: exponent all ones and non-zero mantissa. -/
def floatIsNan (m e bits : Nat) : Bool :=
  floatExp m e bits = 2 ^ e - 1 && floatMan m bits ≠ 0

/-- Total order key of a non-NaN IEEE float: sign-magnitude read as an
integer.  For non-NaN patterns of one width, `key a < key b` iff `a < b`
as IEEE values, and `key a = key b` iff they are IEEE-equal (the two
zeros both map to 0). -/
def floatKey (m e bits : Nat) : Int :=
  if bits < 2 ^ (m + e) then (bits : Int) else -((bits - 2 ^ (m + e) : Nat) : Int)

/-- IEEE `<` on bit patterns (false when either side is NaN). -/
def floatLtBits (m e a b : Nat) : Bool :=
  !floatIsNan m e a && !floatIsNan m e b && floatKey m e a < floatKey m e b

/-- IEEE `<=` on bit patterns (false when either side is NaN). -/
def floatLeBits (m e a b : Nat) : Bool :=
  !floatIsNan m e a && !floatIsNan m e b && floatKey m e a ≤ floatKey m e b

/-- IEEE `== 0.0` on bit patterns (true exactly on the two zeros). -/
def floatIsZeroBits (m e bits : Nat) : Bool := bits % 2 ^ (m + e) = 0

/-- Negation on bit patterns: flip the sign bit. -/
def floatNegBits (m e bits : Nat) : Nat :=
  if bits < 2 ^ (m + e) then bits + 2 ^ (m + e) else bits - 2 ^ (m + e)

/-- Absolute value on bit patterns: clear the sign bit. -/
def floatAbsBits (m e bits : Nat) : Nat := bits % 2 ^ (m + e)

def f32IsNan (bits : Nat) : Bool := floatIsNan 23 8 bits
def f64IsNan (bits : Nat) : Bool := floatIsNan 52 11 bits
def f32Lt (a b : Nat) : Bool := floatLtBits 23 8 a b
def f32Le (a b : Nat) : Bool := floatLeBits 23 8 a b
def f64Lt (a b : Nat) : Bool := floatLtBits 52 11 a b
def f64Le (a b : Nat) : Bool := floatLeBits 52 11 a b
def f32Gt (a b : Nat) : Bool := f32Lt b a
def f32Ge (a b : Nat) : Bool := f32Le b a
def f64Gt (a b : Nat) : Bool := f64Lt b a
def f64Ge (a b : Nat) : Bool := f64Le b a

/-! ## Integer wrapping helpers (`as` casts and release-mode arithmetic) -/

/-- Wrap an integer into the signed two's-complement range of width `w`. -/
def wrapS (w : Nat) : Int → Int := fun x =>
  (x + 2 ^ (w - 1)) % (2 ^ w) - 2 ^ (w - 1)

/-- Wrap an integer into the unsigned range of width `w`. -/
def wrapU (w : Nat) : Int → Nat := fun x => (x % (2 ^ w)).toNat

/-! ## Data model: `DataType`, `Value`, `Operand` (src/types.rs) -/

/-- src/types.rs `DataType`: the twelve declared type keywords, in
declaration order (this order is also the single-byte binary encoding). -/
inductive DataType where
  | I8 | I16 | I32 | I64 | U8 | U16 | U32 | U64 | F32 | F64 | Ptr | Void
  deriving DecidableEq, Repr

/-- The fixed single-byte encoding of `DataType` (`dtype as u8`,
declaration order: I8=0 ... Void=11). -/
def DataType.toByte : DataType → Nat
  | .I8 => 0 | .I16 => 1 | .I32 => 2 | .I64 => 3
  | .U8 => 4 | .U16 => 5 | .U32 => 6 | .U64 => 7
  | .F32 => 8 | .F64 => 9 | .Ptr => 10 | .Void => 11

/-- Identifier strings are modelled by their UTF-8 byte sequences. -/
abbrev Name := List Nat

/-- src/types.rs `Value`: tagged payloads.  Signed arms carry `Int`
(two's-complement range is an invariant maintained by the operations),
unsigned arms and `Ptr` carry `Nat`, float arms carry IEEE bit patterns. -/
inductive Value where
  | I8 (v : Int) | I16 (v : Int) | I32 (v : Int) | I64 (v : Int)
  | U8 (v : Nat) | U16 (v : Nat) | U32 (v : Nat) | U64 (v : Nat)
  | F32 (bits : Nat) | F64 (bits : Nat)
  | Ptr (v : Nat)
  deriving DecidableEq, Repr

/-- src/types.rs `Operand`. -/
inductive Operand where
  | Variable (name : Name)
  | Immediate (val : Value)
  | Label (name : Name)
  | Type (dtype : DataType)
  deriving DecidableEq, Repr

/-! ## Instruction model (src/opcode.rs; `Call.args` are operands as in
src/vm.rs, src/bytecode/encoder.rs, src/bytecode/decoder.rs and
src/asm/assembler.rs) -/

set_option maxHeartbeats 2000000 in
inductive OpCode where
  | CreateLocal (dtype : DataType) (name : Name)
  | CreateGlobal (dtype : DataType) (name : Name)
  | DeleteLocal (name : Name)
  | SetVar (dest : Name) (value : Operand)
  | CopyVar (dest : Name) (source : Name)
  | Alloc (dest : Name) (size : Operand)
  | Free (ptr : Name)
  | Load (dest : Name) (ptr : Name) (dtype : DataType)
  | Store (ptr : Name) (source : Name) (dtype : DataType)
  | GetAddr (dest : Name) (var : Name)
  | Add (dest : Name) (left right : Operand)
  | Sub (dest : Name) (left right : Operand)
  | Mul (dest : Name) (left right : Operand)
  | Div (dest : Name) (left right : Operand)
  | Mod (dest : Name) (left right : Operand)
  | Neg (dest : Name) (source : Operand)
  | And (dest : Name) (left right : Operand)
  | Or (dest : Name) (left right : Operand)
  | Xor (dest : Name) (left right : Operand)
  | Not (dest : Name) (source : Operand)
  | Shl (dest : Name) (left right : Operand)
  | Shr (dest : Name) (left right : Operand)
  | Eq (dest : Name) (left right : Operand)
  | Ne (dest : Name) (left right : Operand)
  | Lt (dest : Name) (left right : Operand)
  | Le (dest : Name) (left right : Operand)
  | Gt (dest : Name) (left right : Operand)
  | Ge (dest : Name) (left right : Operand)
  | Label (name : Name)
  | Jmp (label : Name)
  | Jz (var : Name) (label : Name)
  | Jnz (var : Name) (label : Name)
  | FuncBegin (name : Name) (return_type : DataType)
  | FuncEnd
  | Call (result : Option Name) (func : Name) (args : List Operand)
  | Return (value : Option Operand)
  | PushArg (var : Name)
  | PopArg (dest : Name)
  | Cast (dest : Name) (source : Name) (target_type : DataType)
  | Sqrt (dest : Name) (source : Operand)
  | Pow (dest : Name) (base exp : Operand)
  | Abs (dest : Name) (source : Operand)
  | Min (dest : Name) (a b : Operand)
  | Max (dest : Name) (a b : Operand)
  | Sin (dest : Name) (source : Operand)
  | Cos (dest : Name) (source : Operand)
  | Tan (dest : Name) (source : Operand)
  | Print (var : Name)
  | Input (dest : Name)
  | Exit (code : Operand)
  deriving DecidableEq, Repr

/-! ## Host-supplied float semantics

IEEE-754 rounding arithmetic, transcendental functions, int/float
conversions, and `Value::equals` (whose definition is missing from
src/types.rs; the spec describes it in §4.C1) are taken as parameters.
No theorem in this file depends on their values. -/

structure SemParams where
  f32add : Nat → Nat → Nat
  f32sub : Nat → Nat → Nat
  f32mul : Nat → Nat → Nat
  f32div : Nat → Nat → Nat
  f64add : Nat → Nat → Nat
  f64sub : Nat → Nat → Nat
  f64mul : Nat → Nat → Nat
  f64div : Nat → Nat → Nat
  f32sqrt : Nat → Nat
  f32sin : Nat → Nat
  f32cos : Nat → Nat
  f32tan : Nat → Nat
  f64sqrt : Nat → Nat
  f64sin : Nat → Nat
  f64cos : Nat → Nat
  f64tan : Nat → Nat
  f32pow : Nat → Nat → Nat
  f64pow : Nat → Nat → Nat
  /-- models the I32 case of `Pow`: `(b as f64).powi(e) as i32`. -/
  powiI32 : Int → Int → Int
  /-- models `x as f32` for any Rust integer value `x`. -/
  intToF32 : Int → Nat
  /-- models `x as f64` for any Rust integer value `x`. -/
  intToF64 : Int → Nat
  /-- models `x as f64` for `x : f32`. -/
  f32toF64 : Nat → Nat
  /-- models `x as f32` for `x : f64`. -/
  f64toF32 : Nat → Nat
  /-- models the saturating cast `x as iN`/`x as uN` for `x : f32`, given
  the target range `[lo, hi]`. -/
  f32asInt : Nat → Int → Int → Int
  /-- models the saturating cast for `x : f64`. -/
  f64asInt : Nat → Int → Int → Int
  /-- Modelled from the spec: `Value::equals` is called by the interpreter
  (src/vm.rs `equality_op!`) but its definition is missing from
  src/types.rs; spec §4.C1 describes cross-arm numeric equality by
  widening.  Kept abstract; no claim below depends on its result. -/
  valueEquals : Value → Value → Bool

/-! ## Value operations (src/types.rs `impl Value`) -/

namespace Value

/-- src/types.rs `Value::add`: same-arm I32/I64/F32/F64 only. -/
def add (F : SemParams) : Value → Value → Except String Value
  | .I32 a, .I32 b => .ok (.I32 (wrapS 32 (a + b)))
  | .I64 a, .I64 b => .ok (.I64 (wrapS 64 (a + b)))
  | .F32 a, .F32 b => .ok (.F32 (F.f32add a b))
  | .F64 a, .F64 b => .ok (.F64 (F.f64add a b))
  | _, _ => .error "Type mismatch in addition"

/-- src/types.rs `Value::sub`. -/
def sub (F : SemParams) : Value → Value → Except String Value
  | .I32 a, .I32 b => .ok (.I32 (wrapS 32 (a - b)))
  | .I64 a, .I64 b => .ok (.I64 (wrapS 64 (a - b)))
  | .F32 a, .F32 b => .ok (.F32 (F.f32sub a b))
  | .F64 a, .F64 b => .ok (.F64 (F.f64sub a b))
  | _, _ => .error "Type mismatch in subtraction"

/-- src/types.rs `Value::mul`. -/
def mul (F : SemParams) : Value → Value → Except String Value
  | .I32 a, .I32 b => .ok (.I32 (wrapS 32 (a * b)))
  | .I64 a, .I64 b => .ok (.I64 (wrapS 64 (a * b)))
  | .F32 a, .F32 b => .ok (.F32 (F.f32mul a b))
  | .F64 a, .F64 b => .ok (.F64 (F.f64mul a b))
  | _, _ => .error "Type mismatch in multiplication"

/-- src/types.rs `Value::div`: integer arms guard a zero divisor. -/
def div (F : SemParams) : Value → Value → Except String Value
  | .I32 a, .I32 b =>
      if b ≠ 0 then .ok (.I32 (wrapS 32 (Int.tdiv a b)))
      else .error "Type mismatch or division by zero"
  | .I64 a, .I64 b =>
      if b ≠ 0 then .ok (.I64 (wrapS 64 (Int.tdiv a b)))
      else .error "Type mismatch or division by zero"
  | .F32 a, .F32 b => .ok (.F32 (F.f32div a b))
  | .F64 a, .F64 b => .ok (.F64 (F.f64div a b))
  | _, _ => .error "Type mismatch or division by zero"

/-- src/types.rs `Value::modulo`: integer arms only. -/
def modulo : Value → Value → Except String Value
  | .I32 a, .I32 b =>
      if b ≠ 0 then .ok (.I32 (Int.tmod a b))
      else .error "Type mismatch or modulo by zero"
  | .I64 a, .I64 b =>
      if b ≠ 0 then .ok (.I64 (Int.tmod a b))
      else .error "Type mismatch or modulo by zero"
  | _, _ => .error "Type mismatch or modulo by zero"

/-- src/types.rs `Value::neg`. -/
def neg : Value → Except String Value
  | .I32 a => .ok (.I32 (wrapS 32 (-a)))
  | .I64 a => .ok (.I64 (wrapS 64 (-a)))
  | .F32 a => .ok (.F32 (floatNegBits 23 8 a))
  | .F64 a => .ok (.F64 (floatNegBits 52 11 a))
  | _ => .error "Cannot negate this type"

/-- src/types.rs `Value::lt`: only I32/I64/F32/F64 same-arm pairs. -/
def lt : Value → Value → Except String Bool
  | .I32 a, .I32 b => .ok (a < b)
  | .I64 a, .I64 b => .ok (a < b)
  | .F32 a, .F32 b => .ok (f32Lt a b)
  | .F64 a, .F64 b => .ok (f64Lt a b)
  | _, _ => .error "Type mismatch in comparison"

/-- src/types.rs `Value::le`: only I32/I64/F32/F64 same-arm pairs. -/
def le : Value → Value → Except String Bool
  | .I32 a, .I32 b => .ok (a ≤ b)
  | .I64 a, .I64 b => .ok (a ≤ b)
  | .F32 a, .F32 b => .ok (f32Le a b)
  | .F64 a, .F64 b => .ok (f64Le a b)
  | _, _ => .error "Type mismatch in comparison"

/-- src/types.rs `Value::is_zero`. -/
def is_zero : Value → Bool
  | .I8 v | .I16 v | .I32 v | .I64 v => v = 0
  | .U8 v | .U16 v | .U32 v | .U64 v => v = 0
  | .F32 v => floatIsZeroBits 23 8 v
  | .F64 v => floatIsZeroBits 52 11 v
  | .Ptr v => v = 0

/-- src/types.rs `Value::as_usize`: non-negative integers and `Ptr`. -/
def as_usize : Value → Except String Nat
  | .I8 v | .I16 v | .I32 v | .I64 v =>
      if 0 ≤ v then .ok v.toNat
      else .error "Cannot convert to usize (negative or invalid type)"
  | .U8 v | .U16 v | .U32 v | .U64 v => .ok v
  | .Ptr v => .ok v
  | _ => .error "Cannot convert to usize (negative or invalid type)"

/-- src/types.rs `Value::gt`: all ten numeric same-arm pairs. -/
def gt : Value → Value → Except String Bool
  | .I8 a, .I8 b => .ok (a > b)
  | .I16 a, .I16 b => .ok (a > b)
  | .I32 a, .I32 b => .ok (a > b)
  | .I64 a, .I64 b => .ok (a > b)
  | .U8 a, .U8 b => .ok (a > b)
  | .U16 a, .U16 b => .ok (a > b)
  | .U32 a, .U32 b => .ok (a > b)
  | .U64 a, .U64 b => .ok (a > b)
  | .F32 a, .F32 b => .ok (f32Gt a b)
  | .F64 a, .F64 b => .ok (f64Gt a b)
  | _, _ => .error "Type mismatch in comparison"

/-- src/types.rs `Value::ge`: all ten numeric same-arm pairs. -/
def ge : Value → Value → Except String Bool
  | .I8 a, .I8 b => .ok (a ≥ b)
  | .I16 a, .I16 b => .ok (a ≥ b)
  | .I32 a, .I32 b => .ok (a ≥ b)
  | .I64 a, .I64 b => .ok (a ≥ b)
  | .U8 a, .U8 b => .ok (a ≥ b)
  | .U16 a, .U16 b => .ok (a ≥ b)
  | .U32 a, .U32 b => .ok (a ≥ b)
  | .U64 a, .U64 b => .ok (a ≥ b)
  | .F32 a, .F32 b => .ok (f32Ge a b)
  | .F64 a, .F64 b => .ok (f64Ge a b)
  | _, _ => .error "Type mismatch in comparison"

/-- src/types.rs `Value::bitwise_and`: the eight integer arms. -/
def bitwise_and : Value → Value → Except String Value
  | .I8 a, .I8 b => .ok (.I8 (Int.land a b))
  | .I16 a, .I16 b => .ok (.I16 (Int.land a b))
  | .I32 a, .I32 b => .ok (.I32 (Int.land a b))
  | .I64 a, .I64 b => .ok (.I64 (Int.land a b))
  | .U8 a, .U8 b => .ok (.U8 (Nat.land a b))
  | .U16 a, .U16 b => .ok (.U16 (Nat.land a b))
  | .U32 a, .U32 b => .ok (.U32 (Nat.land a b))
  | .U64 a, .U64 b => .ok (.U64 (Nat.land a b))
  | _, _ => .error "Type mismatch or invalid type for bitwise AND"

/-- src/types.rs `Value::bitwise_or`. -/
def bitwise_or : Value → Value → Except String Value
  | .I8 a, .I8 b => .ok (.I8 (Int.lor a b))
  | .I16 a, .I16 b => .ok (.I16 (Int.lor a b))
  | .I32 a, .I32 b => .ok (.I32 (Int.lor a b))
  | .I64 a, .I64 b => .ok (.I64 (Int.lor a b))
  | .U8 a, .U8 b => .ok (.U8 (Nat.lor a b))
  | .U16 a, .U16 b => .ok (.U16 (Nat.lor a b))
  | .U32 a, .U32 b => .ok (.U32 (Nat.lor a b))
  | .U64 a, .U64 b => .ok (.U64 (Nat.lor a b))
  | _, _ => .error "Type mismatch or invalid type for bitwise OR"

/-- src/types.rs `Value::bitwise_xor`. -/
def bitwise_xor : Value → Value → Except String Value
  | .I8 a, .I8 b => .ok (.I8 (Int.xor a b))
  | .I16 a, .I16 b => .ok (.I16 (Int.xor a b))
  | .I32 a, .I32 b => .ok (.I32 (Int.xor a b))
  | .I64 a, .I64 b => .ok (.I64 (Int.xor a b))
  | .U8 a, .U8 b => .ok (.U8 (Nat.xor a b))
  | .U16 a, .U16 b => .ok (.U16 (Nat.xor a b))
  | .U32 a, .U32 b => .ok (.U32 (Nat.xor a b))
  | .U64 a, .U64 b => .ok (.U64 (Nat.xor a b))
  | _, _ => .error "Type mismatch or invalid type for bitwise XOR"

/-- src/types.rs `Value::bitwise_not` (`!v`: two's complement on signed
arms, width-limited complement on unsigned arms). -/
def bitwise_not : Value → Except String Value
  | .I8 a => .ok (.I8 (-a - 1))
  | .I16 a => .ok (.I16 (-a - 1))
  | .I32 a => .ok (.I32 (-a - 1))
  | .I64 a => .ok (.I64 (-a - 1))
  | .U8 a => .ok (.U8 (2 ^ 8 - 1 - a % 2 ^ 8))
  | .U16 a => .ok (.U16 (2 ^ 16 - 1 - a % 2 ^ 16))
  | .U32 a => .ok (.U32 (2 ^ 32 - 1 - a % 2 ^ 32))
  | .U64 a => .ok (.U64 (2 ^ 64 - 1 - a % 2 ^ 64))
  | _ => .error "Invalid type for bitwise NOT"

/-- Shift amount extraction shared by `shift_left`/`shift_right`:
a non-negative `I32` or a `U32`. -/
def shiftAmount : Value → Except String Nat
  | .I32 s =>
      if 0 ≤ s then .ok s.toNat
      else .error "Shift amount must be non-negative integer"
  | .U32 s => .ok s
  | _ => .error "Shift amount must be non-negative integer"

/-- src/types.rs `Value::shift_left` (`wrapping_shl`: the amount is taken
mod the width). -/
def shift_left : Value → Value → Except String Value
  | v, other => do
    let s ← shiftAmount other
    match v with
    | .I8 a => .ok (.I8 (wrapS 8 (a * 2 ^ (s % 8))))
    | .I16 a => .ok (.I16 (wrapS 16 (a * 2 ^ (s % 16))))
    | .I32 a => .ok (.I32 (wrapS 32 (a * 2 ^ (s % 32))))
    | .I64 a => .ok (.I64 (wrapS 64 (a * 2 ^ (s % 64))))
    | .U8 a => .ok (.U8 (a * 2 ^ (s % 8) % 2 ^ 8))
    | .U16 a => .ok (.U16 (a * 2 ^ (s % 16) % 2 ^ 16))
    | .U32 a => .ok (.U32 (a * 2 ^ (s % 32) % 2 ^ 32))
    | .U64 a => .ok (.U64 (a * 2 ^ (s % 64) % 2 ^ 64))
    | _ => .error "Invalid type for shift left"

/-- src/types.rs `Value::shift_right` (`wrapping_shr`: arithmetic shift on
signed arms, logical on unsigned; the amount is taken mod the width). -/
def shift_right : Value → Value → Except String Value
  | v, other => do
    let s ← shiftAmount other
    match v with
    | .I8 a => .ok (.I8 (Int.fdiv a (2 ^ (s % 8))))
    | .I16 a => .ok (.I16 (Int.fdiv a (2 ^ (s % 16))))
    | .I32 a => .ok (.I32 (Int.fdiv a (2 ^ (s % 32))))
    | .I64 a => .ok (.I64 (Int.fdiv a (2 ^ (s % 64))))
    | .U8 a => .ok (.U8 (a / 2 ^ (s % 8)))
    | .U16 a => .ok (.U16 (a / 2 ^ (s % 16)))
    | .U32 a => .ok (.U32 (a / 2 ^ (s % 32)))
    | .U64 a => .ok (.U64 (a / 2 ^ (s % 64)))
    | _ => .error "Invalid type for shift right"

/-- The integer value a `Value` converts from in `as` casts: signed and
`Ptr`/unsigned payloads as integers (used for the integer sources of the
`as_iN`/`as_uN` helpers). -/
def intPayload : Value → Option Int
  | .I8 v | .I16 v | .I32 v | .I64 v => some v
  | .U8 v | .U16 v | .U32 v | .U64 v => some v
  | .Ptr v => some v
  | _ => none

/-- Cast of any value to a signed target of width `w`
(src/types.rs `as_i8`/`as_i16`/`as_i32`/`as_i64`: integer sources wrap,
float sources saturate). -/
def castS (F : SemParams) (w : Nat) : Value → Int
  | .F32 v => F.f32asInt v (-(2 ^ (w - 1))) (2 ^ (w - 1) - 1)
  | .F64 v => F.f64asInt v (-(2 ^ (w - 1))) (2 ^ (w - 1) - 1)
  | v => wrapS w ((intPayload v).getD 0)

/-- Cast of any value to an unsigned target of width `w`
(src/types.rs `as_u8`/`as_u16`/`as_u32`/`as_u64`). -/
def castU (F : SemParams) (w : Nat) : Value → Nat
  | .F32 v => (F.f32asInt v 0 (2 ^ w - 1)).toNat
  | .F64 v => (F.f64asInt v 0 (2 ^ w - 1)).toNat
  | v => wrapU w ((intPayload v).getD 0)

/-- src/types.rs `as_f32`. -/
def castF32 (F : SemParams) : Value → Nat
  | .F32 v => v
  | .F64 v => F.f64toF32 v
  | v => F.intToF32 ((intPayload v).getD 0)

/-- src/types.rs `as_f64`. -/
def castF64 (F : SemParams) : Value → Nat
  | .F64 v => v
  | .F32 v => F.f32toF64 v
  | v => F.intToF64 ((intPayload v).getD 0)

/-- src/types.rs `Value::cast`: dispatch on the target type; only the
`Void` target (and a `Ptr` target on a negative or float source, via
`as_usize`) fails. -/
def cast (F : SemParams) (v : Value) : DataType → Except String Value
  | .I8 => .ok (.I8 (castS F 8 v))
  | .I16 => .ok (.I16 (castS F 16 v))
  | .I32 => .ok (.I32 (castS F 32 v))
  | .I64 => .ok (.I64 (castS F 64 v))
  | .U8 => .ok (.U8 (castU F 8 v))
  | .U16 => .ok (.U16 (castU F 16 v))
  | .U32 => .ok (.U32 (castU F 32 v))
  | .U64 => .ok (.U64 (castU F 64 v))
  | .F32 => .ok (.F32 (castF32 F v))
  | .F64 => .ok (.F64 (castF64 F v))
  | .Ptr => do
      let n ← v.as_usize
      .ok (.Ptr n)
  | .Void => .error "Cannot cast to Void type"

end Value

/-! ## Association-list model of `std::collections::HashMap`

The Rust maps (globals, locals, heap, function table, label table) are
modelled as association lists with replace-on-insert, matching `HashMap`
lookup/insert/remove semantics (iteration order is the list order; the
interpreter only iterates the heap map, in `find_heap_allocation`). -/

def aget {κ α : Type} [DecidableEq κ] (k : κ) : List (κ × α) → Option α
  | [] => none
  | (k1, v) :: t => if k1 = k then some v else aget k t

def aset {κ α : Type} [DecidableEq κ] (k : κ) (v : α) : List (κ × α) → List (κ × α)
  | [] => [(k, v)]
  | (k1, v1) :: t => if k1 = k then (k, v) :: t else (k1, v1) :: aset k v t

def aerase {κ α : Type} [DecidableEq κ] (k : κ) (l : List (κ × α)) : List (κ × α) :=
  l.filter (fun p => decide (p.1 ≠ k))

/-! ## Program image (src/program.rs) -/

/-- src/program.rs `Variable`. -/
structure Variable where
  name : Name
  dtype : DataType
  is_global : Bool
  offset : Nat
  size : Nat
  deriving DecidableEq, Repr

/-- src/program.rs `Variable::size_of`. -/
def sizeOfType : DataType → Nat
  | .I8 | .U8 => 1
  | .I16 | .U16 => 2
  | .I32 | .U32 | .F32 => 4
  | .I64 | .U64 | .F64 | .Ptr => 8
  | .Void => 0

/-- src/program.rs `Variable::new`. -/
def Variable.mk0 (name : Name) (dtype : DataType) (is_global : Bool) : Variable :=
  { name := name, dtype := dtype, is_global := is_global, offset := 0,
    size := sizeOfType dtype }

/-- src/program.rs `Function`. -/
structure Function where
  name : Name
  return_type : DataType
  parameters : List Variable
  locals : List Variable
  start_ip : Nat
  end_ip : Nat
  deriving DecidableEq, Repr

/-- Modelled from the spec: §3 `StringLiteral` (a global name plus
content bytes).  The `strings` field of `Program` is used by
`VM::initialize_strings` (src/vm.rs) and `Assembler::assemble_program`
(src/asm/assembler.rs) but its declaration is missing from
src/program.rs. -/
structure StrLit where
  content : List Nat
  global_name : Name
  deriving DecidableEq, Repr

/-- src/program.rs `Program` (function and label `HashMap`s as
association lists; the optional source map, which only affects error
message formatting, is omitted). -/
structure Program where
  instructions : List OpCode
  globals : List Variable
  functions : List (Name × Function)
  labels : List (Name × Nat)
  strings : List StrLit
  deriving DecidableEq, Repr

/-! ## Interpreter state (src/vm.rs) -/

/-- src/vm.rs `CallFrame`. -/
structure CallFrame where
  function_name : Name
  return_ip : Nat
  locals : List (Name × Value)
  return_dest : Option Name
  args : List Value
  deriving DecidableEq, Repr

/-- src/vm.rs `VM`.  Debugging and profiling hooks (breakpoints, debug
callback, profile counters) are omitted: without a host callback they do
not alter execution.  Standard input is modelled as the list of parsed
`i32` values `Input` will read; standard output as the list of
`(name, value)` pairs `Print` has emitted. -/
structure VM where
  program : Program
  ip : Nat
  globals : List (Name × Value)
  call_stack : List CallFrame
  current_frame : CallFrame
  heap : List (Nat × List Nat)
  next_heap_addr : Nat
  running : Bool
  input : List Int
  output : List (Name × Value)
  deriving Repr

/-- The UTF-8 bytes of `"main"`. -/
def mainName : Name := [109, 97, 105, 110]

/-- src/vm.rs `VM::default_value`. -/
def defaultValue : DataType → Value
  | .I8 => .I8 0
  | .I16 => .I16 0
  | .I32 => .I32 0
  | .I64 => .I64 0
  | .U8 => .U8 0
  | .U16 => .U16 0
  | .U32 => .U32 0
  | .U64 => .U64 0
  | .F32 => .F32 0
  | .F64 => .F64 0
  | .Ptr => .Ptr 0
  | .Void => .I32 0

/-- The globals-initialization loop of src/vm.rs `VM::new`: for each
declared global, insert `Value::I32(0)` keyed by its name. -/
def initGlobals (globals : List Variable) : List (Name × Value) :=
  globals.foldl (fun m g => aset g.name (Value.I32 0) m) []

/-- src/vm.rs `VM::initialize_strings`: allocate each string literal
(content plus a zero terminator) at `next_heap_addr`, advance it, and
bind the named global to a `Ptr`. -/
def initStrings (st : VM) : VM :=
  st.program.strings.foldl
    (fun s lit =>
      let bytes := lit.content ++ [0]
      let addr := s.next_heap_addr
      { s with
        next_heap_addr := addr + bytes.length
        heap := aset addr bytes s.heap
        globals := aset lit.global_name (Value.Ptr addr) s.globals })
    st

/-- src/vm.rs `VM::new`. -/
def vmNew (program : Program) (input : List Int) : VM :=
  initStrings
    { program := program
      ip := 0
      globals := initGlobals program.globals
      call_stack := []
      current_frame :=
        { function_name := mainName, return_ip := 0, locals := [],
          return_dest := none, args := [] }
      heap := []
      next_heap_addr := 0x1000
      running := true
      input := input
      output := [] }

/-! ## Variable resolution and heap access (src/vm.rs) -/

/-- src/vm.rs `VM::get_variable`: current frame's locals first, then
globals. -/
def getVariable (st : VM) (name : Name) : Except String Value :=
  match aget name st.current_frame.locals with
  | some v => .ok v
  | none =>
    match aget name st.globals with
    | some v => .ok v
    | none => .error "Unknown variable"

/-- src/vm.rs `VM::set_variable`: write to locals if the name is already
a local, else to globals if it exists there, else error. -/
def setVariable (st : VM) (name : Name) (value : Value) : Except String VM :=
  if (aget name st.current_frame.locals).isSome then
    .ok { st with current_frame :=
            { st.current_frame with
                locals := aset name value st.current_frame.locals } }
  else if (aget name st.globals).isSome then
    .ok { st with globals := aset name value st.globals }
  else
    .error "Unknown variable"

/-- src/vm.rs `VM::resolve_operand`. -/
def resolveOperand (st : VM) : Operand → Except String Value
  | .Variable name => getVariable st name
  | .Immediate v => .ok v
  | .Label _ => .error "Cannot resolve label as value"
  | .Type _ => .error "Cannot resolve type as value"

/-- src/vm.rs `VM::find_heap_allocation`: linear scan for the block whose
range `[base, base + len)` contains `addr`; returns the base and the
offset within the block. -/
def findHeapAllocation (heap : List (Nat × List Nat)) (addr : Nat) :
    Except String (Nat × Nat) :=
  match heap with
  | [] => .error "Invalid pointer"
  | (base, bytes) :: rest =>
    if base ≤ addr ∧ addr < base + bytes.length then .ok (base, addr - base)
    else findHeapAllocation rest addr

/-- src/vm.rs `VM::load_bytes_from_heap`. -/
def loadBytesFromHeap (heap : List (Nat × List Nat)) (addr count : Nat) :
    Except String (List Nat) := do
  let (base, offset) ← findHeapAllocation heap addr
  match aget base heap with
  | none => .error "Heap allocation not found"
  | some allocation =>
    if offset + count > allocation.length then .error "Read out of bounds"
    else .ok ((allocation.drop offset).take count)

/-- src/vm.rs `VM::store_bytes_to_heap`: bounds-checked in-place
overwrite of `bytes.length` bytes at the computed offset. -/
def storeBytesToHeap (heap : List (Nat × List Nat)) (addr : Nat)
    (bytes : List Nat) : Except String (List (Nat × List Nat)) := do
  let (base, offset) ← findHeapAllocation heap addr
  match aget base heap with
  | none => .error "Heap allocation not found"
  | some allocation =>
    if offset + bytes.length > allocation.length then
      .error "Write out of bounds"
    else
      .ok (aset base
            (allocation.take offset ++ bytes ++
              allocation.drop (offset + bytes.length)) heap)

/-- Little-endian bytes of `n`, `k` bytes long. -/
def leBytes : Nat → Nat → List Nat
  | 0, _ => []
  | k + 1, n => n % 256 :: leBytes k (n / 256)

/-- Natural number read from a little-endian byte list. -/
def fromLE : List Nat → Nat
  | [] => 0
  | b :: t => b + 256 * fromLE t

/-- Signed reading of a `w`-bit little-endian value. -/
def toSigned (w n : Nat) : Int :=
  if n < 2 ^ (w - 1) then (n : Int) else (n : Int) - 2 ^ w

/-- The byte count src/vm.rs computes for a `Load` of each data type. -/
def loadByteCount : DataType → Nat
  | .I8 | .U8 => 1
  | .I16 | .U16 => 2
  | .I32 | .U32 | .F32 => 4
  | .I64 | .U64 | .F64 | .Ptr => 8
  | .Void => 0

/-- src/vm.rs `VM::bytes_to_value`: checked little-endian read of the
arm matching `dtype`. -/
def bytesToValue (bytes : List Nat) (dtype : DataType) : Except String Value :=
  match dtype with
  | .I8 =>
    if bytes.length < 1 then .error "Insufficient bytes for I8"
    else .ok (.I8 (toSigned 8 (fromLE (bytes.take 1))))
  | .I16 =>
    if bytes.length < 2 then .error "Insufficient bytes for I16"
    else .ok (.I16 (toSigned 16 (fromLE (bytes.take 2))))
  | .I32 =>
    if bytes.length < 4 then .error "Insufficient bytes for I32"
    else .ok (.I32 (toSigned 32 (fromLE (bytes.take 4))))
  | .I64 =>
    if bytes.length < 8 then .error "Insufficient bytes for I64"
    else .ok (.I64 (toSigned 64 (fromLE (bytes.take 8))))
  | .U8 =>
    if bytes.length < 1 then .error "Insufficient bytes for U8"
    else .ok (.U8 (fromLE (bytes.take 1)))
  | .U16 =>
    if bytes.length < 2 then .error "Insufficient bytes for U16"
    else .ok (.U16 (fromLE (bytes.take 2)))
  | .U32 =>
    if bytes.length < 4 then .error "Insufficient bytes for U32"
    else .ok (.U32 (fromLE (bytes.take 4)))
  | .U64 =>
    if bytes.length < 8 then .error "Insufficient bytes for U64"
    else .ok (.U64 (fromLE (bytes.take 8)))
  | .F32 =>
    if bytes.length < 4 then .error "Insufficient bytes for F32"
    else .ok (.F32 (fromLE (bytes.take 4)))
  | .F64 =>
    if bytes.length < 8 then .error "Insufficient bytes for F64"
    else .ok (.F64 (fromLE (bytes.take 8)))
  | .Ptr =>
    if bytes.length < 8 then .error "Insufficient bytes for Ptr"
    else .ok (.Ptr (fromLE (bytes.take 8)))
  | .Void => .error "Cannot read Void type from memory"

/-- src/vm.rs `VM::value_to_bytes`: little-endian bytes when the value's
arm matches `dtype`, else a type-mismatch error. -/
def valueToBytes (value : Value) (dtype : DataType) : Except String (List Nat) :=
  match value, dtype with
  | .I8 v, .I8 => .ok (leBytes 1 (wrapU 8 v))
  | .I16 v, .I16 => .ok (leBytes 2 (wrapU 16 v))
  | .I32 v, .I32 => .ok (leBytes 4 (wrapU 32 v))
  | .I64 v, .I64 => .ok (leBytes 8 (wrapU 64 v))
  | .U8 v, .U8 => .ok [v % 256]
  | .U16 v, .U16 => .ok (leBytes 2 v)
  | .U32 v, .U32 => .ok (leBytes 4 v)
  | .U64 v, .U64 => .ok (leBytes 8 v)
  | .F32 v, .F32 => .ok (leBytes 4 v)
  | .F64 v, .F64 => .ok (leBytes 8 v)
  | .Ptr v, .Ptr => .ok (leBytes 8 v)
  | _, _ => .error "Type mismatch: cannot store value as this type"

/-! ## Instruction execution (src/vm.rs `VM::execute_one`) -/

/-- src/vm.rs `binary_op!`: resolve both operands, apply the `Value`
method, store the result. -/
def binaryOp (st : VM) (dest : Name) (left right : Operand)
    (method : Value → Value → Except String Value) : Except String VM := do
  let l ← resolveOperand st left
  let r ← resolveOperand st right
  let v ← method l r
  setVariable st dest v

/-- src/vm.rs `comparison_op!`: the boolean becomes `I32 1` or `I32 0`. -/
def comparisonOp (st : VM) (dest : Name) (left right : Operand)
    (method : Value → Value → Except String Bool) : Except String VM := do
  let l ← resolveOperand st left
  let r ← resolveOperand st right
  let b ← method l r
  setVariable st dest (.I32 (if b then 1 else 0))

/-- src/vm.rs `unary_op!`. -/
def unaryOp (st : VM) (dest : Name) (source : Operand)
    (method : Value → Except String Value) : Except String VM := do
  let v ← resolveOperand st source
  let r ← method v
  setVariable st dest r

/-- Rust `f32::min` on bit patterns: NaN operands are ignored. -/
def fmin (m e a b : Nat) : Nat :=
  if floatIsNan m e a then b else if floatIsNan m e b then a
  else if floatKey m e a ≤ floatKey m e b then a else b

/-- Rust `f32::max` on bit patterns. -/
def fmax (m e a b : Nat) : Nat :=
  if floatIsNan m e a then b else if floatIsNan m e b then a
  else if floatKey m e a ≤ floatKey m e b then b else a

/-- src/vm.rs `OpCode::GetAddr`: simulated address, the wrapping sum of
the variable name's bytes. -/
def fakeAddr (var : Name) : Nat :=
  var.foldl (fun acc b => (acc + b) % 2 ^ 64) 0

/-- src/vm.rs `VM::execute_one`: one instruction, dispatched after `ip`
was already incremented by the caller. -/
def execOne (F : SemParams) (st : VM) : OpCode → Except String VM
  | .CreateLocal dtype name =>
    .ok { st with current_frame :=
            { st.current_frame with
                locals := aset name (defaultValue dtype) st.current_frame.locals } }
  | .CreateGlobal dtype name =>
    .ok { st with globals := aset name (defaultValue dtype) st.globals }
  | .DeleteLocal name =>
    .ok { st with current_frame :=
            { st.current_frame with
                locals := aerase name st.current_frame.locals } }
  | .SetVar dest value => do
    let v ← resolveOperand st value
    setVariable st dest v
  | .CopyVar dest source => do
    let v ← getVariable st source
    setVariable st dest v
  | .Alloc dest size => do
    let size ← (← resolveOperand st size).as_usize
    let addr := st.next_heap_addr
    let st := { st with
      heap := aset addr (List.replicate size 0) st.heap
      next_heap_addr := st.next_heap_addr + size }
    setVariable st dest (.Ptr addr)
  | .Free ptr => do
    let addr ← (← getVariable st ptr).as_usize
    .ok { st with heap := aerase addr st.heap }
  | .Load dest ptr dtype => do
    let addr ← (← getVariable st ptr).as_usize
    let bytes ← loadBytesFromHeap st.heap addr (loadByteCount dtype)
    let value ← bytesToValue bytes dtype
    setVariable st dest value
  | .Store ptr source dtype => do
    let addr ← (← getVariable st ptr).as_usize
    let value ← getVariable st source
    let bytes ← valueToBytes value dtype
    let heap ← storeBytesToHeap st.heap addr bytes
    .ok { st with heap := heap }
  | .GetAddr dest var =>
    setVariable st dest (.Ptr (fakeAddr var))
  | .Add dest left right => binaryOp st dest left right (Value.add F)
  | .Sub dest left right => binaryOp st dest left right (Value.sub F)
  | .Mul dest left right => binaryOp st dest left right (Value.mul F)
  | .Div dest left right => binaryOp st dest left right (Value.div F)
  | .Mod dest left right => binaryOp st dest left right Value.modulo
  | .Neg dest source => unaryOp st dest source Value.neg
  | .Eq dest left right => do
    let l ← resolveOperand st left
    let r ← resolveOperand st right
    setVariable st dest (.I32 (if F.valueEquals l r then 1 else 0))
  | .Ne dest left right => do
    let l ← resolveOperand st left
    let r ← resolveOperand st right
    setVariable st dest (.I32 (if F.valueEquals l r then 0 else 1))
  | .Lt dest left right => comparisonOp st dest left right Value.lt
  | .Le dest left right => comparisonOp st dest left right Value.le
  | .Gt dest left right => comparisonOp st dest left right Value.gt
  | .Ge dest left right => comparisonOp st dest left right Value.ge
  | .And dest left right => binaryOp st dest left right Value.bitwise_and
  | .Or dest left right => binaryOp st dest left right Value.bitwise_or
  | .Xor dest left right => binaryOp st dest left right Value.bitwise_xor
  | .Not dest source => unaryOp st dest source Value.bitwise_not
  | .Shl dest left right => binaryOp st dest left right Value.shift_left
  | .Shr dest left right => binaryOp st dest left right Value.shift_right
  | .Cast dest source target_type => do
    let v ← getVariable st source
    let r ← v.cast F target_type
    setVariable st dest r
  | .Input dest => do
    match st.input with
    | [] => .error "Failed to read input"
    | v :: rest => setVariable { st with input := rest } dest (.I32 v)
  | .PushArg var => do
    let _ ← getVariable st var
    .ok st
  | .Label _ => .ok st
  | .Jmp label =>
    match aget label st.program.labels with
    | some target => .ok { st with ip := target }
    | none => .error "Unknown label"
  | .Jz var label => do
    let v ← getVariable st var
    if v.is_zero then
      match aget label st.program.labels with
      | some target => .ok { st with ip := target }
      | none => .error "Unknown label"
    else .ok st
  | .Jnz var label => do
    let v ← getVariable st var
    if !v.is_zero then
      match aget label st.program.labels with
      | some target => .ok { st with ip := target }
      | none => .error "Unknown label"
    else .ok st
  | .FuncBegin name _ =>
    match aget name st.program.functions with
    | some func => .ok { st with ip := func.end_ip + 1 }
    | none => .error "Unknown function"
  | .FuncEnd => .ok st
  | .Call result func args =>
    match aget func st.program.functions with
    | none => .error "Unknown function"
    | some func_def => do
      let arg_values ← args.mapM (resolveOperand st)
      let frame :=
        { st.current_frame with return_ip := st.ip, return_dest := result }
      .ok { st with
        current_frame :=
          { function_name := func, return_ip := 0, locals := [],
            return_dest := none, args := arg_values }
        call_stack := frame :: st.call_stack
        ip := func_def.start_ip + 1 }
  | .Return value => do
    let ret_val ← match value with
      | none => pure none
      | some op => do pure (some (← resolveOperand st op))
    match st.call_stack with
    | frame :: rest =>
      let st := { st with
        ip := frame.return_ip
        current_frame := frame
        call_stack := rest }
      match ret_val, frame.return_dest with
      | some val, some dest => setVariable st dest val
      | _, _ => .ok st
    | [] => .ok { st with running := false }
  | .PopArg dest =>
    match st.current_frame.args with
    | [] => .error "No arguments to pop"
    | val :: rest =>
      .ok { st with current_frame :=
              { st.current_frame with
                  locals := aset dest val st.current_frame.locals
                  args := rest } }
  | .Sqrt dest source => do
    let v ← resolveOperand st source
    let r ← match v with
      | .F32 x => pure (Value.F32 (F.f32sqrt x))
      | .F64 x => pure (Value.F64 (F.f64sqrt x))
      | _ => Except.error "sqrt requires float type"
    setVariable st dest r
  | .Pow dest base exp => do
    let b ← resolveOperand st base
    let e ← resolveOperand st exp
    let r ← match b, e with
      | .F32 x, .F32 y => pure (Value.F32 (F.f32pow x y))
      | .F64 x, .F64 y => pure (Value.F64 (F.f64pow x y))
      | .I32 x, .I32 y => pure (Value.I32 (F.powiI32 x y))
      | _, _ => Except.error "pow requires matching numeric types"
    setVariable st dest r
  | .Abs dest source => do
    let v ← resolveOperand st source
    let r ← match v with
      | .I32 x => pure (Value.I32 (wrapS 32 x.natAbs))
      | .I64 x => pure (Value.I64 (wrapS 64 x.natAbs))
      | .F32 x => pure (Value.F32 (floatAbsBits 23 8 x))
      | .F64 x => pure (Value.F64 (floatAbsBits 52 11 x))
      | _ => Except.error "abs requires numeric type"
    setVariable st dest r
  | .Min dest a b => do
    let x ← resolveOperand st a
    let y ← resolveOperand st b
    let r ← match x, y with
      | .I32 u, .I32 v => pure (Value.I32 (min u v))
      | .I64 u, .I64 v => pure (Value.I64 (min u v))
      | .F32 u, .F32 v => pure (Value.F32 (fmin 23 8 u v))
      | .F64 u, .F64 v => pure (Value.F64 (fmin 52 11 u v))
      | _, _ => Except.error "min requires matching numeric types"
    setVariable st dest r
  | .Max dest a b => do
    let x ← resolveOperand st a
    let y ← resolveOperand st b
    let r ← match x, y with
      | .I32 u, .I32 v => pure (Value.I32 (max u v))
      | .I64 u, .I64 v => pure (Value.I64 (max u v))
      | .F32 u, .F32 v => pure (Value.F32 (fmax 23 8 u v))
      | .F64 u, .F64 v => pure (Value.F64 (fmax 52 11 u v))
      | _, _ => Except.error "max requires matching numeric types"
    setVariable st dest r
  | .Sin dest source => do
    let v ← resolveOperand st source
    let r ← match v with
      | .F32 x => pure (Value.F32 (F.f32sin x))
      | .F64 x => pure (Value.F64 (F.f64sin x))
      | _ => Except.error "sin requires float type"
    setVariable st dest r
  | .Cos dest source => do
    let v ← resolveOperand st source
    let r ← match v with
      | .F32 x => pure (Value.F32 (F.f32cos x))
      | .F64 x => pure (Value.F64 (F.f64cos x))
      | _ => Except.error "cos requires float type"
    setVariable st dest r
  | .Tan dest source => do
    let v ← resolveOperand st source
    let r ← match v with
      | .F32 x => pure (Value.F32 (F.f32tan x))
      | .F64 x => pure (Value.F64 (F.f64tan x))
      | _ => Except.error "tan requires float type"
    setVariable st dest r
  | .Print var => do
    let v ← getVariable st var
    .ok { st with output := st.output ++ [(var, v)] }
  | .Exit _ =>
    .ok { st with running := false }

/-- src/vm.rs `VM::execute_instruction`: fetch the instruction at `ip`,
pre-increment `ip`, then execute (the source-map error decoration is
omitted; errors pass through unchanged). -/
def stepOnce (F : SemParams) (st : VM) : Except String VM :=
  match st.program.instructions[st.ip]? with
  | none => .error "instruction pointer out of range"
  | some instruction => execOne F { st with ip := st.ip + 1 } instruction

/-- The `while self.running && self.ip < len` loop of src/vm.rs
`VM::run`, with explicit fuel; `none` means the fuel ran out before the
loop finished. -/
def runLoop (F : SemParams) : Nat → VM → Option (Except String Int)
  | fuel, st =>
    if st.running ∧ st.ip < st.program.instructions.length then
      match fuel with
      | 0 => none
      | fuel + 1 =>
        match stepOnce F st with
        | .error e => some (.error e)
        | .ok st1 => runLoop F fuel st1
    else
      some (.ok 0)

/-- src/vm.rs `VM::run`: require a `main` function, start at its
`start_ip + 1`, loop. -/
def runVM (F : SemParams) (program : Program) (input : List Int)
    (fuel : Nat) : Option (Except String Int) :=
  let st0 := vmNew program input
  match aget mainName program.functions with
  | none => some (.error "No main function found")
  | some main_func => runLoop F fuel { st0 with ip := main_func.start_ip + 1 }

/-- Guarded iteration of `stepOnce`: exactly the states the `run` loop
passes through (`none` when the loop guard fails or a step errors before
`k` steps are taken). -/
def stepsTo (F : SemParams) : Nat → VM → Option VM
  | 0, st => some st
  | k + 1, st =>
    if st.running ∧ st.ip < st.program.instructions.length then
      match stepOnce F st with
      | .error _ => none
      | .ok st1 => stepsTo F k st1
    else none

/-! ## Binary codec (src/bytecode/encoder.rs, src/bytecode/decoder.rs)

Byte buffers are `List Nat` with every entry below 256.  The encoder
writes multi-byte integers little-endian via `leBytes` (which takes the
value mod the width, as the Rust `as u32` casts do). -/

/-- src/bytecode/mod.rs `MAGIC`. -/
def MAGIC : Nat := 0x56424300

/-- src/bytecode/mod.rs `VERSION`. -/
def VERSION : Nat := 1

/-- src/bytecode/encoder.rs `encode_string`: u32 length prefix then the
UTF-8 bytes. -/
def encString (s : Name) : List Nat := leBytes 4 s.length ++ s

/-- src/bytecode/encoder.rs `encode_operand`; `none` models the
`InvalidData` error for immediate arms other than I32/I64/F32/F64. -/
def encOperand : Operand → Option (List Nat)
  | .Variable name => some (0 :: encString name)
  | .Immediate v =>
    match v with
    | .I32 x => some (1 :: 0 :: leBytes 4 (wrapU 32 x))
    | .I64 x => some (1 :: 1 :: leBytes 8 (wrapU 64 x))
    | .F32 x => some (1 :: 2 :: leBytes 4 x)
    | .F64 x => some (1 :: 3 :: leBytes 8 x)
    | _ => none
  | .Label name => some (2 :: encString name)
  | .Type dtype => some (3 :: [dtype.toByte])

/-- The argument loop of opcode 62 in src/bytecode/encoder.rs:
encode each operand in order into the buffer. -/
def encOperandSeq : List Operand → Option (List Nat)
  | [] => some []
  | a :: t => do pure ((← encOperand a) ++ (← encOperandSeq t))

/-- src/bytecode/encoder.rs `encode_opcode`: fixed one-byte opcode IDs
followed by the operand bodies. -/
def encOpcode : OpCode → Option (List Nat)
  | .CreateLocal dtype name => some (0 :: dtype.toByte :: encString name)
  | .CreateGlobal dtype name => some (1 :: dtype.toByte :: encString name)
  | .DeleteLocal name => some (2 :: encString name)
  | .SetVar dest value => do
    some (3 :: encString dest ++ (← encOperand value))
  | .CopyVar dest source => some (4 :: encString dest ++ encString source)
  | .Alloc dest size => do some (5 :: encString dest ++ (← encOperand size))
  | .Free ptr => some (6 :: encString ptr)
  | .Load dest ptr dtype =>
    some (7 :: encString dest ++ encString ptr ++ [dtype.toByte])
  | .Store ptr source dtype =>
    some (8 :: encString ptr ++ encString source ++ [dtype.toByte])
  | .GetAddr dest var => some (9 :: encString dest ++ encString var)
  | .Add dest left right => do
    some (10 :: encString dest ++ (← encOperand left) ++ (← encOperand right))
  | .Sub dest left right => do
    some (11 :: encString dest ++ (← encOperand left) ++ (← encOperand right))
  | .Mul dest left right => do
    some (12 :: encString dest ++ (← encOperand left) ++ (← encOperand right))
  | .Div dest left right => do
    some (13 :: encString dest ++ (← encOperand left) ++ (← encOperand right))
  | .Mod dest left right => do
    some (14 :: encString dest ++ (← encOperand left) ++ (← encOperand right))
  | .Neg dest source => do
    some (15 :: encString dest ++ (← encOperand source))
  | .And dest left right => do
    some (16 :: encString dest ++ (← encOperand left) ++ (← encOperand right))
  | .Or dest left right => do
    some (17 :: encString dest ++ (← encOperand left) ++ (← encOperand right))
  | .Xor dest left right => do
    some (18 :: encString dest ++ (← encOperand left) ++ (← encOperand right))
  | .Not dest source => do
    some (19 :: encString dest ++ (← encOperand source))
  | .Shl dest left right => do
    some (20 :: encString dest ++ (← encOperand left) ++ (← encOperand right))
  | .Shr dest left right => do
    some (21 :: encString dest ++ (← encOperand left) ++ (← encOperand right))
  | .Eq dest left right => do
    some (30 :: encString dest ++ (← encOperand left) ++ (← encOperand right))
  | .Ne dest left right => do
    some (31 :: encString dest ++ (← encOperand left) ++ (← encOperand right))
  | .Lt dest left right => do
    some (32 :: encString dest ++ (← encOperand left) ++ (← encOperand right))
  | .Le dest left right => do
    some (33 :: encString dest ++ (← encOperand left) ++ (← encOperand right))
  | .Gt dest left right => do
    some (34 :: encString dest ++ (← encOperand left) ++ (← encOperand right))
  | .Ge dest left right => do
    some (35 :: encString dest ++ (← encOperand left) ++ (← encOperand right))
  | .Label name => some (50 :: encString name)
  | .Jmp label => some (51 :: encString label)
  | .Jz var label => some (52 :: encString var ++ encString label)
  | .Jnz var label => some (53 :: encString var ++ encString label)
  | .FuncBegin name return_type =>
    some (60 :: encString name ++ [return_type.toByte])
  | .FuncEnd => some [61]
  | .Call result func args => do
    let header := match result with
      | some r => 1 :: encString r
      | none => [0]
    let body ← encOperandSeq args
    some (62 :: header ++ encString func ++ leBytes 4 args.length ++ body)
  | .Return value => do
    match value with
    | some v => some (63 :: 1 :: (← encOperand v))
    | none => some [63, 0]
  | .PushArg var => some (64 :: encString var)
  | .PopArg dest => some (65 :: encString dest)
  | .Cast dest source target_type =>
    some (80 :: encString dest ++ encString source ++ [target_type.toByte])
  | .Sqrt dest source => do some (90 :: encString dest ++ (← encOperand source))
  | .Pow dest base exp => do
    some (91 :: encString dest ++ (← encOperand base) ++ (← encOperand exp))
  | .Abs dest source => do some (92 :: encString dest ++ (← encOperand source))
  | .Min dest a b => do
    some (93 :: encString dest ++ (← encOperand a) ++ (← encOperand b))
  | .Max dest a b => do
    some (94 :: encString dest ++ (← encOperand a) ++ (← encOperand b))
  | .Sin dest source => do some (95 :: encString dest ++ (← encOperand source))
  | .Cos dest source => do some (96 :: encString dest ++ (← encOperand source))
  | .Tan dest source => do some (97 :: encString dest ++ (← encOperand source))
  | .Print var => some (70 :: encString var)
  | .Input dest => some (72 :: encString dest)
  | .Exit code => do some (71 :: (← encOperand code))

/-- src/bytecode/encoder.rs `encode_globals`. -/
def encGlobals (globals : List Variable) : List Nat :=
  leBytes 4 globals.length ++
    (globals.map (fun g => encString g.name ++ [g.dtype.toByte])).flatten

/-- src/bytecode/encoder.rs `encode_functions` (iterating the map in
list order). -/
def encFunctions (functions : List (Name × Function)) : List Nat :=
  leBytes 4 functions.length ++
    (functions.map (fun p =>
      encString p.1 ++ p.2.return_type.toByte ::
        (leBytes 4 p.2.start_ip ++ leBytes 4 p.2.end_ip))).flatten

/-- src/bytecode/encoder.rs `encode_labels`. -/
def encLabels (labels : List (Name × Nat)) : List Nat :=
  leBytes 4 labels.length ++
    (labels.map (fun p => encString p.1 ++ leBytes 4 p.2)).flatten

/-- The instruction loop of src/bytecode/encoder.rs
`encode_instructions`. -/
def encOpcodeSeq : List OpCode → Option (List Nat)
  | [] => some []
  | a :: t => do pure ((← encOpcode a) ++ (← encOpcodeSeq t))

/-- src/bytecode/encoder.rs `encode_instructions`. -/
def encInstructions (instructions : List OpCode) : Option (List Nat) := do
  some (leBytes 4 instructions.length ++ (← encOpcodeSeq instructions))

/-- src/bytecode/encoder.rs `encode`. -/
def encodeProgram (p : Program) : Option (List Nat) := do
  let instrs ← encInstructions p.instructions
  some (leBytes 4 MAGIC ++ leBytes 4 VERSION ++
    encGlobals p.globals ++ encFunctions p.functions ++
    encLabels p.labels ++ instrs)

/-! ### Decoder -/

/-- src/bytecode/decoder.rs `read_u8` (cursor modelled by consuming the
front of the byte list). -/
def readU8 : List Nat → Option (Nat × List Nat)
  | [] => none
  | b :: t => some (b, t)

/-- src/bytecode/decoder.rs `read_u32`: 4 bytes little-endian. -/
def readU32 : List Nat → Option (Nat × List Nat)
  | b0 :: b1 :: b2 :: b3 :: t => some (fromLE [b0, b1, b2, b3], t)
  | _ => none

/-- src/bytecode/decoder.rs `read_i32`. -/
def readI32 (l : List Nat) : Option (Int × List Nat) := do
  let (n, t) ← readU32 l
  some (toSigned 32 n, t)

/-- src/bytecode/decoder.rs `read_u64`-style 8-byte read (used by
`read_i64` and `read_f64`). -/
def readU64 : List Nat → Option (Nat × List Nat)
  | b0 :: b1 :: b2 :: b3 :: b4 :: b5 :: b6 :: b7 :: t =>
    some (fromLE [b0, b1, b2, b3, b4, b5, b6, b7], t)
  | _ => none

/-- src/bytecode/decoder.rs `read_i64`. -/
def readI64 (l : List Nat) : Option (Int × List Nat) := do
  let (n, t) ← readU64 l
  some (toSigned 64 n, t)

/-- UTF-8 validity of a byte sequence (the check `String::from_utf8`
performs in src/bytecode/decoder.rs `read_string`). -/
def utf8Valid : List Nat → Bool
  | [] => true
  | b :: t =>
    if b < 0x80 then utf8Valid t
    else if 0xC2 ≤ b ∧ b ≤ 0xDF then
      match t with
      | c :: t2 => (0x80 ≤ c ∧ c ≤ 0xBF : Bool) && utf8Valid t2
      | _ => false
    else if b = 0xE0 then
      match t with
      | c1 :: c2 :: t2 =>
        (0xA0 ≤ c1 ∧ c1 ≤ 0xBF : Bool) && (0x80 ≤ c2 ∧ c2 ≤ 0xBF : Bool) &&
          utf8Valid t2
      | _ => false
    else if (0xE1 ≤ b ∧ b ≤ 0xEC) ∨ b = 0xEE ∨ b = 0xEF then
      match t with
      | c1 :: c2 :: t2 =>
        (0x80 ≤ c1 ∧ c1 ≤ 0xBF : Bool) && (0x80 ≤ c2 ∧ c2 ≤ 0xBF : Bool) &&
          utf8Valid t2
      | _ => false
    else if b = 0xED then
      match t with
      | c1 :: c2 :: t2 =>
        (0x80 ≤ c1 ∧ c1 ≤ 0x9F : Bool) && (0x80 ≤ c2 ∧ c2 ≤ 0xBF : Bool) &&
          utf8Valid t2
      | _ => false
    else if b = 0xF0 then
      match t with
      | c1 :: c2 :: c3 :: t2 =>
        (0x90 ≤ c1 ∧ c1 ≤ 0xBF : Bool) && (0x80 ≤ c2 ∧ c2 ≤ 0xBF : Bool) &&
          (0x80 ≤ c3 ∧ c3 ≤ 0xBF : Bool) && utf8Valid t2
      | _ => false
    else if 0xF1 ≤ b ∧ b ≤ 0xF3 then
      match t with
      | c1 :: c2 :: c3 :: t2 =>
        (0x80 ≤ c1 ∧ c1 ≤ 0xBF : Bool) && (0x80 ≤ c2 ∧ c2 ≤ 0xBF : Bool) &&
          (0x80 ≤ c3 ∧ c3 ≤ 0xBF : Bool) && utf8Valid t2
      | _ => false
    else if b = 0xF4 then
      match t with
      | c1 :: c2 :: c3 :: t2 =>
        (0x80 ≤ c1 ∧ c1 ≤ 0x8F : Bool) && (0x80 ≤ c2 ∧ c2 ≤ 0xBF : Bool) &&
          (0x80 ≤ c3 ∧ c3 ≤ 0xBF : Bool) && utf8Valid t2
      | _ => false
    else false

/-- src/bytecode/decoder.rs `read_string`: u32 length, that many bytes,
UTF-8 validation. -/
def readString (l : List Nat) : Option (Name × List Nat) := do
  let (len, r) ← readU32 l
  if len ≤ r.length then
    let bytes := r.take len
    if utf8Valid bytes then some (bytes, r.drop len) else none
  else none

/-- src/bytecode/decoder.rs `read_datatype`. -/
def readDatatype (l : List Nat) : Option (DataType × List Nat) := do
  let (b, t) ← readU8 l
  match b with
  | 0 => some (.I8, t)
  | 1 => some (.I16, t)
  | 2 => some (.I32, t)
  | 3 => some (.I64, t)
  | 4 => some (.U8, t)
  | 5 => some (.U16, t)
  | 6 => some (.U32, t)
  | 7 => some (.U64, t)
  | 8 => some (.F32, t)
  | 9 => some (.F64, t)
  | 10 => some (.Ptr, t)
  | 11 => some (.Void, t)
  | _ => none

/-- src/bytecode/decoder.rs `read_operand`. -/
def readOperand (l : List Nat) : Option (Operand × List Nat) := do
  let (tag, r) ← readU8 l
  match tag with
  | 0 => do
    let (name, r1) ← readString r
    some (.Variable name, r1)
  | 1 => do
    let (vt, r1) ← readU8 r
    match vt with
    | 0 => do
      let (v, r2) ← readI32 r1
      some (.Immediate (.I32 v), r2)
    | 1 => do
      let (v, r2) ← readI64 r1
      some (.Immediate (.I64 v), r2)
    | 2 => do
      let (v, r2) ← readU32 r1
      some (.Immediate (.F32 v), r2)
    | 3 => do
      let (v, r2) ← readU64 r1
      some (.Immediate (.F64 v), r2)
    | _ => none
  | 2 => do
    let (name, r1) ← readString r
    some (.Label name, r1)
  | 3 => do
    let (dtype, r1) ← readDatatype r
    some (.Type dtype, r1)
  | _ => none

/-- Read `count` operands (the argument loop of opcode 62). -/
def readOperands : Nat → List Nat → Option (List Operand × List Nat)
  | 0, l => some ([], l)
  | k + 1, l => do
    let (op, r) ← readOperand l
    let (ops, r1) ← readOperands k r
    some (op :: ops, r1)

/-- src/bytecode/decoder.rs `decode_opcode`. -/
def readOpcode (l : List Nat) : Option (OpCode × List Nat) := do
  let (opcode_id, r) ← readU8 l
  match opcode_id with
  | 0 => do
    let (dtype, r1) ← readDatatype r
    let (name, r2) ← readString r1
    some (.CreateLocal dtype name, r2)
  | 1 => do
    let (dtype, r1) ← readDatatype r
    let (name, r2) ← readString r1
    some (.CreateGlobal dtype name, r2)
  | 2 => do
    let (name, r1) ← readString r
    some (.DeleteLocal name, r1)
  | 3 => do
    let (dest, r1) ← readString r
    let (value, r2) ← readOperand r1
    some (.SetVar dest value, r2)
  | 4 => do
    let (dest, r1) ← readString r
    let (source, r2) ← readString r1
    some (.CopyVar dest source, r2)
  | 5 => do
    let (dest, r1) ← readString r
    let (size, r2) ← readOperand r1
    some (.Alloc dest size, r2)
  | 6 => do
    let (ptr, r1) ← readString r
    some (.Free ptr, r1)
  | 7 => do
    let (dest, r1) ← readString r
    let (ptr, r2) ← readString r1
    let (dtype, r3) ← readDatatype r2
    some (.Load dest ptr dtype, r3)
  | 8 => do
    let (ptr, r1) ← readString r
    let (source, r2) ← readString r1
    let (dtype, r3) ← readDatatype r2
    some (.Store ptr source dtype, r3)
  | 9 => do
    let (dest, r1) ← readString r
    let (var, r2) ← readString r1
    some (.GetAddr dest var, r2)
  | 10 => do
    let (dest, r1) ← readString r
    let (left, r2) ← readOperand r1
    let (right, r3) ← readOperand r2
    some (.Add dest left right, r3)
  | 11 => do
    let (dest, r1) ← readString r
    let (left, r2) ← readOperand r1
    let (right, r3) ← readOperand r2
    some (.Sub dest left right, r3)
  | 12 => do
    let (dest, r1) ← readString r
    let (left, r2) ← readOperand r1
    let (right, r3) ← readOperand r2
    some (.Mul dest left right, r3)
  | 13 => do
    let (dest, r1) ← readString r
    let (left, r2) ← readOperand r1
    let (right, r3) ← readOperand r2
    some (.Div dest left right, r3)
  | 14 => do
    let (dest, r1) ← readString r
    let (left, r2) ← readOperand r1
    let (right, r3) ← readOperand r2
    some (.Mod dest left right, r3)
  | 15 => do
    let (dest, r1) ← readString r
    let (source, r2) ← readOperand r1
    some (.Neg dest source, r2)
  | 16 => do
    let (dest, r1) ← readString r
    let (left, r2) ← readOperand r1
    let (right, r3) ← readOperand r2
    some (.And dest left right, r3)
  | 17 => do
    let (dest, r1) ← readString r
    let (left, r2) ← readOperand r1
    let (right, r3) ← readOperand r2
    some (.Or dest left right, r3)
  | 18 => do
    let (dest, r1) ← readString r
    let (left, r2) ← readOperand r1
    let (right, r3) ← readOperand r2
    some (.Xor dest left right, r3)
  | 19 => do
    let (dest, r1) ← readString r
    let (source, r2) ← readOperand r1
    some (.Not dest source, r2)
  | 20 => do
    let (dest, r1) ← readString r
    let (left, r2) ← readOperand r1
    let (right, r3) ← readOperand r2
    some (.Shl dest left right, r3)
  | 21 => do
    let (dest, r1) ← readString r
    let (left, r2) ← readOperand r1
    let (right, r3) ← readOperand r2
    some (.Shr dest left right, r3)
  | 30 => do
    let (dest, r1) ← readString r
    let (left, r2) ← readOperand r1
    let (right, r3) ← readOperand r2
    some (.Eq dest left right, r3)
  | 31 => do
    let (dest, r1) ← readString r
    let (left, r2) ← readOperand r1
    let (right, r3) ← readOperand r2
    some (.Ne dest left right, r3)
  | 32 => do
    let (dest, r1) ← readString r
    let (left, r2) ← readOperand r1
    let (right, r3) ← readOperand r2
    some (.Lt dest left right, r3)
  | 33 => do
    let (dest, r1) ← readString r
    let (left, r2) ← readOperand r1
    let (right, r3) ← readOperand r2
    some (.Le dest left right, r3)
  | 34 => do
    let (dest, r1) ← readString r
    let (left, r2) ← readOperand r1
    let (right, r3) ← readOperand r2
    some (.Gt dest left right, r3)
  | 35 => do
    let (dest, r1) ← readString r
    let (left, r2) ← readOperand r1
    let (right, r3) ← readOperand r2
    some (.Ge dest left right, r3)
  | 50 => do
    let (name, r1) ← readString r
    some (.Label name, r1)
  | 51 => do
    let (label, r1) ← readString r
    some (.Jmp label, r1)
  | 52 => do
    let (var, r1) ← readString r
    let (label, r2) ← readString r1
    some (.Jz var label, r2)
  | 53 => do
    let (var, r1) ← readString r
    let (label, r2) ← readString r1
    some (.Jnz var label, r2)
  | 60 => do
    let (name, r1) ← readString r
    let (return_type, r2) ← readDatatype r1
    some (.FuncBegin name return_type, r2)
  | 61 => some (.FuncEnd, r)
  | 62 => do
    let (has_result, r1) ← readU8 r
    let (result, r2) ←
      if has_result = 1 then do
        let (s, r2) ← readString r1
        some (some s, r2)
      else some (none, r1)
    let (func, r3) ← readString r2
    let (arg_count, r4) ← readU32 r3
    let (args, r5) ← readOperands arg_count r4
    some (.Call result func args, r5)
  | 63 => do
    let (has_value, r1) ← readU8 r
    if has_value = 1 then do
      let (v, r2) ← readOperand r1
      some (.Return (some v), r2)
    else some (.Return none, r1)
  | 64 => do
    let (var, r1) ← readString r
    some (.PushArg var, r1)
  | 65 => do
    let (dest, r1) ← readString r
    some (.PopArg dest, r1)
  | 80 => do
    let (dest, r1) ← readString r
    let (source, r2) ← readString r1
    let (target_type, r3) ← readDatatype r2
    some (.Cast dest source target_type, r3)
  | 90 => do
    let (dest, r1) ← readString r
    let (source, r2) ← readOperand r1
    some (.Sqrt dest source, r2)
  | 91 => do
    let (dest, r1) ← readString r
    let (base, r2) ← readOperand r1
    let (exp, r3) ← readOperand r2
    some (.Pow dest base exp, r3)
  | 92 => do
    let (dest, r1) ← readString r
    let (source, r2) ← readOperand r1
    some (.Abs dest source, r2)
  | 93 => do
    let (dest, r1) ← readString r
    let (a, r2) ← readOperand r1
    let (b, r3) ← readOperand r2
    some (.Min dest a b, r3)
  | 94 => do
    let (dest, r1) ← readString r
    let (a, r2) ← readOperand r1
    let (b, r3) ← readOperand r2
    some (.Max dest a b, r3)
  | 95 => do
    let (dest, r1) ← readString r
    let (source, r2) ← readOperand r1
    some (.Sin dest source, r2)
  | 96 => do
    let (dest, r1) ← readString r
    let (source, r2) ← readOperand r1
    some (.Cos dest source, r2)
  | 97 => do
    let (dest, r1) ← readString r
    let (source, r2) ← readOperand r1
    some (.Tan dest source, r2)
  | 70 => do
    let (var, r1) ← readString r
    some (.Print var, r1)
  | 72 => do
    let (dest, r1) ← readString r
    some (.Input dest, r1)
  | 71 => do
    let (code, r1) ← readOperand r
    some (.Exit code, r1)
  | _ => none

/-- src/bytecode/decoder.rs `decode_globals` item loop. -/
def readGlobals : Nat → List Nat → Option (List Variable × List Nat)
  | 0, l => some ([], l)
  | k + 1, l => do
    let (name, r1) ← readString l
    let (dtype, r2) ← readDatatype r1
    let (rest, r3) ← readGlobals k r2
    some (Variable.mk0 name dtype true :: rest, r3)

/-- src/bytecode/decoder.rs `decode_functions` item loop (parameters and
locals are not serialized and decode to empty). -/
def readFunctions : Nat → List Nat → Option (List (Name × Function) × List Nat)
  | 0, l => some ([], l)
  | k + 1, l => do
    let (name, r1) ← readString l
    let (return_type, r2) ← readDatatype r1
    let (start_ip, r3) ← readU32 r2
    let (end_ip, r4) ← readU32 r3
    let func : Function :=
      { name := name, return_type := return_type, parameters := [],
        locals := [], start_ip := start_ip, end_ip := end_ip }
    let (rest, r5) ← readFunctions k r4
    some ((name, func) :: rest, r5)

/-- src/bytecode/decoder.rs `decode_labels` item loop. -/
def readLabels : Nat → List Nat → Option (List (Name × Nat) × List Nat)
  | 0, l => some ([], l)
  | k + 1, l => do
    let (name, r1) ← readString l
    let (addr, r2) ← readU32 r1
    let (rest, r3) ← readLabels k r2
    some ((name, addr) :: rest, r3)

/-- src/bytecode/decoder.rs `decode_instructions` item loop. -/
def readInstructions : Nat → List Nat → Option (List OpCode × List Nat)
  | 0, l => some ([], l)
  | k + 1, l => do
    let (op, r1) ← readOpcode l
    let (rest, r2) ← readInstructions k r1
    some (op :: rest, r2)

/-- src/bytecode/decoder.rs `decode`: magic and version checks, then the
four counted sections. -/
def decodeProgram (data : List Nat) : Option Program := do
  let (magic, r0) ← readU32 data
  if magic ≠ MAGIC then none
  else do
    let (version, r1) ← readU32 r0
    if version ≠ VERSION then none
    else do
      let (gcount, r2) ← readU32 r1
      let (globals, r3) ← readGlobals gcount r2
      let (fcount, r4) ← readU32 r3
      let (functions, r5) ← readFunctions fcount r4
      let (lcount, r6) ← readU32 r5
      let (labels, r7) ← readLabels lcount r6
      let (icount, r8) ← readU32 r7
      let (instructions, _) ← readInstructions icount r8
      some { instructions := instructions, globals := globals,
             functions := functions, labels := labels, strings := [] }

/-! ## Codec round-trip lemmas -/

theorem readU32_leBytes (n : Nat) (r : List Nat) :
    readU32 (leBytes 4 n ++ r) = some (n % 2 ^ 32, r) := by
  simp only [leBytes, List.cons_append, List.nil_append, readU32, fromLE]
  refine congrArg (fun x => some (x, r)) ?_
  omega

theorem readU32_leBytes_of_lt {n : Nat} (h : n < 2 ^ 32) (r : List Nat) :
    readU32 (leBytes 4 n ++ r) = some (n, r) := by
  rw [readU32_leBytes, Nat.mod_eq_of_lt h]

theorem readU64_leBytes (n : Nat) (r : List Nat) :
    readU64 (leBytes 8 n ++ r) = some (n % 2 ^ 64, r) := by
  simp only [leBytes, List.cons_append, List.nil_append, readU64, fromLE]
  refine congrArg (fun x => some (x, r)) ?_
  omega

theorem readU64_leBytes_of_lt {n : Nat} (h : n < 2 ^ 64) (r : List Nat) :
    readU64 (leBytes 8 n ++ r) = some (n, r) := by
  rw [readU64_leBytes, Nat.mod_eq_of_lt h]

/-- Well-formedness of an identifier as the binary codec needs it: its
length fits in a u32 and its bytes are valid UTF-8 (both hold for the
UTF-8 bytes of any Rust `String` of encodable length). -/
def NameWF (s : Name) : Prop := s.length < 2 ^ 32 ∧ utf8Valid s = true

theorem readString_encString {s : Name} (h : NameWF s) (r : List Nat) :
    readString (encString s ++ r) = some (s, r) := by
  simp only [readString, encString, List.append_assoc,
    readU32_leBytes_of_lt h.1, Option.some_bind]
  simp [List.take_left, List.drop_left, h.2, Nat.le_add_right]

theorem readDatatype_toByte (d : DataType) (r : List Nat) :
    readDatatype (d.toByte :: r) = some (d, r) := by
  cases d <;> rfl

theorem wrapU_lt (w : Nat) (x : Int) : wrapU w x < 2 ^ w := by
  have h2 : (0 : Int) < 2 ^ w := by positivity
  have ha := Int.emod_lt_of_pos x h2
  have hb := Int.emod_nonneg x (by omega : (2 : Int) ^ w ≠ 0)
  have hc : ((2 : Int) ^ w) = ((2 ^ w : Nat) : Int) := by push_cast; ring
  rw [hc] at ha hb
  simp only [wrapU]
  omega

theorem toSigned32_wrapU {v : Int} (h1 : -2 ^ 31 ≤ v) (h2 : v < 2 ^ 31) :
    toSigned 32 (wrapU 32 v) = v := by
  simp only [toSigned, wrapU]
  split <;> omega

theorem toSigned64_wrapU {v : Int} (h1 : -2 ^ 63 ≤ v) (h2 : v < 2 ^ 63) :
    toSigned 64 (wrapU 64 v) = v := by
  simp only [toSigned, wrapU]
  split <;> omega

/-- Immediates the codec can round trip: the four encodable arms (the
only arms the assembler emits), with payloads in the ranges actual Rust
`i32`/`i64`/`f32`/`f64` values occupy. -/
def ValueImmWF : Value → Prop
  | .I32 v => -2 ^ 31 ≤ v ∧ v < 2 ^ 31
  | .I64 v => -2 ^ 63 ≤ v ∧ v < 2 ^ 63
  | .F32 b => b < 2 ^ 32
  | .F64 b => b < 2 ^ 64
  | _ => False

def OperandWF : Operand → Prop
  | .Variable n => NameWF n
  | .Immediate v => ValueImmWF v
  | .Label n => NameWF n
  | .Type _ => True

/-- Total version of `encOperand` (proof machinery: agrees with
`encOperand` on well-formed operands; unencodable immediates map to an
arbitrary value). -/
def encOperandT : Operand → List Nat
  | .Variable name => 0 :: encString name
  | .Immediate v =>
    match v with
    | .I32 x => 1 :: 0 :: leBytes 4 (wrapU 32 x)
    | .I64 x => 1 :: 1 :: leBytes 8 (wrapU 64 x)
    | .F32 x => 1 :: 2 :: leBytes 4 x
    | .F64 x => 1 :: 3 :: leBytes 8 x
    | _ => []
  | .Label name => 2 :: encString name
  | .Type dtype => 3 :: [dtype.toByte]

theorem encOperand_wf {o : Operand} (h : OperandWF o) :
    encOperand o = some (encOperandT o) := by
  cases o
  case Variable n => rfl
  case Immediate v =>
    cases v <;> first | rfl | exact absurd h id
  case Label n => rfl
  case «Type» d => rfl

theorem readOperand_encOperandT {o : Operand} (h : OperandWF o)
    (r : List Nat) : readOperand (encOperandT o ++ r) = some (o, r) := by
  cases o
  case Variable n =>
    simp [encOperandT, readOperand, readU8, readString_encString h]
  case Immediate v =>
    cases v
    case I32 x =>
      simp [encOperandT, readOperand, readU8, readI32,
        readU32_leBytes_of_lt (wrapU_lt 32 x), toSigned32_wrapU h.1 h.2]
    case I64 x =>
      simp [encOperandT, readOperand, readU8, readI64,
        readU64_leBytes_of_lt (wrapU_lt 64 x), toSigned64_wrapU h.1 h.2]
    case F32 x =>
      simp [encOperandT, readOperand, readU8, readU32_leBytes_of_lt h]
    case F64 x =>
      simp [encOperandT, readOperand, readU8, readU64_leBytes_of_lt h]
    all_goals exact absurd h id
  case Label n =>
    simp [encOperandT, readOperand, readU8, readString_encString h]
  case «Type» d =>
    simp [encOperandT, readOperand, readU8, readDatatype_toByte]

/-- Well-formedness of an instruction for exact binary round trip:
identifier operands are codec-well-formed and immediates encodable
(all hold for assembler output). -/
def OpCodeWF : OpCode → Prop
  | .CreateLocal _ name => NameWF name
  | .CreateGlobal _ name => NameWF name
  | .DeleteLocal name => NameWF name
  | .SetVar dest value => NameWF dest ∧ OperandWF value
  | .CopyVar dest source => NameWF dest ∧ NameWF source
  | .Alloc dest size => NameWF dest ∧ OperandWF size
  | .Free ptr => NameWF ptr
  | .Load dest ptr _ => NameWF dest ∧ NameWF ptr
  | .Store ptr source _ => NameWF ptr ∧ NameWF source
  | .GetAddr dest var => NameWF dest ∧ NameWF var
  | .Add dest left right => NameWF dest ∧ OperandWF left ∧ OperandWF right
  | .Sub dest left right => NameWF dest ∧ OperandWF left ∧ OperandWF right
  | .Mul dest left right => NameWF dest ∧ OperandWF left ∧ OperandWF right
  | .Div dest left right => NameWF dest ∧ OperandWF left ∧ OperandWF right
  | .Mod dest left right => NameWF dest ∧ OperandWF left ∧ OperandWF right
  | .Neg dest source => NameWF dest ∧ OperandWF source
  | .And dest left right => NameWF dest ∧ OperandWF left ∧ OperandWF right
  | .Or dest left right => NameWF dest ∧ OperandWF left ∧ OperandWF right
  | .Xor dest left right => NameWF dest ∧ OperandWF left ∧ OperandWF right
  | .Not dest source => NameWF dest ∧ OperandWF source
  | .Shl dest left right => NameWF dest ∧ OperandWF left ∧ OperandWF right
  | .Shr dest left right => NameWF dest ∧ OperandWF left ∧ OperandWF right
  | .Eq dest left right => NameWF dest ∧ OperandWF left ∧ OperandWF right
  | .Ne dest left right => NameWF dest ∧ OperandWF left ∧ OperandWF right
  | .Lt dest left right => NameWF dest ∧ OperandWF left ∧ OperandWF right
  | .Le dest left right => NameWF dest ∧ OperandWF left ∧ OperandWF right
  | .Gt dest left right => NameWF dest ∧ OperandWF left ∧ OperandWF right
  | .Ge dest left right => NameWF dest ∧ OperandWF left ∧ OperandWF right
  | .Label name => NameWF name
  | .Jmp label => NameWF label
  | .Jz var label => NameWF var ∧ NameWF label
  | .Jnz var label => NameWF var ∧ NameWF label
  | .FuncBegin name _ => NameWF name
  | .FuncEnd => True
  | .Call result func args =>
    (∀ rr ∈ result.toList, NameWF rr) ∧ NameWF func ∧
      args.length < 2 ^ 32 ∧ ∀ a ∈ args, OperandWF a
  | .Return value => ∀ v ∈ value.toList, OperandWF v
  | .PushArg var => NameWF var
  | .PopArg dest => NameWF dest
  | .Cast dest source _ => NameWF dest ∧ NameWF source
  | .Sqrt dest source => NameWF dest ∧ OperandWF source
  | .Pow dest base exp => NameWF dest ∧ OperandWF base ∧ OperandWF exp
  | .Abs dest source => NameWF dest ∧ OperandWF source
  | .Min dest a b => NameWF dest ∧ OperandWF a ∧ OperandWF b
  | .Max dest a b => NameWF dest ∧ OperandWF a ∧ OperandWF b
  | .Sin dest source => NameWF dest ∧ OperandWF source
  | .Cos dest source => NameWF dest ∧ OperandWF source
  | .Tan dest source => NameWF dest ∧ OperandWF source
  | .Print var => NameWF var
  | .Input dest => NameWF dest
  | .Exit code => OperandWF code

/-- Total version of `encOpcode` (proof machinery: agrees with
`encOpcode` on well-formed instructions). -/
def encOpcodeT : OpCode → List Nat
  | .CreateLocal dtype name => 0 :: dtype.toByte :: encString name
  | .CreateGlobal dtype name => 1 :: dtype.toByte :: encString name
  | .DeleteLocal name => 2 :: encString name
  | .SetVar dest value => 3 :: encString dest ++ encOperandT value
  | .CopyVar dest source => 4 :: encString dest ++ encString source
  | .Alloc dest size => 5 :: encString dest ++ encOperandT size
  | .Free ptr => 6 :: encString ptr
  | .Load dest ptr dtype =>
    7 :: encString dest ++ encString ptr ++ [dtype.toByte]
  | .Store ptr source dtype =>
    8 :: encString ptr ++ encString source ++ [dtype.toByte]
  | .GetAddr dest var => 9 :: encString dest ++ encString var
  | .Add dest left right =>
    10 :: encString dest ++ encOperandT left ++ encOperandT right
  | .Sub dest left right =>
    11 :: encString dest ++ encOperandT left ++ encOperandT right
  | .Mul dest left right =>
    12 :: encString dest ++ encOperandT left ++ encOperandT right
  | .Div dest left right =>
    13 :: encString dest ++ encOperandT left ++ encOperandT right
  | .Mod dest left right =>
    14 :: encString dest ++ encOperandT left ++ encOperandT right
  | .Neg dest source => 15 :: encString dest ++ encOperandT source
  | .And dest left right =>
    16 :: encString dest ++ encOperandT left ++ encOperandT right
  | .Or dest left right =>
    17 :: encString dest ++ encOperandT left ++ encOperandT right
  | .Xor dest left right =>
    18 :: encString dest ++ encOperandT left ++ encOperandT right
  | .Not dest source => 19 :: encString dest ++ encOperandT source
  | .Shl dest left right =>
    20 :: encString dest ++ encOperandT left ++ encOperandT right
  | .Shr dest left right =>
    21 :: encString dest ++ encOperandT left ++ encOperandT right
  | .Eq dest left right =>
    30 :: encString dest ++ encOperandT left ++ encOperandT right
  | .Ne dest left right =>
    31 :: encString dest ++ encOperandT left ++ encOperandT right
  | .Lt dest left right =>
    32 :: encString dest ++ encOperandT left ++ encOperandT right
  | .Le dest left right =>
    33 :: encString dest ++ encOperandT left ++ encOperandT right
  | .Gt dest left right =>
    34 :: encString dest ++ encOperandT left ++ encOperandT right
  | .Ge dest left right =>
    35 :: encString dest ++ encOperandT left ++ encOperandT right
  | .Label name => 50 :: encString name
  | .Jmp label => 51 :: encString label
  | .Jz var label => 52 :: encString var ++ encString label
  | .Jnz var label => 53 :: encString var ++ encString label
  | .FuncBegin name return_type => 60 :: encString name ++ [return_type.toByte]
  | .FuncEnd => [61]
  | .Call result func args =>
    let header := match result with
      | some r => 1 :: encString r
      | none => [0]
    62 :: header ++ encString func ++ leBytes 4 args.length ++
      (args.map encOperandT).flatten
  | .Return value =>
    match value with
    | some v => 63 :: 1 :: encOperandT v
    | none => [63, 0]
  | .PushArg var => 64 :: encString var
  | .PopArg dest => 65 :: encString dest
  | .Cast dest source target_type =>
    80 :: encString dest ++ encString source ++ [target_type.toByte]
  | .Sqrt dest source => 90 :: encString dest ++ encOperandT source
  | .Pow dest base exp =>
    91 :: encString dest ++ encOperandT base ++ encOperandT exp
  | .Abs dest source => 92 :: encString dest ++ encOperandT source
  | .Min dest a b => 93 :: encString dest ++ encOperandT a ++ encOperandT b
  | .Max dest a b => 94 :: encString dest ++ encOperandT a ++ encOperandT b
  | .Sin dest source => 95 :: encString dest ++ encOperandT source
  | .Cos dest source => 96 :: encString dest ++ encOperandT source
  | .Tan dest source => 97 :: encString dest ++ encOperandT source
  | .Print var => 70 :: encString var
  | .Input dest => 72 :: encString dest
  | .Exit code => 71 :: encOperandT code

theorem encOperandSeq_wf {args : List Operand}
    (h : ∀ a ∈ args, OperandWF a) :
    encOperandSeq args = some ((args.map encOperandT).flatten) := by
  induction args with
  | nil => rfl
  | cons a t ih =>
    simp [encOperandSeq, encOperand_wf (h a (by simp)),
      ih fun x hx => h x (by simp [hx])]

theorem readOperands_encT {args : List Operand}
    (h : ∀ a ∈ args, OperandWF a) (r : List Nat) :
    readOperands args.length ((args.map encOperandT).flatten ++ r) =
      some (args, r) := by
  induction args with
  | nil => simp [readOperands]
  | cons a t ih =>
    simp [readOperands, List.append_assoc,
      readOperand_encOperandT (h a (by simp)),
      ih fun x hx => h x (by simp [hx])]

/-! ### Per-id reduction lemmas for `readOpcode` (proof machinery) -/

theorem readOpcode_id0 (l : List Nat) : readOpcode (0 :: l) =
    (do
      let (x1, r1) ← readDatatype l
      let (x2, r2) ← readString r1
      some (OpCode.CreateLocal x1 x2, r2)) := rfl

theorem readOpcode_id1 (l : List Nat) : readOpcode (1 :: l) =
    (do
      let (x1, r1) ← readDatatype l
      let (x2, r2) ← readString r1
      some (OpCode.CreateGlobal x1 x2, r2)) := rfl

theorem readOpcode_id2 (l : List Nat) : readOpcode (2 :: l) =
    (do
      let (x1, r1) ← readString l
      some (OpCode.DeleteLocal x1, r1)) := rfl

theorem readOpcode_id3 (l : List Nat) : readOpcode (3 :: l) =
    (do
      let (x1, r1) ← readString l
      let (x2, r2) ← readOperand r1
      some (OpCode.SetVar x1 x2, r2)) := rfl

theorem readOpcode_id4 (l : List Nat) : readOpcode (4 :: l) =
    (do
      let (x1, r1) ← readString l
      let (x2, r2) ← readString r1
      some (OpCode.CopyVar x1 x2, r2)) := rfl

theorem readOpcode_id5 (l : List Nat) : readOpcode (5 :: l) =
    (do
      let (x1, r1) ← readString l
      let (x2, r2) ← readOperand r1
      some (OpCode.Alloc x1 x2, r2)) := rfl

theorem readOpcode_id6 (l : List Nat) : readOpcode (6 :: l) =
    (do
      let (x1, r1) ← readString l
      some (OpCode.Free x1, r1)) := rfl

theorem readOpcode_id7 (l : List Nat) : readOpcode (7 :: l) =
    (do
      let (x1, r1) ← readString l
      let (x2, r2) ← readString r1
      let (x3, r3) ← readDatatype r2
      some (OpCode.Load x1 x2 x3, r3)) := rfl

theorem readOpcode_id8 (l : List Nat) : readOpcode (8 :: l) =
    (do
      let (x1, r1) ← readString l
      let (x2, r2) ← readString r1
      let (x3, r3) ← readDatatype r2
      some (OpCode.Store x1 x2 x3, r3)) := rfl

theorem readOpcode_id9 (l : List Nat) : readOpcode (9 :: l) =
    (do
      let (x1, r1) ← readString l
      let (x2, r2) ← readString r1
      some (OpCode.GetAddr x1 x2, r2)) := rfl

theorem readOpcode_id10 (l : List Nat) : readOpcode (10 :: l) =
    (do
      let (x1, r1) ← readString l
      let (x2, r2) ← readOperand r1
      let (x3, r3) ← readOperand r2
      some (OpCode.Add x1 x2 x3, r3)) := rfl

theorem readOpcode_id11 (l : List Nat) : readOpcode (11 :: l) =
    (do
      let (x1, r1) ← readString l
      let (x2, r2) ← readOperand r1
      let (x3, r3) ← readOperand r2
      some (OpCode.Sub x1 x2 x3, r3)) := rfl

theorem readOpcode_id12 (l : List Nat) : readOpcode (12 :: l) =
    (do
      let (x1, r1) ← readString l
      let (x2, r2) ← readOperand r1
      let (x3, r3) ← readOperand r2
      some (OpCode.Mul x1 x2 x3, r3)) := rfl

theorem readOpcode_id13 (l : List Nat) : readOpcode (13 :: l) =
    (do
      let (x1, r1) ← readString l
      let (x2, r2) ← readOperand r1
      let (x3, r3) ← readOperand r2
      some (OpCode.Div x1 x2 x3, r3)) := rfl

theorem readOpcode_id14 (l : List Nat) : readOpcode (14 :: l) =
    (do
      let (x1, r1) ← readString l
      let (x2, r2) ← readOperand r1
      let (x3, r3) ← readOperand r2
      some (OpCode.Mod x1 x2 x3, r3)) := rfl

theorem readOpcode_id15 (l : List Nat) : readOpcode (15 :: l) =
    (do
      let (x1, r1) ← readString l
      let (x2, r2) ← readOperand r1
      some (OpCode.Neg x1 x2, r2)) := rfl

theorem readOpcode_id16 (l : List Nat) : readOpcode (16 :: l) =
    (do
      let (x1, r1) ← readString l
      let (x2, r2) ← readOperand r1
      let (x3, r3) ← readOperand r2
      some (OpCode.And x1 x2 x3, r3)) := rfl

theorem readOpcode_id17 (l : List Nat) : readOpcode (17 :: l) =
    (do
      let (x1, r1) ← readString l
      let (x2, r2) ← readOperand r1
      let (x3, r3) ← readOperand r2
      some (OpCode.Or x1 x2 x3, r3)) := rfl

theorem readOpcode_id18 (l : List Nat) : readOpcode (18 :: l) =
    (do
      let (x1, r1) ← readString l
      let (x2, r2) ← readOperand r1
      let (x3, r3) ← readOperand r2
      some (OpCode.Xor x1 x2 x3, r3)) := rfl

theorem readOpcode_id19 (l : List Nat) : readOpcode (19 :: l) =
    (do
      let (x1, r1) ← readString l
      let (x2, r2) ← readOperand r1
      some (OpCode.Not x1 x2, r2)) := rfl

theorem readOpcode_id20 (l : List Nat) : readOpcode (20 :: l) =
    (do
      let (x1, r1) ← readString l
      let (x2, r2) ← readOperand r1
      let (x3, r3) ← readOperand r2
      some (OpCode.Shl x1 x2 x3, r3)) := rfl

theorem readOpcode_id21 (l : List Nat) : readOpcode (21 :: l) =
    (do
      let (x1, r1) ← readString l
      let (x2, r2) ← readOperand r1
      let (x3, r3) ← readOperand r2
      some (OpCode.Shr x1 x2 x3, r3)) := rfl

theorem readOpcode_id30 (l : List Nat) : readOpcode (30 :: l) =
    (do
      let (x1, r1) ← readString l
      let (x2, r2) ← readOperand r1
      let (x3, r3) ← readOperand r2
      some (OpCode.Eq x1 x2 x3, r3)) := rfl

theorem readOpcode_id31 (l : List Nat) : readOpcode (31 :: l) =
    (do
      let (x1, r1) ← readString l
      let (x2, r2) ← readOperand r1
      let (x3, r3) ← readOperand r2
      some (OpCode.Ne x1 x2 x3, r3)) := rfl

theorem readOpcode_id32 (l : List Nat) : readOpcode (32 :: l) =
    (do
      let (x1, r1) ← readString l
      let (x2, r2) ← readOperand r1
      let (x3, r3) ← readOperand r2
      some (OpCode.Lt x1 x2 x3, r3)) := rfl

theorem readOpcode_id33 (l : List Nat) : readOpcode (33 :: l) =
    (do
      let (x1, r1) ← readString l
      let (x2, r2) ← readOperand r1
      let (x3, r3) ← readOperand r2
      some (OpCode.Le x1 x2 x3, r3)) := rfl

theorem readOpcode_id34 (l : List Nat) : readOpcode (34 :: l) =
    (do
      let (x1, r1) ← readString l
      let (x2, r2) ← readOperand r1
      let (x3, r3) ← readOperand r2
      some (OpCode.Gt x1 x2 x3, r3)) := rfl

theorem readOpcode_id35 (l : List Nat) : readOpcode (35 :: l) =
    (do
      let (x1, r1) ← readString l
      let (x2, r2) ← readOperand r1
      let (x3, r3) ← readOperand r2
      some (OpCode.Ge x1 x2 x3, r3)) := rfl

theorem readOpcode_id50 (l : List Nat) : readOpcode (50 :: l) =
    (do
      let (x1, r1) ← readString l
      some (OpCode.Label x1, r1)) := rfl

theorem readOpcode_id51 (l : List Nat) : readOpcode (51 :: l) =
    (do
      let (x1, r1) ← readString l
      some (OpCode.Jmp x1, r1)) := rfl

theorem readOpcode_id52 (l : List Nat) : readOpcode (52 :: l) =
    (do
      let (x1, r1) ← readString l
      let (x2, r2) ← readString r1
      some (OpCode.Jz x1 x2, r2)) := rfl

theorem readOpcode_id53 (l : List Nat) : readOpcode (53 :: l) =
    (do
      let (x1, r1) ← readString l
      let (x2, r2) ← readString r1
      some (OpCode.Jnz x1 x2, r2)) := rfl

theorem readOpcode_id60 (l : List Nat) : readOpcode (60 :: l) =
    (do
      let (x1, r1) ← readString l
      let (x2, r2) ← readDatatype r1
      some (OpCode.FuncBegin x1 x2, r2)) := rfl

theorem readOpcode_id61 (l : List Nat) : readOpcode (61 :: l) =
    some (OpCode.FuncEnd, l) := rfl

theorem readOpcode_id62 (l : List Nat) : readOpcode (62 :: l) =
    (do
      let (has_result, r1) ← readU8 l
      let (result, r2) ←
        if has_result = 1 then do
          let (s, r2) ← readString r1
          some (some s, r2)
        else some (none, r1)
      let (func, r3) ← readString r2
      let (arg_count, r4) ← readU32 r3
      let (args, r5) ← readOperands arg_count r4
      some (OpCode.Call result func args, r5)) := rfl

theorem readOpcode_id63 (l : List Nat) : readOpcode (63 :: l) =
    (do
      let (has_value, r1) ← readU8 l
      if has_value = 1 then do
        let (v, r2) ← readOperand r1
        some (OpCode.Return (some v), r2)
      else some (OpCode.Return none, r1)) := rfl

theorem readOpcode_id64 (l : List Nat) : readOpcode (64 :: l) =
    (do
      let (x1, r1) ← readString l
      some (OpCode.PushArg x1, r1)) := rfl

theorem readOpcode_id65 (l : List Nat) : readOpcode (65 :: l) =
    (do
      let (x1, r1) ← readString l
      some (OpCode.PopArg x1, r1)) := rfl

theorem readOpcode_id80 (l : List Nat) : readOpcode (80 :: l) =
    (do
      let (x1, r1) ← readString l
      let (x2, r2) ← readString r1
      let (x3, r3) ← readDatatype r2
      some (OpCode.Cast x1 x2 x3, r3)) := rfl

theorem readOpcode_id90 (l : List Nat) : readOpcode (90 :: l) =
    (do
      let (x1, r1) ← readString l
      let (x2, r2) ← readOperand r1
      some (OpCode.Sqrt x1 x2, r2)) := rfl

theorem readOpcode_id91 (l : List Nat) : readOpcode (91 :: l) =
    (do
      let (x1, r1) ← readString l
      let (x2, r2) ← readOperand r1
      let (x3, r3) ← readOperand r2
      some (OpCode.Pow x1 x2 x3, r3)) := rfl

theorem readOpcode_id92 (l : List Nat) : readOpcode (92 :: l) =
    (do
      let (x1, r1) ← readString l
      let (x2, r2) ← readOperand r1
      some (OpCode.Abs x1 x2, r2)) := rfl

theorem readOpcode_id93 (l : List Nat) : readOpcode (93 :: l) =
    (do
      let (x1, r1) ← readString l
      let (x2, r2) ← readOperand r1
      let (x3, r3) ← readOperand r2
      some (OpCode.Min x1 x2 x3, r3)) := rfl

theorem readOpcode_id94 (l : List Nat) : readOpcode (94 :: l) =
    (do
      let (x1, r1) ← readString l
      let (x2, r2) ← readOperand r1
      let (x3, r3) ← readOperand r2
      some (OpCode.Max x1 x2 x3, r3)) := rfl

theorem readOpcode_id95 (l : List Nat) : readOpcode (95 :: l) =
    (do
      let (x1, r1) ← readString l
      let (x2, r2) ← readOperand r1
      some (OpCode.Sin x1 x2, r2)) := rfl

theorem readOpcode_id96 (l : List Nat) : readOpcode (96 :: l) =
    (do
      let (x1, r1) ← readString l
      let (x2, r2) ← readOperand r1
      some (OpCode.Cos x1 x2, r2)) := rfl

theorem readOpcode_id97 (l : List Nat) : readOpcode (97 :: l) =
    (do
      let (x1, r1) ← readString l
      let (x2, r2) ← readOperand r1
      some (OpCode.Tan x1 x2, r2)) := rfl

theorem readOpcode_id70 (l : List Nat) : readOpcode (70 :: l) =
    (do
      let (x1, r1) ← readString l
      some (OpCode.Print x1, r1)) := rfl

theorem readOpcode_id72 (l : List Nat) : readOpcode (72 :: l) =
    (do
      let (x1, r1) ← readString l
      some (OpCode.Input x1, r1)) := rfl

theorem readOpcode_id71 (l : List Nat) : readOpcode (71 :: l) =
    (do
      let (x1, r1) ← readOperand l
      some (OpCode.Exit x1, r1)) := rfl

theorem encOpcode_wf {op : OpCode} (h : OpCodeWF op) :
    encOpcode op = some (encOpcodeT op) := by
  cases op
  case CreateLocal v0 v1 => rfl
  case CreateGlobal v0 v1 => rfl
  case DeleteLocal v0 => rfl
  case SetVar v0 v1 =>
    simp [encOpcode, encOpcodeT, encOperand_wf h.2]
  case CopyVar v0 v1 => rfl
  case Alloc v0 v1 =>
    simp [encOpcode, encOpcodeT, encOperand_wf h.2]
  case Free v0 => rfl
  case Load v0 v1 v2 => rfl
  case Store v0 v1 v2 => rfl
  case GetAddr v0 v1 => rfl
  case Add v0 v1 v2 =>
    simp [encOpcode, encOpcodeT, encOperand_wf h.2.1, encOperand_wf h.2.2]
  case Sub v0 v1 v2 =>
    simp [encOpcode, encOpcodeT, encOperand_wf h.2.1, encOperand_wf h.2.2]
  case Mul v0 v1 v2 =>
    simp [encOpcode, encOpcodeT, encOperand_wf h.2.1, encOperand_wf h.2.2]
  case Div v0 v1 v2 =>
    simp [encOpcode, encOpcodeT, encOperand_wf h.2.1, encOperand_wf h.2.2]
  case Mod v0 v1 v2 =>
    simp [encOpcode, encOpcodeT, encOperand_wf h.2.1, encOperand_wf h.2.2]
  case Neg v0 v1 =>
    simp [encOpcode, encOpcodeT, encOperand_wf h.2]
  case And v0 v1 v2 =>
    simp [encOpcode, encOpcodeT, encOperand_wf h.2.1, encOperand_wf h.2.2]
  case Or v0 v1 v2 =>
    simp [encOpcode, encOpcodeT, encOperand_wf h.2.1, encOperand_wf h.2.2]
  case Xor v0 v1 v2 =>
    simp [encOpcode, encOpcodeT, encOperand_wf h.2.1, encOperand_wf h.2.2]
  case Not v0 v1 =>
    simp [encOpcode, encOpcodeT, encOperand_wf h.2]
  case Shl v0 v1 v2 =>
    simp [encOpcode, encOpcodeT, encOperand_wf h.2.1, encOperand_wf h.2.2]
  case Shr v0 v1 v2 =>
    simp [encOpcode, encOpcodeT, encOperand_wf h.2.1, encOperand_wf h.2.2]
  case Eq v0 v1 v2 =>
    simp [encOpcode, encOpcodeT, encOperand_wf h.2.1, encOperand_wf h.2.2]
  case Ne v0 v1 v2 =>
    simp [encOpcode, encOpcodeT, encOperand_wf h.2.1, encOperand_wf h.2.2]
  case Lt v0 v1 v2 =>
    simp [encOpcode, encOpcodeT, encOperand_wf h.2.1, encOperand_wf h.2.2]
  case Le v0 v1 v2 =>
    simp [encOpcode, encOpcodeT, encOperand_wf h.2.1, encOperand_wf h.2.2]
  case Gt v0 v1 v2 =>
    simp [encOpcode, encOpcodeT, encOperand_wf h.2.1, encOperand_wf h.2.2]
  case Ge v0 v1 v2 =>
    simp [encOpcode, encOpcodeT, encOperand_wf h.2.1, encOperand_wf h.2.2]
  case Label v0 => rfl
  case Jmp v0 => rfl
  case Jz v0 v1 => rfl
  case Jnz v0 v1 => rfl
  case FuncBegin v0 v1 => rfl
  case FuncEnd => rfl
  case Call v0 v1 v2 =>
    cases v0 with
    | none => simp [encOpcode, encOpcodeT, encOperandSeq_wf h.2.2.2]
    | some r0 => simp [encOpcode, encOpcodeT, encOperandSeq_wf h.2.2.2]
  case Return v0 =>
    cases v0 with
    | none => rfl
    | some v =>
      simp [encOpcode, encOpcodeT, encOperand_wf (h v (by simp))]
  case PushArg v0 => rfl
  case PopArg v0 => rfl
  case Cast v0 v1 v2 => rfl
  case Sqrt v0 v1 =>
    simp [encOpcode, encOpcodeT, encOperand_wf h.2]
  case Pow v0 v1 v2 =>
    simp [encOpcode, encOpcodeT, encOperand_wf h.2.1, encOperand_wf h.2.2]
  case Abs v0 v1 =>
    simp [encOpcode, encOpcodeT, encOperand_wf h.2]
  case Min v0 v1 v2 =>
    simp [encOpcode, encOpcodeT, encOperand_wf h.2.1, encOperand_wf h.2.2]
  case Max v0 v1 v2 =>
    simp [encOpcode, encOpcodeT, encOperand_wf h.2.1, encOperand_wf h.2.2]
  case Sin v0 v1 =>
    simp [encOpcode, encOpcodeT, encOperand_wf h.2]
  case Cos v0 v1 =>
    simp [encOpcode, encOpcodeT, encOperand_wf h.2]
  case Tan v0 v1 =>
    simp [encOpcode, encOpcodeT, encOperand_wf h.2]
  case Print v0 => rfl
  case Input v0 => rfl
  case Exit v0 =>
    simp [encOpcode, encOpcodeT, encOperand_wf h]

theorem readOpcode_encOpcodeT {op : OpCode} (h : OpCodeWF op)
    (r : List Nat) : readOpcode (encOpcodeT op ++ r) = some (op, r) := by
  cases op
  case CreateLocal v0 v1 =>
    simp [encOpcodeT, List.cons_append, readOpcode_id0,
      readDatatype_toByte, readString_encString h]
  case CreateGlobal v0 v1 =>
    simp [encOpcodeT, List.cons_append, readOpcode_id1,
      readDatatype_toByte, readString_encString h]
  case DeleteLocal v0 =>
    simp [encOpcodeT, List.cons_append, readOpcode_id2,
      readString_encString h]
  case SetVar v0 v1 =>
    simp [encOpcodeT, List.cons_append, List.append_assoc, readOpcode_id3,
      readString_encString h.1, readOperand_encOperandT h.2]
  case CopyVar v0 v1 =>
    simp [encOpcodeT, List.cons_append, List.append_assoc, readOpcode_id4,
      readString_encString h.1, readString_encString h.2]
  case Alloc v0 v1 =>
    simp [encOpcodeT, List.cons_append, List.append_assoc, readOpcode_id5,
      readString_encString h.1, readOperand_encOperandT h.2]
  case Free v0 =>
    simp [encOpcodeT, List.cons_append, readOpcode_id6,
      readString_encString h]
  case Load v0 v1 v2 =>
    simp [encOpcodeT, List.cons_append, List.append_assoc, readOpcode_id7,
      readString_encString h.1, readString_encString h.2, readDatatype_toByte]
  case Store v0 v1 v2 =>
    simp [encOpcodeT, List.cons_append, List.append_assoc, readOpcode_id8,
      readString_encString h.1, readString_encString h.2, readDatatype_toByte]
  case GetAddr v0 v1 =>
    simp [encOpcodeT, List.cons_append, List.append_assoc, readOpcode_id9,
      readString_encString h.1, readString_encString h.2]
  case Add v0 v1 v2 =>
    simp [encOpcodeT, List.cons_append, List.append_assoc, readOpcode_id10,
      readString_encString h.1, readOperand_encOperandT h.2.1,
      readOperand_encOperandT h.2.2]
  case Sub v0 v1 v2 =>
    simp [encOpcodeT, List.cons_append, List.append_assoc, readOpcode_id11,
      readString_encString h.1, readOperand_encOperandT h.2.1,
      readOperand_encOperandT h.2.2]
  case Mul v0 v1 v2 =>
    simp [encOpcodeT, List.cons_append, List.append_assoc, readOpcode_id12,
      readString_encString h.1, readOperand_encOperandT h.2.1,
      readOperand_encOperandT h.2.2]
  case Div v0 v1 v2 =>
    simp [encOpcodeT, List.cons_append, List.append_assoc, readOpcode_id13,
      readString_encString h.1, readOperand_encOperandT h.2.1,
      readOperand_encOperandT h.2.2]
  case Mod v0 v1 v2 =>
    simp [encOpcodeT, List.cons_append, List.append_assoc, readOpcode_id14,
      readString_encString h.1, readOperand_encOperandT h.2.1,
      readOperand_encOperandT h.2.2]
  case Neg v0 v1 =>
    simp [encOpcodeT, List.cons_append, List.append_assoc, readOpcode_id15,
      readString_encString h.1, readOperand_encOperandT h.2]
  case And v0 v1 v2 =>
    simp [encOpcodeT, List.cons_append, List.append_assoc, readOpcode_id16,
      readString_encString h.1, readOperand_encOperandT h.2.1,
      readOperand_encOperandT h.2.2]
  case Or v0 v1 v2 =>
    simp [encOpcodeT, List.cons_append, List.append_assoc, readOpcode_id17,
      readString_encString h.1, readOperand_encOperandT h.2.1,
      readOperand_encOperandT h.2.2]
  case Xor v0 v1 v2 =>
    simp [encOpcodeT, List.cons_append, List.append_assoc, readOpcode_id18,
      readString_encString h.1, readOperand_encOperandT h.2.1,
      readOperand_encOperandT h.2.2]
  case Not v0 v1 =>
    simp [encOpcodeT, List.cons_append, List.append_assoc, readOpcode_id19,
      readString_encString h.1, readOperand_encOperandT h.2]
  case Shl v0 v1 v2 =>
    simp [encOpcodeT, List.cons_append, List.append_assoc, readOpcode_id20,
      readString_encString h.1, readOperand_encOperandT h.2.1,
      readOperand_encOperandT h.2.2]
  case Shr v0 v1 v2 =>
    simp [encOpcodeT, List.cons_append, List.append_assoc, readOpcode_id21,
      readString_encString h.1, readOperand_encOperandT h.2.1,
      readOperand_encOperandT h.2.2]
  case Eq v0 v1 v2 =>
    simp [encOpcodeT, List.cons_append, List.append_assoc, readOpcode_id30,
      readString_encString h.1, readOperand_encOperandT h.2.1,
      readOperand_encOperandT h.2.2]
  case Ne v0 v1 v2 =>
    simp [encOpcodeT, List.cons_append, List.append_assoc, readOpcode_id31,
      readString_encString h.1, readOperand_encOperandT h.2.1,
      readOperand_encOperandT h.2.2]
  case Lt v0 v1 v2 =>
    simp [encOpcodeT, List.cons_append, List.append_assoc, readOpcode_id32,
      readString_encString h.1, readOperand_encOperandT h.2.1,
      readOperand_encOperandT h.2.2]
  case Le v0 v1 v2 =>
    simp [encOpcodeT, List.cons_append, List.append_assoc, readOpcode_id33,
      readString_encString h.1, readOperand_encOperandT h.2.1,
      readOperand_encOperandT h.2.2]
  case Gt v0 v1 v2 =>
    simp [encOpcodeT, List.cons_append, List.append_assoc, readOpcode_id34,
      readString_encString h.1, readOperand_encOperandT h.2.1,
      readOperand_encOperandT h.2.2]
  case Ge v0 v1 v2 =>
    simp [encOpcodeT, List.cons_append, List.append_assoc, readOpcode_id35,
      readString_encString h.1, readOperand_encOperandT h.2.1,
      readOperand_encOperandT h.2.2]
  case Label v0 =>
    simp [encOpcodeT, List.cons_append, readOpcode_id50,
      readString_encString h]
  case Jmp v0 =>
    simp [encOpcodeT, List.cons_append, readOpcode_id51,
      readString_encString h]
  case Jz v0 v1 =>
    simp [encOpcodeT, List.cons_append, List.append_assoc, readOpcode_id52,
      readString_encString h.1, readString_encString h.2]
  case Jnz v0 v1 =>
    simp [encOpcodeT, List.cons_append, List.append_assoc, readOpcode_id53,
      readString_encString h.1, readString_encString h.2]
  case FuncBegin v0 v1 =>
    simp [encOpcodeT, List.cons_append, List.append_assoc, readOpcode_id60,
      readString_encString h, readDatatype_toByte]
  case FuncEnd =>
    simp [encOpcodeT, readOpcode_id61]
  case Call v0 v1 v2 =>
    obtain ⟨h0, h1, h2, h3⟩ := h
    cases v0 with
    | none =>
      simp [encOpcodeT, List.cons_append, List.append_assoc, readOpcode_id62,
        readU8, readString_encString h1, readU32_leBytes_of_lt h2,
        readOperands_encT h3]
    | some r0 =>
      simp [encOpcodeT, List.cons_append, List.append_assoc, readOpcode_id62,
        readU8, readString_encString (h0 r0 (by simp)),
        readString_encString h1, readU32_leBytes_of_lt h2,
        readOperands_encT h3]
  case Return v0 =>
    cases v0 with
    | none => simp [encOpcodeT, readOpcode_id63, readU8]
    | some v =>
      simp [encOpcodeT, List.cons_append, readOpcode_id63, readU8,
        readOperand_encOperandT (h v (by simp))]
  case PushArg v0 =>
    simp [encOpcodeT, List.cons_append, readOpcode_id64,
      readString_encString h]
  case PopArg v0 =>
    simp [encOpcodeT, List.cons_append, readOpcode_id65,
      readString_encString h]
  case Cast v0 v1 v2 =>
    simp [encOpcodeT, List.cons_append, List.append_assoc, readOpcode_id80,
      readString_encString h.1, readString_encString h.2, readDatatype_toByte]
  case Sqrt v0 v1 =>
    simp [encOpcodeT, List.cons_append, List.append_assoc, readOpcode_id90,
      readString_encString h.1, readOperand_encOperandT h.2]
  case Pow v0 v1 v2 =>
    simp [encOpcodeT, List.cons_append, List.append_assoc, readOpcode_id91,
      readString_encString h.1, readOperand_encOperandT h.2.1,
      readOperand_encOperandT h.2.2]
  case Abs v0 v1 =>
    simp [encOpcodeT, List.cons_append, List.append_assoc, readOpcode_id92,
      readString_encString h.1, readOperand_encOperandT h.2]
  case Min v0 v1 v2 =>
    simp [encOpcodeT, List.cons_append, List.append_assoc, readOpcode_id93,
      readString_encString h.1, readOperand_encOperandT h.2.1,
      readOperand_encOperandT h.2.2]
  case Max v0 v1 v2 =>
    simp [encOpcodeT, List.cons_append, List.append_assoc, readOpcode_id94,
      readString_encString h.1, readOperand_encOperandT h.2.1,
      readOperand_encOperandT h.2.2]
  case Sin v0 v1 =>
    simp [encOpcodeT, List.cons_append, List.append_assoc, readOpcode_id95,
      readString_encString h.1, readOperand_encOperandT h.2]
  case Cos v0 v1 =>
    simp [encOpcodeT, List.cons_append, List.append_assoc, readOpcode_id96,
      readString_encString h.1, readOperand_encOperandT h.2]
  case Tan v0 v1 =>
    simp [encOpcodeT, List.cons_append, List.append_assoc, readOpcode_id97,
      readString_encString h.1, readOperand_encOperandT h.2]
  case Print v0 =>
    simp [encOpcodeT, List.cons_append, readOpcode_id70,
      readString_encString h]
  case Input v0 =>
    simp [encOpcodeT, List.cons_append, readOpcode_id72,
      readString_encString h]
  case Exit v0 =>
    simp [encOpcodeT, List.cons_append, readOpcode_id71,
      readOperand_encOperandT h]


theorem encOpcodeSeq_wf {l : List OpCode} (h : ∀ op ∈ l, OpCodeWF op) :
    encOpcodeSeq l = some ((l.map encOpcodeT).flatten) := by
  induction l with
  | nil => rfl
  | cons a t ih =>
    simp [encOpcodeSeq, encOpcode_wf (h a (by simp)),
      ih fun x hx => h x (by simp [hx])]

theorem readInstructions_encT {l : List OpCode}
    (h : ∀ op ∈ l, OpCodeWF op) (r : List Nat) :
    readInstructions l.length ((l.map encOpcodeT).flatten ++ r) =
      some (l, r) := by
  induction l with
  | nil => simp [readInstructions]
  | cons a t ih =>
    simp [readInstructions, List.append_assoc,
      readOpcode_encOpcodeT (h a (by simp)),
      ih fun x hx => h x (by simp [hx])]

/-- A global as the assembler produces it: built by `Variable::new` with
`is_global = true`, with a codec-well-formed name. -/
def GlobalWF (g : Variable) : Prop :=
  NameWF g.name ∧ g = Variable.mk0 g.name g.dtype true

theorem readGlobals_enc {l : List Variable} (h : ∀ g ∈ l, GlobalWF g)
    (r : List Nat) :
    readGlobals l.length
        ((l.map (fun g => encString g.name ++ [g.dtype.toByte])).flatten ++ r) =
      some (l, r) := by
  induction l with
  | nil => simp [readGlobals]
  | cons g t ih =>
    obtain ⟨gn, gd, gg, go, gs⟩ := g
    obtain ⟨h1, h2⟩ := h _ (List.mem_cons_self _ _)
    simp only [Variable.mk0, Variable.mk.injEq, true_and, and_true,
      eq_self_iff_true] at h2
    obtain ⟨h3, h4, h5⟩ := h2
    subst h3; subst h4; subst h5
    simp [readGlobals, List.append_assoc, readString_encString h1,
      readDatatype_toByte, Variable.mk0,
      ih fun x hx => h x (by simp [hx])]

/-- A function-table entry as the assembler produces it (and as the
codec can represent it: parameters and locals are not serialized). -/
def FuncEntryWF (p : Name × Function) : Prop :=
  NameWF p.1 ∧ p.2.name = p.1 ∧ p.2.parameters = [] ∧ p.2.locals = [] ∧
    p.2.start_ip < 2 ^ 32 ∧ p.2.end_ip < 2 ^ 32

theorem readFunctions_enc {l : List (Name × Function)}
    (h : ∀ p ∈ l, FuncEntryWF p) (r : List Nat) :
    readFunctions l.length
        ((l.map (fun p =>
          encString p.1 ++ p.2.return_type.toByte ::
            (leBytes 4 p.2.start_ip ++ leBytes 4 p.2.end_ip))).flatten ++ r) =
      some (l, r) := by
  induction l with
  | nil => simp [readFunctions]
  | cons p t ih =>
    obtain ⟨pn, pf⟩ := p
    obtain ⟨fn, frt, fp, fl, fs, fe⟩ := pf
    obtain ⟨h1, h2, h3, h4, h5, h6⟩ := h _ (List.mem_cons_self _ _)
    simp only at h1 h2 h3 h4 h5 h6
    subst h2; subst h3; subst h4
    simp [readFunctions, List.append_assoc, readString_encString h1,
      readDatatype_toByte, readU32_leBytes_of_lt h5,
      readU32_leBytes_of_lt h6, ih fun x hx => h x (by simp [hx])]

/-- A label-table entry the codec can represent. -/
def LabelEntryWF (p : Name × Nat) : Prop := NameWF p.1 ∧ p.2 < 2 ^ 32

theorem readLabels_enc {l : List (Name × Nat)}
    (h : ∀ p ∈ l, LabelEntryWF p) (r : List Nat) :
    readLabels l.length
        ((l.map (fun p => encString p.1 ++ leBytes 4 p.2)).flatten ++ r) =
      some (l, r) := by
  induction l with
  | nil => simp [readLabels]
  | cons p t ih =>
    obtain ⟨h1, h2⟩ := h p (by simp)
    simp [readLabels, List.append_assoc, readString_encString h1,
      readU32_leBytes_of_lt h2, ih fun x hx => h x (by simp [hx])]

/-- Well-formedness of a program image for exact binary round trip: all
section lengths and addresses fit in `u32`, identifiers are valid UTF-8
of encodable length, immediates are of the four encodable arms, globals
are canonical `Variable::new` results, and function entries carry no
parameters or locals.  All of these hold for any image the assembler
produces. -/
def ProgramWF (P : Program) : Prop :=
  (∀ op ∈ P.instructions, OpCodeWF op) ∧ P.instructions.length < 2 ^ 32 ∧
  (∀ g ∈ P.globals, GlobalWF g) ∧ P.globals.length < 2 ^ 32 ∧
  (∀ p ∈ P.functions, FuncEntryWF p) ∧ P.functions.length < 2 ^ 32 ∧
  (∀ p ∈ P.labels, LabelEntryWF p) ∧ P.labels.length < 2 ^ 32

theorem readInstructions_encT_nil {l : List OpCode}
    (h : ∀ op ∈ l, OpCodeWF op) :
    readInstructions l.length ((l.map encOpcodeT).flatten) = some (l, []) := by
  have := readInstructions_encT h []
  simpa using this

theorem decode_encode_sections {P : Program} (h : ProgramWF P) :
    ∃ bs, encodeProgram P = some bs ∧
      decodeProgram bs = some
        { instructions := P.instructions, globals := P.globals,
          functions := P.functions, labels := P.labels, strings := [] } := by
  obtain ⟨hi, hil, hg, hgl, hf, hfl, hl, hll⟩ := h
  have henc : encodeProgram P = some
      (leBytes 4 MAGIC ++ leBytes 4 VERSION ++ encGlobals P.globals ++
        encFunctions P.functions ++ encLabels P.labels ++
        (leBytes 4 P.instructions.length ++
          (P.instructions.map encOpcodeT).flatten)) := by
    simp [encodeProgram, encInstructions, encOpcodeSeq_wf hi]
  refine ⟨_, henc, ?_⟩
  have hm : MAGIC < 2 ^ 32 := by norm_num [MAGIC]
  have hv : VERSION < 2 ^ 32 := by norm_num [VERSION]
  show decodeProgram _ = _
  unfold decodeProgram
  simp only [encGlobals, encFunctions, encLabels, List.append_assoc]
  refine Option.bind_eq_some.mpr ⟨_, readU32_leBytes_of_lt hm _, ?_⟩
  dsimp only
  rw [if_neg (by norm_num [MAGIC])]
  refine Option.bind_eq_some.mpr ⟨_, readU32_leBytes_of_lt hv _, ?_⟩
  dsimp only
  rw [if_neg (by norm_num [VERSION])]
  refine Option.bind_eq_some.mpr ⟨_, readU32_leBytes_of_lt hgl _, ?_⟩
  dsimp only
  refine Option.bind_eq_some.mpr ⟨_, readGlobals_enc hg _, ?_⟩
  dsimp only
  refine Option.bind_eq_some.mpr ⟨_, readU32_leBytes_of_lt hfl _, ?_⟩
  dsimp only
  refine Option.bind_eq_some.mpr ⟨_, readFunctions_enc hf _, ?_⟩
  dsimp only
  refine Option.bind_eq_some.mpr ⟨_, readU32_leBytes_of_lt hll _, ?_⟩
  dsimp only
  refine Option.bind_eq_some.mpr ⟨_, readLabels_enc hl _, ?_⟩
  dsimp only
  refine Option.bind_eq_some.mpr ⟨_, readU32_leBytes_of_lt hil _, ?_⟩
  dsimp only
  refine Option.bind_eq_some.mpr ⟨_, readInstructions_encT_nil hi, rfl⟩

instance : DecidablePred NameWF := fun s => by
  unfold NameWF; infer_instance

instance : DecidablePred ValueImmWF := fun v => by
  cases v <;> simp only [ValueImmWF] <;> infer_instance

instance : DecidablePred OperandWF := fun o => by
  cases o <;> simp only [OperandWF] <;> infer_instance

instance : DecidablePred OpCodeWF := fun op => by
  cases op <;> simp only [OpCodeWF] <;> infer_instance

instance : DecidablePred GlobalWF := fun g => by
  unfold GlobalWF; infer_instance

instance : DecidablePred FuncEntryWF := fun p => by
  unfold FuncEntryWF; infer_instance

instance : DecidablePred LabelEntryWF := fun p => by
  unfold LabelEntryWF; infer_instance

instance (P : Program) : Decidable (ProgramWF P) := by
  unfold ProgramWF; infer_instance

/-- C3: for any program P produced by the assembler (in particular, all
immediate operands are of arms I32, I64, F32 or F64 — captured, together
with the other invariants of assembler output, by `ProgramWF`),
`decode(encode(P))` succeeds and yields a program whose instruction
sequence, global list, function table, and label table are equal to
those of P. -/
theorem C3_decode_encode_roundtrip {P : Program} (h : ProgramWF P) :
    ∃ bs Q, encodeProgram P = some bs ∧ decodeProgram bs = some Q ∧
      Q.instructions = P.instructions ∧ Q.globals = P.globals ∧
      Q.functions = P.functions ∧ Q.labels = P.labels := by
  obtain ⟨bs, h1, h2⟩ := decode_encode_sections h
  exact ⟨bs, _, h1, h2, rfl, rfl, rfl, rfl⟩

/-- A concrete assembler-shaped image: `main: func_begin i32`, a local,
a set with an immediate, a call with arguments, `ret 0`, `func_end`,
plus one global and the label table entry for `main`. -/
def progC3 : Program :=
  { instructions :=
      [.Label mainName,
       .FuncBegin mainName .I32,
       .CreateLocal .I32 [110],
       .SetVar [110] (.Immediate (.I32 5)),
       .Call (some [110]) mainName [.Immediate (.I32 2), .Variable [110]],
       .Return (some (.Immediate (.I32 0))),
       .FuncEnd]
    globals := [Variable.mk0 [103] .F64 true]
    functions :=
      [(mainName,
        { name := mainName, return_type := .I32, parameters := [],
          locals := [], start_ip := 1, end_ip := 6 })]
    labels := [(mainName, 0)]
    strings := [] }

theorem C3_decode_encode_roundtrip_witness :
    ∃ bs Q, encodeProgram progC3 = some bs ∧ decodeProgram bs = some Q ∧
      Q.instructions = progC3.instructions ∧ Q.globals = progC3.globals ∧
      Q.functions = progC3.functions ∧ Q.labels = progC3.labels :=
  C3_decode_encode_roundtrip (by decide)

/-! ## Association-list lemmas -/

theorem aget_aset_self {κ α : Type} [DecidableEq κ] (k : κ) (v : α)
    (l : List (κ × α)) : aget k (aset k v l) = some v := by
  induction l with
  | nil => simp [aget, aset]
  | cons p t ih =>
    obtain ⟨k1, v1⟩ := p
    by_cases hk : k1 = k <;> simp [aget, aset, hk, ih]

theorem aget_aset_ne {κ α : Type} [DecidableEq κ] {k k1 : κ} (v : α)
    (l : List (κ × α)) (h : k1 ≠ k) : aget k (aset k1 v l) = aget k l := by
  induction l with
  | nil => simp [aget, aset, h]
  | cons p t ih =>
    obtain ⟨k2, v2⟩ := p
    simp only [aset]
    by_cases hk : k2 = k1
    · subst hk
      simp [aget, h]
    · simp only [if_neg hk]
      by_cases hk2 : k2 = k
      · simp [aget, hk2]
      · simp [aget, hk2, ih]

theorem aerase_of_aget_none {κ α : Type} [DecidableEq κ] {k : κ}
    {l : List (κ × α)} (h : aget k l = none) : aerase k l = l := by
  induction l with
  | nil => rfl
  | cons p t ih =>
    obtain ⟨k1, v1⟩ := p
    by_cases hk : k1 = k
    · subst hk; simp [aget] at h
    · simp [aget, hk] at h
      simp [aerase, hk, ih h] at *
      exact ih h

theorem aget_of_mem_nodup {κ α : Type} [DecidableEq κ] {k : κ} {v : α}
    {l : List (κ × α)} (hm : (k, v) ∈ l) (hn : (l.map Prod.fst).Nodup) :
    aget k l = some v := by
  induction l with
  | nil => simp at hm
  | cons p t ih =>
    obtain ⟨k1, v1⟩ := p
    simp only [List.map_cons, List.nodup_cons] at hn
    rcases List.mem_cons.mp hm with heq | hmt
    · cases heq
      simp [aget]
    · have hne : k1 ≠ k := by
        rintro rfl
        exact hn.1 (List.mem_map_of_mem Prod.fst hmt)
      simp [aget, hne, ih hmt hn.2]

/-! ## C6: comparison operators -/

/-- The arm (tag) of a value. -/
def Value.arm : Value → DataType
  | .I8 _ => .I8
  | .I16 _ => .I16
  | .I32 _ => .I32
  | .I64 _ => .I64
  | .U8 _ => .U8
  | .U16 _ => .U16
  | .U32 _ => .U32
  | .U64 _ => .U64
  | .F32 _ => .F32
  | .F64 _ => .F64
  | .Ptr _ => .Ptr

/-- C6 counterexample: the claim says `lt` succeeds on every same-arm
pair of any integer arm, but `Value::lt` (src/types.rs) handles only
I32/I64/F32/F64 and rejects a `U8` pair with a type-mismatch error
(`le` likewise), even though `gt` accepts the same pair. -/
theorem C6_lt_u8_counterexample :
    Value.lt (.U8 1) (.U8 2) = .error "Type mismatch in comparison" ∧
    Value.le (.U8 1) (.U8 2) = .error "Type mismatch in comparison" ∧
    Value.gt (.U8 1) (.U8 2) = .ok false ∧
    Value.ge (.U8 1) (.U8 2) = .ok false :=
  ⟨rfl, rfl, rfl, rfl⟩

/-- C6 (amended): `gt` and `ge` succeed on every same-arm pair of the
ten numeric arms and return the natural ordering of that arm, but `lt`
and `le` succeed only on same-arm I32/I64/F32/F64 pairs and fail with a
type-mismatch error on the other six integer arms; all four fail on
`Ptr` operands and on any pair of values of different arms. -/
theorem C6_comparison_characterization :
    (∀ a b : Int,
      Value.lt (.I32 a) (.I32 b) = .ok (decide (a < b)) ∧
      Value.le (.I32 a) (.I32 b) = .ok (decide (a ≤ b)) ∧
      Value.gt (.I32 a) (.I32 b) = .ok (decide (a > b)) ∧
      Value.ge (.I32 a) (.I32 b) = .ok (decide (a ≥ b)) ∧
      Value.lt (.I64 a) (.I64 b) = .ok (decide (a < b)) ∧
      Value.le (.I64 a) (.I64 b) = .ok (decide (a ≤ b)) ∧
      Value.gt (.I64 a) (.I64 b) = .ok (decide (a > b)) ∧
      Value.ge (.I64 a) (.I64 b) = .ok (decide (a ≥ b))) ∧
    (∀ a b : Nat,
      Value.lt (.F32 a) (.F32 b) = .ok (f32Lt a b) ∧
      Value.le (.F32 a) (.F32 b) = .ok (f32Le a b) ∧
      Value.gt (.F32 a) (.F32 b) = .ok (f32Gt a b) ∧
      Value.ge (.F32 a) (.F32 b) = .ok (f32Ge a b) ∧
      Value.lt (.F64 a) (.F64 b) = .ok (f64Lt a b) ∧
      Value.le (.F64 a) (.F64 b) = .ok (f64Le a b) ∧
      Value.gt (.F64 a) (.F64 b) = .ok (f64Gt a b) ∧
      Value.ge (.F64 a) (.F64 b) = .ok (f64Ge a b)) ∧
    (∀ a b : Int,
      Value.lt (.I8 a) (.I8 b) = .error "Type mismatch in comparison" ∧
      Value.le (.I8 a) (.I8 b) = .error "Type mismatch in comparison" ∧
      Value.gt (.I8 a) (.I8 b) = .ok (decide (a > b)) ∧
      Value.ge (.I8 a) (.I8 b) = .ok (decide (a ≥ b)) ∧
      Value.lt (.I16 a) (.I16 b) = .error "Type mismatch in comparison" ∧
      Value.le (.I16 a) (.I16 b) = .error "Type mismatch in comparison" ∧
      Value.gt (.I16 a) (.I16 b) = .ok (decide (a > b)) ∧
      Value.ge (.I16 a) (.I16 b) = .ok (decide (a ≥ b))) ∧
    (∀ a b : Nat,
      Value.lt (.U8 a) (.U8 b) = .error "Type mismatch in comparison" ∧
      Value.le (.U8 a) (.U8 b) = .error "Type mismatch in comparison" ∧
      Value.gt (.U8 a) (.U8 b) = .ok (decide (a > b)) ∧
      Value.ge (.U8 a) (.U8 b) = .ok (decide (a ≥ b)) ∧
      Value.lt (.U16 a) (.U16 b) = .error "Type mismatch in comparison" ∧
      Value.le (.U16 a) (.U16 b) = .error "Type mismatch in comparison" ∧
      Value.gt (.U16 a) (.U16 b) = .ok (decide (a > b)) ∧
      Value.ge (.U16 a) (.U16 b) = .ok (decide (a ≥ b)) ∧
      Value.lt (.U32 a) (.U32 b) = .error "Type mismatch in comparison" ∧
      Value.le (.U32 a) (.U32 b) = .error "Type mismatch in comparison" ∧
      Value.gt (.U32 a) (.U32 b) = .ok (decide (a > b)) ∧
      Value.ge (.U32 a) (.U32 b) = .ok (decide (a ≥ b)) ∧
      Value.lt (.U64 a) (.U64 b) = .error "Type mismatch in comparison" ∧
      Value.le (.U64 a) (.U64 b) = .error "Type mismatch in comparison" ∧
      Value.gt (.U64 a) (.U64 b) = .ok (decide (a > b)) ∧
      Value.ge (.U64 a) (.U64 b) = .ok (decide (a ≥ b))) ∧
    (∀ a b : Nat,
      Value.lt (.Ptr a) (.Ptr b) = .error "Type mismatch in comparison" ∧
      Value.le (.Ptr a) (.Ptr b) = .error "Type mismatch in comparison" ∧
      Value.gt (.Ptr a) (.Ptr b) = .error "Type mismatch in comparison" ∧
      Value.ge (.Ptr a) (.Ptr b) = .error "Type mismatch in comparison") ∧
    (∀ v w : Value, v.arm ≠ w.arm →
      Value.lt v w = .error "Type mismatch in comparison" ∧
      Value.le v w = .error "Type mismatch in comparison" ∧
      Value.gt v w = .error "Type mismatch in comparison" ∧
      Value.ge v w = .error "Type mismatch in comparison") := by
  refine ⟨fun a b => ⟨rfl, rfl, rfl, rfl, rfl, rfl, rfl, rfl⟩,
    fun a b => ⟨rfl, rfl, rfl, rfl, rfl, rfl, rfl, rfl⟩,
    fun a b => ⟨rfl, rfl, rfl, rfl, rfl, rfl, rfl, rfl⟩,
    fun a b => ⟨rfl, rfl, rfl, rfl, rfl, rfl, rfl, rfl,
      rfl, rfl, rfl, rfl, rfl, rfl, rfl, rfl⟩,
    fun a b => ⟨rfl, rfl, rfl, rfl⟩, ?_⟩
  intro v w h
  cases v <;> cases w <;>
    first
      | exact absurd rfl h
      | exact ⟨rfl, rfl, rfl, rfl⟩

theorem C6_comparison_characterization_witness :
    Value.lt (.I32 3) (.U8 3) = .error "Type mismatch in comparison" ∧
    Value.gt (.I32 3) (.U8 3) = .error "Type mismatch in comparison" := by
  have h := C6_comparison_characterization
  exact ⟨(h.2.2.2.2.2 (.I32 3) (.U8 3) (by decide)).1,
    (h.2.2.2.2.2 (.I32 3) (.U8 3) (by decide)).2.2.1⟩

/-! ## C1: initialization of globals -/

/-- A program with one declared global of type F64 and nothing else. -/
def progC1 : Program :=
  { instructions := [], globals := [Variable.mk0 [103] .F64 true],
    functions := [], labels := [], strings := [] }

/-- C1 counterexample: the claim says the global declared `F64` is bound
to `default_value(F64) = F64(0.0)` at VM construction, but `VM::new`
(src/vm.rs line 101) inserts `Value::I32(0)` for every global regardless
of its declared type. -/
theorem C1_globals_default_counterexample :
    aget [103] (vmNew progC1 []).globals = some (.I32 0) ∧
    aget [103] (vmNew progC1 []).globals ≠ some (defaultValue .F64) :=
  ⟨rfl, by decide⟩

theorem initGlobals_loop {globals : List Variable} {n : Name}
    (acc : List (Name × Value))
    (h : aget n acc = some (Value.I32 0) ∨ n ∈ globals.map Variable.name) :
    aget n (globals.foldl (fun m g => aset g.name (Value.I32 0) m) acc) =
      some (Value.I32 0) := by
  induction globals generalizing acc with
  | nil => simpa using h
  | cons g t ih =>
    refine ih _ ?_
    by_cases hn : g.name = n
    · subst hn
      exact Or.inl (aget_aset_self ..)
    · rcases h with hacc | hmem
      · exact Or.inl ((aget_aset_ne _ _ hn).trans hacc)
      · simp only [List.map_cons, List.mem_cons] at hmem
        rcases hmem with rfl | hmem
        · exact absurd rfl hn
        · exact Or.inr hmem

/-- C1 (amended): at VM construction every declared global is bound to
`I32(0)` regardless of its declared `DataType` (`default_value` is not
consulted), and string literals then overwrite their named globals with
`Ptr` values; when the program has no string literals the final globals
map is exactly this `I32(0)` map. -/
theorem C1_globals_init_i32_zero :
    (∀ (P : Program) (g : Variable), g ∈ P.globals →
      aget g.name (initGlobals P.globals) = some (Value.I32 0)) ∧
    (∀ (P : Program) (input : List Int), P.strings = [] →
      (vmNew P input).globals = initGlobals P.globals) := by
  constructor
  · intro P g hg
    exact initGlobals_loop [] (Or.inr (List.mem_map_of_mem Variable.name hg))
  · intro P input hs
    simp [vmNew, initStrings, hs]

theorem C1_globals_init_i32_zero_witness :
    aget [103] (initGlobals progC1.globals) = some (Value.I32 0) ∧
    (vmNew progC1 []).globals = initGlobals progC1.globals := by
  have h := C1_globals_init_i32_zero
  exact ⟨h.1 progC1 (Variable.mk0 [103] .F64 true) (by simp [progC1]),
    h.2 progC1 [] rfl⟩

/-! ## Concrete semantic parameters for witnesses (arbitrary values;
no theorem depends on them) -/

def F0 : SemParams :=
  { f32add := fun _ _ => 0, f32sub := fun _ _ => 0, f32mul := fun _ _ => 0,
    f32div := fun _ _ => 0, f64add := fun _ _ => 0, f64sub := fun _ _ => 0,
    f64mul := fun _ _ => 0, f64div := fun _ _ => 0,
    f32sqrt := fun _ => 0, f32sin := fun _ => 0, f32cos := fun _ => 0,
    f32tan := fun _ => 0, f64sqrt := fun _ => 0, f64sin := fun _ => 0,
    f64cos := fun _ => 0, f64tan := fun _ => 0,
    f32pow := fun _ _ => 0, f64pow := fun _ _ => 0,
    powiI32 := fun _ _ => 0, intToF32 := fun _ => 0, intToF64 := fun _ => 0,
    f32toF64 := fun _ => 0, f64toF32 := fun _ => 0,
    f32asInt := fun _ _ _ => 0, f64asInt := fun _ _ _ => 0,
    valueEquals := fun _ _ => false }

/-- The empty program image. -/
def emptyProg : Program :=
  { instructions := [], globals := [], functions := [], labels := [],
    strings := [] }

/-! ### `Except` bind reduction helpers (proof machinery) -/

theorem bindE {ε α β : Type} (x : Except ε α) (f : α → Except ε β) :
    x >>= f = x.bind f := rfl

theorem okBind {ε α β : Type} (a : α) (f : α → Except ε β) :
    (Except.ok a : Except ε α).bind f = f a := rfl

theorem errBind {ε α β : Type} (e : ε) (f : α → Except ε β) :
    (Except.error e : Except ε α).bind f = Except.error e := rfl

/-! ## C5: semantics of `Free` -/

/-- A VM state with one live 8-byte heap block at 0x1000 and a local
`p = Ptr 0x1004` (a mid-block address). -/
def stC5 : VM :=
  { program := emptyProg, ip := 0, globals := [], call_stack := [],
    current_frame :=
      { function_name := mainName, return_ip := 0,
        locals := [([112], Value.Ptr 0x1004)], return_dest := none,
        args := [] },
    heap := [(0x1000, List.replicate 8 0)], next_heap_addr := 0x1008,
    running := true, input := [], output := [] }

/-- C5 counterexample: the claim says `Free` on a mid-block address is a
runtime error, but `OpCode::Free` (src/vm.rs 212-215) calls
`heap.remove(&addr)` and ignores the result: freeing the mid-block
address 0x1004 of the live block at 0x1000 succeeds and leaves the
entire state (heap included) unchanged. -/
theorem C5_free_midblock_counterexample :
    execOne F0 stC5 (.Free [112]) = .ok stC5 := rfl

/-- C5 (amended): `Free(p)` removes exactly the heap entry whose base
address equals the value of `p` (when one exists); executing `Free` with
`p` holding a mid-block address or an address belonging to no live
allocation is not an error: it succeeds and leaves the heap (and the
whole state) unchanged.  `Free` fails only when `p` cannot be resolved
to an address (unknown variable, or a negative/float value). -/
theorem C5_free_semantics (F : SemParams) (st : VM) (ptr : Name)
    (v : Value) (addr : Nat) (hv : getVariable st ptr = .ok v)
    (ha : v.as_usize = .ok addr) :
    execOne F st (.Free ptr) = .ok { st with heap := aerase addr st.heap } ∧
    (aget addr st.heap = none → execOne F st (.Free ptr) = .ok st) := by
  constructor
  · simp [execOne, bindE, hv, okBind, ha]
  · intro hnone
    simp [execOne, bindE, hv, okBind, ha, aerase_of_aget_none hnone]

theorem C5_free_semantics_witness :
    execOne F0 stC5 (.Free [112]) =
      .ok { stC5 with heap := aerase 0x1004 stC5.heap } ∧
    (aget 0x1004 stC5.heap = none → execOne F0 stC5 (.Free [112]) = .ok stC5) :=
  C5_free_semantics F0 stC5 [112] (Value.Ptr 0x1004) 0x1004 rfl rfl

/-! ## C10: semantics of `DeleteLocal` -/

/-- C10: `DeleteLocal(name)` never fails; it removes `name` from the
current frame's locals (and touches nothing else — program, globals,
heap, call stack, `ip`, and the frame's other fields are unchanged);
when the current frame has no local of that name the state is returned
entirely unchanged. -/
theorem C10_delete_local (F : SemParams) (st : VM) (name : Name) :
    execOne F st (.DeleteLocal name) =
      .ok { st with current_frame :=
        { st.current_frame with
            locals := aerase name st.current_frame.locals } } ∧
    (aget name st.current_frame.locals = none →
      execOne F st (.DeleteLocal name) = .ok st) := by
  constructor
  · rfl
  · intro hnone
    simp [execOne, aerase_of_aget_none hnone]

theorem C10_delete_local_witness :
    execOne F0 stC5 (.DeleteLocal [99]) =
      .ok { stC5 with current_frame :=
        { stC5.current_frame with
            locals := aerase [99] stC5.current_frame.locals } } ∧
    (aget [99] stC5.current_frame.locals = none →
      execOne F0 stC5 (.DeleteLocal [99]) = .ok stC5) :=
  C10_delete_local F0 stC5 [99]

/-! ## C2: calling convention (`Call` + `pop_arg` sequence) -/

/-- Execution of a straight-line sequence of opcodes (each step is
src/vm.rs `execute_one`; errors abort the sequence). -/
def execList (F : SemParams) : VM → List OpCode → Except String VM
  | st, [] => .ok st
  | st, op :: t => do execList F (← execOne F st op) t

theorem execOne_popArg_cons (F : SemParams) (st : VM) (dest : Name)
    {v : Value} {rest : List Value}
    (h : st.current_frame.args = v :: rest) :
    execOne F st (.PopArg dest) = .ok
      { st with current_frame :=
        { st.current_frame with
            locals := aset dest v st.current_frame.locals
            args := rest } } := by
  simp [execOne, h]

theorem popArgs_spec (F : SemParams) :
    ∀ (dests : List Name) (vals : List Value) (st : VM),
    dests.Nodup → st.current_frame.args = vals →
    dests.length = vals.length →
    ∃ st', execList F st (dests.map OpCode.PopArg) = .ok st' ∧
      st'.current_frame.args = [] ∧
      (∀ d v, (d, v) ∈ dests.zip vals →
        aget d st'.current_frame.locals = some v) ∧
      (∀ k, k ∉ dests →
        aget k st'.current_frame.locals = aget k st.current_frame.locals) := by
  intro dests
  induction dests with
  | nil =>
    intro vals st hnd hargs hlen
    cases vals with
    | nil => exact ⟨st, rfl, hargs, by simp, by simp⟩
    | cons v vs => simp at hlen
  | cons d ds ih =>
    intro vals st hnd hargs hlen
    cases vals with
    | nil => simp at hlen
    | cons v vs =>
      have h1 := execOne_popArg_cons F st d hargs
      obtain ⟨st', hrun, hargs', hzip, hpres⟩ :=
        ih vs
          { st with current_frame :=
            { st.current_frame with
                locals := aset d v st.current_frame.locals, args := vs } }
          (List.nodup_cons.mp hnd).2 rfl (by simpa using hlen)
      refine ⟨st', ?_, hargs', ?_, ?_⟩
      · simp [execList, bindE, h1, okBind, hrun]
      · intro dd vv hm
        rcases List.mem_cons.mp hm with heq | hmt
        · injection heq with he1 he2
          subst he1; subst he2
          rw [hpres _ (List.nodup_cons.mp hnd).1]
          exact aget_aset_self ..
        · exact hzip dd vv hmt
      · intro k hk
        have hkd : d ≠ k := fun h => hk (h ▸ List.mem_cons_self d ds)
        have hkds : k ∉ ds := fun h => hk (List.mem_cons_of_mem d h)
        rw [hpres k hkds]
        exact aget_aset_ne _ _ hkd

/-- C2: `Call` resolves the call-site argument operands in order into
the fresh callee frame's `args` vector (empty locals; the caller frame,
with `return_ip` and `return_dest` recorded, is pushed); `PopArg`
removes from the front of the current frame's `args`, creating a local,
and errors on an empty `args`; hence a `Call` followed by a sequence of
`pop_arg`s with distinct destinations creates callee locals holding
exactly the argument values, paired in call-site order. -/
theorem C2_calling_convention :
    (∀ (F : SemParams) (st : VM) (result : Option Name) (func : Name)
       (args : List Operand) (func_def : Function) (vals : List Value),
       aget func st.program.functions = some func_def →
       args.mapM (resolveOperand st) = .ok vals →
       execOne F st (.Call result func args) = .ok
         { st with
           current_frame :=
             { function_name := func, return_ip := 0, locals := [],
               return_dest := none, args := vals }
           call_stack :=
             { st.current_frame with
                 return_ip := st.ip, return_dest := result } :: st.call_stack
           ip := func_def.start_ip + 1 }) ∧
    (∀ (F : SemParams) (st : VM) (dest : Name),
       st.current_frame.args = [] →
       execOne F st (.PopArg dest) = .error "No arguments to pop") ∧
    (∀ (F : SemParams) (st : VM) (result : Option Name) (func : Name)
       (args : List Operand) (func_def : Function) (vals : List Value)
       (dests : List Name),
       aget func st.program.functions = some func_def →
       args.mapM (resolveOperand st) = .ok vals →
       dests.Nodup → dests.length = vals.length →
       ∃ st', execList F st
           (.Call result func args :: dests.map OpCode.PopArg) = .ok st' ∧
         st'.current_frame.args = [] ∧
         ∀ d v, (d, v) ∈ dests.zip vals →
           aget d st'.current_frame.locals = some v) := by
  have hcall : ∀ (F : SemParams) (st : VM) (result : Option Name)
      (func : Name) (args : List Operand) (func_def : Function)
      (vals : List Value),
      aget func st.program.functions = some func_def →
      args.mapM (resolveOperand st) = .ok vals →
      execOne F st (.Call result func args) = .ok
        { st with
          current_frame :=
            { function_name := func, return_ip := 0, locals := [],
              return_dest := none, args := vals }
          call_stack :=
            { st.current_frame with
                return_ip := st.ip, return_dest := result } :: st.call_stack
          ip := func_def.start_ip + 1 } := by
    intro F st result func args func_def vals hfunc hmap
    simp only [execOne, hfunc, bindE, hmap, okBind]
  refine ⟨hcall, ?_, ?_⟩
  · intro F st dest h
    simp [execOne, h]
  · intro F st result func args func_def vals dests hfunc hmap hnd hlen
    obtain ⟨st', hrun, hargs', hzip, _⟩ :=
      popArgs_spec F dests vals
        { st with
          current_frame :=
            { function_name := func, return_ip := 0, locals := [],
              return_dest := none, args := vals }
          call_stack :=
            { st.current_frame with
                return_ip := st.ip, return_dest := result } :: st.call_stack
          ip := func_def.start_ip + 1 } hnd rfl hlen
    refine ⟨st', ?_, hargs', hzip⟩
    simp [execList, bindE, hcall F st result func args func_def vals hfunc hmap,
      okBind, hrun]

/-- A state whose program has a function `f` and whose frame has a local
`x = I32 7`. -/
def stC2 : VM :=
  { program :=
      { emptyProg with
          functions :=
            [([102],
              { name := [102], return_type := .I32, parameters := [],
                locals := [], start_ip := 10, end_ip := 20 })] }
    ip := 3, globals := [], call_stack := [],
    current_frame :=
      { function_name := mainName, return_ip := 0,
        locals := [([120], Value.I32 7)], return_dest := none, args := [] },
    heap := [], next_heap_addr := 0x1000, running := true, input := [],
    output := [] }

theorem C2_calling_convention_witness :
    ∃ st', execList F0 stC2
        (.Call (some [114]) [102] [.Immediate (.I32 1), .Variable [120]] ::
          ([[97], [98]].map OpCode.PopArg)) = .ok st' ∧
      st'.current_frame.args = [] ∧
      ∀ d v, (d, v) ∈ [[97], [98]].zip [Value.I32 1, Value.I32 7] →
        aget d st'.current_frame.locals = some v :=
  C2_calling_convention.2.2 F0 stC2 (some [114]) [102]
    [.Immediate (.I32 1), .Variable [120]]
    { name := [102], return_type := .I32, parameters := [], locals := [],
      start_ip := 10, end_ip := 20 }
    [Value.I32 1, Value.I32 7] [[97], [98]] rfl rfl (by decide) rfl

/-! ## C4: heap bounds -/

/-- Two heap blocks occupy disjoint byte ranges. -/
def rangesDisjoint (p q : Nat × List Nat) : Prop :=
  p.1 + p.2.length ≤ q.1 ∨ q.1 + q.2.length ≤ p.1

theorem rangesDisjoint_symm : Symmetric rangesDisjoint :=
  fun _ _ h => h.symm

/-- Well-formedness of the heap map: distinct base addresses and
pairwise-disjoint byte ranges (established for all reachable states by
the C9 invariant). -/
def HeapWF (heap : List (Nat × List Nat)) : Prop :=
  (heap.map Prod.fst).Nodup ∧ heap.Pairwise rangesDisjoint

theorem findHeapAllocation_mem {heap : List (Nat × List Nat)} {a addr : Nat}
    {bs : List Nat} (hwf : heap.Pairwise rangesDisjoint)
    (hm : (a, bs) ∈ heap) (h1 : a ≤ addr) (h2 : addr < a + bs.length) :
    findHeapAllocation heap addr = .ok (a, addr - a) := by
  induction heap with
  | nil => simp at hm
  | cons p t ih =>
    obtain ⟨b, bb⟩ := p
    rcases List.mem_cons.mp hm with heq | hmt
    · injection heq with he1 he2
      subst he1; subst he2
      simp [findHeapAllocation, h1, h2]
    · have hd : rangesDisjoint (b, bb) (a, bs) :=
        (List.pairwise_cons.mp hwf).1 _ hmt
      have hnot : ¬(b ≤ addr ∧ addr < b + bb.length) := by
        simp only [rangesDisjoint] at hd
        rcases hd with hd | hd <;> simp at hd ⊢ <;> omega
      simp only [findHeapAllocation, if_neg hnot]
      exact ih (List.pairwise_cons.mp hwf).2 hmt

theorem findHeapAllocation_notin {heap : List (Nat × List Nat)} {addr : Nat}
    (h : ∀ p ∈ heap, ¬(p.1 ≤ addr ∧ addr < p.1 + p.2.length)) :
    findHeapAllocation heap addr = .error "Invalid pointer" := by
  induction heap with
  | nil => rfl
  | cons p t ih =>
    obtain ⟨b, bb⟩ := p
    simp only [findHeapAllocation, if_neg (h (b, bb) (by simp))]
    exact ih fun q hq => h q (List.mem_cons_of_mem _ hq)

/-- C4: with a live block of `n = block.length` bytes at base `a` (as
after `Alloc(n)` returned `a`), a `Store` of a value whose byte-width is
`bytes.length` at address `a + k` succeeds (overwriting the addressed
bytes in place) whenever `k + width ≤ n` — in particular for every
offset `k` in `[0, n − width)` — and fails with a write-out-of-bounds
error for offsets in `n − width + 1 .. n`; and once the block at `a` is
removed (`Free(a)`), every heap read or write at an address inside
`[a, a + n)` fails with the invalid-pointer runtime error. -/
theorem C4_heap_bounds (F : SemParams) (st : VM) (a : Nat)
    (block : List Nat) (pname sname : Name) (value : Value)
    (dtype : DataType) (bytes : List Nat) (k : Nat)
    (hwf : HeapWF st.heap) (hmem : (a, block) ∈ st.heap)
    (hp : getVariable st pname = .ok (.Ptr (a + k)))
    (hs : getVariable st sname = .ok value)
    (hb : valueToBytes value dtype = .ok bytes)
    (hblen : bytes ≠ []) :
    (k + bytes.length ≤ block.length →
      execOne F st (.Store pname sname dtype) = .ok
        { st with heap := (aset a
            (block.take k ++ bytes ++ block.drop (k + bytes.length))
            st.heap) }) ∧
    (block.length - bytes.length + 1 ≤ k → k < block.length →
      execOne F st (.Store pname sname dtype) =
        .error "Write out of bounds") ∧
    (∀ addr cnt bytes2, a ≤ addr → addr < a + block.length →
      loadBytesFromHeap (aerase a st.heap) addr cnt =
        .error "Invalid pointer" ∧
      storeBytesToHeap (aerase a st.heap) addr bytes2 =
        .error "Invalid pointer") := by
  have hbpos : 0 < bytes.length := List.length_pos.mpr hblen
  have hfind : ∀ hk : k < block.length,
      findHeapAllocation st.heap (a + k) = .ok (a, k) := by
    intro hk
    have := findHeapAllocation_mem hwf.2 hmem (Nat.le_add_right a k)
      (by omega)
    simpa using this
  have hget : aget a st.heap = some block := aget_of_mem_nodup hmem hwf.1
  refine ⟨?_, ?_, ?_⟩
  · intro hin
    have hk : k < block.length := by omega
    simp only [execOne, bindE, hp, okBind, Value.as_usize, hs, hb,
      storeBytesToHeap, hfind hk, hget]
    simp [if_neg (by omega : ¬(k + bytes.length > block.length)), okBind]
  · intro hlo hhi
    simp only [execOne, bindE, hp, okBind, Value.as_usize, hs, hb,
      storeBytesToHeap, hfind hhi, hget]
    simp [if_pos (by omega : k + bytes.length > block.length), errBind]
  · intro addr cnt bytes2 h1 h2
    have hnone : ∀ p ∈ aerase a st.heap,
        ¬(p.1 ≤ addr ∧ addr < p.1 + p.2.length) := by
      intro p hp'
      have hmem' : p ∈ st.heap ∧ p.1 ≠ a := by
        simp only [aerase, List.mem_filter, decide_eq_true_eq] at hp'
        exact hp'
      have hne : p ≠ (a, block) := fun h => hmem'.2 (by rw [h])
      have hd : rangesDisjoint (a, block) p :=
        List.Pairwise.forall rangesDisjoint_symm hwf.2 hmem hmem'.1
          (Ne.symm hne)
      simp only [rangesDisjoint] at hd
      rcases hd with hd | hd <;> simp at hd ⊢ <;> omega
    have herr := findHeapAllocation_notin hnone
    constructor
    · simp [loadBytesFromHeap, bindE, herr, errBind]
    · simp [storeBytesToHeap, bindE, herr, errBind]

/-- A state with one live 8-byte block at 0x1000, `p = Ptr 0x1002` and
`s = I32 5`. -/
def stC4 : VM :=
  { program := emptyProg, ip := 0, globals := [], call_stack := [],
    current_frame :=
      { function_name := mainName, return_ip := 0,
        locals := [([112], Value.Ptr 0x1002), ([115], Value.I32 5)],
        return_dest := none, args := [] },
    heap := [(0x1000, List.replicate 8 0)], next_heap_addr := 0x1008,
    running := true, input := [], output := [] }

theorem C4_heap_bounds_witness :
    (execOne F0 stC4 (.Store [112] [115] .I32) = .ok
      { stC4 with heap := (aset 0x1000
          ((List.replicate 8 0).take 2 ++ leBytes 4 (wrapU 32 5) ++
            (List.replicate 8 0).drop (2 + (leBytes 4 (wrapU 32 5)).length))
          stC4.heap) }) ∧
    loadBytesFromHeap (aerase 0x1000 stC4.heap) 0x1003 4 =
      .error "Invalid pointer" ∧
    storeBytesToHeap (aerase 0x1000 stC4.heap) 0x1003 [7] =
      .error "Invalid pointer" := by
  have h := C4_heap_bounds F0 stC4 0x1000 (List.replicate 8 0) [112] [115]
    (Value.I32 5) .I32 (leBytes 4 (wrapU 32 5)) 2
    ⟨by simp [stC4], by simp [stC4]⟩ (by simp [stC4]) rfl rfl rfl (by decide)
  exact ⟨h.1 (by decide),
    (h.2.2 0x1003 4 [7] (by norm_num) (by norm_num)).1,
    (h.2.2 0x1003 4 [7] (by norm_num) (by norm_num)).2⟩

/-! ## C8: assembler `func_begin` / `func_end`
(src/asm/assembler.rs, src/asm/ast.rs, src/program.rs) -/

/-- src/asm/ast.rs `Immediate` (float literals as `f64` bit patterns). -/
inductive AsmImm where
  | Integer (v : Int)
  | Float (bits : Nat)
  | String (s : List Nat)
  deriving DecidableEq, Repr

/-- src/asm/ast.rs `Operand`. -/
inductive AsmOperand where
  | Variable (name : Name)
  | Immediate (imm : AsmImm)
  | Label (name : Name)
  deriving DecidableEq, Repr

/-- src/program.rs `Program::emit`: append the opcode; a `Label` also
binds its name to the new index in the label table. -/
def Program.emit (p : Program) (op : OpCode) : Program :=
  { p with
    labels :=
      match op with
      | .Label name => aset name p.instructions.length p.labels
      | _ => p.labels
    instructions := p.instructions ++ [op] }

/-- src/program.rs `Program::add_function`. -/
def Program.addFunction (p : Program) (f : Function) : Program :=
  { p with functions := aset f.name f p.functions }

/-- src/asm/assembler.rs `Assembler::last_label`: scan the emitted
instructions backwards from the end for the most recent `Label` opcode. -/
def lastLabel (instrs : List OpCode) : Option Name :=
  instrs.reverse.findSome? fun op =>
    match op with
    | .Label n => some n
    | _ => none

/-- src/asm/assembler.rs `Assembler::operand_to_datatype`: the twelve
type keywords by their UTF-8 names. -/
def operandToDatatype : AsmOperand → Except String DataType
  | .Variable name =>
    if name = [105, 56] then .ok .I8
    else if name = [105, 49, 54] then .ok .I16
    else if name = [105, 51, 50] then .ok .I32
    else if name = [105, 54, 52] then .ok .I64
    else if name = [117, 56] then .ok .U8
    else if name = [117, 49, 54] then .ok .U16
    else if name = [117, 51, 50] then .ok .U32
    else if name = [117, 54, 52] then .ok .U64
    else if name = [102, 51, 50] then .ok .F32
    else if name = [102, 54, 52] then .ok .F64
    else if name = [112, 116, 114] then .ok .Ptr
    else if name = [118, 111, 105, 100] then .ok .Void
    else .error "Unknown data type"
  | _ => .error "Expected data type"

/-- The `Assembler` state fields that `func_begin`/`func_end` touch
(src/asm/assembler.rs; filename, defines and source-map fields are not
involved). -/
structure AsmState where
  program : Program
  label_positions : List (Name × Nat)
  function_starts : List (Name × Nat)
  current_function : Option Name
  deriving Repr

/-- The `"func_begin"` arm of src/asm/assembler.rs
`Assembler::assemble_instruction`: one operand (the return type); the
function name is taken from `last_label`; the start index and current
function are recorded and a `FuncBegin` is emitted. -/
def assembleFuncBegin (st : AsmState) (operands : List AsmOperand) :
    Except String AsmState :=
  match operands with
  | [op0] =>
    match lastLabel st.program.instructions with
    | none => .error "func_begin must follow a label"
    | some func_name => do
      let return_type ← operandToDatatype op0
      .ok { st with
        current_function := some func_name
        function_starts :=
          aset func_name st.program.instructions.length st.function_starts
        program := st.program.emit (.FuncBegin func_name return_type) }
  | _ => .error "func_begin expects 1 operand (return type)"

/-- The `"func_end"` arm of src/asm/assembler.rs
`Assembler::assemble_instruction`: finalize the function-table entry —
with `return_type` hard-coded to `DataType::I32` — and emit `FuncEnd`
(the `unwrap` on a missing start entry is modelled as an error). -/
def assembleFuncEnd (st : AsmState) : Except String AsmState :=
  match st.current_function with
  | some func_name =>
    match aget func_name st.function_starts with
    | none => .error "missing function start"
    | some start_ip =>
      .ok { st with
        program := (st.program.addFunction
          { name := func_name, return_type := DataType.I32,
            parameters := [], locals := [], start_ip := start_ip,
            end_ip := st.program.instructions.length }).emit .FuncEnd
        current_function := none }
  | none => .ok { st with program := st.program.emit .FuncEnd }

/-- An assembler state whose most recently emitted instruction is a
`FuncEnd`, with a `Label main` earlier in the stream. -/
def asmC8 : AsmState :=
  { program := { emptyProg with instructions := [.Label mainName, .FuncEnd] },
    label_positions := [], function_starts := [], current_function := none }

/-- An assembler state right after emitting `Label main`. -/
def asmC8b : AsmState :=
  { program := { emptyProg with
      instructions := [.Label mainName]
      labels := [(mainName, 0)] },
    label_positions := [(mainName, 0)], function_starts := [],
    current_function := none }

/-- C8 counterexample, refuting both halves of the claim: (1) the most
recently emitted instruction of `asmC8` is `FuncEnd`, not a `Label`, yet
`func_begin` assembles successfully (`last_label` scans backwards for
the most recent `Label` anywhere, here `main`); (2) assembling
`main: func_begin f64` then `func_end` produces a function-table entry
whose return type is `I32`, not the declared `F64` (the assembler
hard-codes `DataType::I32` at `func_end`). -/
theorem C8_funcbegin_counterexample :
    assembleFuncBegin asmC8 [.Variable [105, 51, 50]] = .ok
      { asmC8 with
        current_function := some mainName
        function_starts := [(mainName, 2)]
        program := asmC8.program.emit (.FuncBegin mainName .I32) } ∧
    (do
      let st1 ← assembleFuncBegin asmC8b [.Variable [102, 54, 52]]
      let st2 ← assembleFuncEnd st1
      pure ((aget mainName st2.program.functions).map Function.return_type))
      = .ok (some DataType.I32) ∧
    DataType.I32 ≠ DataType.F64 :=
  ⟨rfl, rfl, by decide⟩

/-- C8 (amended): assembling `func_begin` fails when the operand count
is not 1, or when no `Label` opcode has been emitted at all; otherwise
the name of the most recently emitted `Label` opcode (not necessarily
the immediately preceding instruction) becomes the function's name, the
emitted `FuncBegin` carries the declared return type, and its index is
recorded as the function's `start_ip`; the function-table entry created
at `func_end` records that `start_ip` but hard-codes return type `I32`
regardless of the declared return type. -/
theorem C8_funcbegin_semantics :
    (∀ (st : AsmState) (ops : List AsmOperand), ops.length ≠ 1 →
      assembleFuncBegin st ops =
        .error "func_begin expects 1 operand (return type)") ∧
    (∀ (st : AsmState) (op0 : AsmOperand),
      lastLabel st.program.instructions = none →
      assembleFuncBegin st [op0] = .error "func_begin must follow a label") ∧
    (∀ (st : AsmState) (op0 : AsmOperand) (func_name : Name)
       (rt : DataType),
      lastLabel st.program.instructions = some func_name →
      operandToDatatype op0 = .ok rt →
      assembleFuncBegin st [op0] = .ok
        { st with
          current_function := some func_name
          function_starts :=
            aset func_name st.program.instructions.length st.function_starts
          program := st.program.emit (.FuncBegin func_name rt) }) ∧
    (∀ (st : AsmState) (func_name : Name) (start_ip : Nat),
      st.current_function = some func_name →
      aget func_name st.function_starts = some start_ip →
      assembleFuncEnd st = .ok
        { st with
          program := (st.program.addFunction
            { name := func_name, return_type := DataType.I32,
              parameters := [], locals := [], start_ip := start_ip,
              end_ip := st.program.instructions.length }).emit .FuncEnd
          current_function := none }) := by
  refine ⟨?_, ?_, ?_, ?_⟩
  · intro st ops hlen
    match ops with
    | [] => rfl
    | [op0] => exact absurd rfl hlen
    | op0 :: op1 :: rest => rfl
  · intro st op0 hll
    simp [assembleFuncBegin, hll]
  · intro st op0 func_name rt hll hrt
    simp [assembleFuncBegin, hll, bindE, hrt, okBind]
  · intro st func_name start_ip hcf hfs
    simp [assembleFuncEnd, hcf, hfs]

theorem C8_funcbegin_semantics_witness :
    assembleFuncBegin asmC8b [.Variable [102, 54, 52]] = .ok
      { asmC8b with
        current_function := some mainName
        function_starts := aset mainName 1 asmC8b.function_starts
        program := asmC8b.program.emit (.FuncBegin mainName .F64) } :=
  C8_funcbegin_semantics.2.2.1 asmC8b (.Variable [102, 54, 52]) mainName
    .F64 rfl rfl

/-! ## C7: `main` reaching `Return` with empty call stack -/

/-- `resolve_operand` reads only the current frame and the globals, so
it is unaffected by the `ip` pre-increment. -/
theorem resolveOperand_ip (st : VM) (ip1 : Nat) (op : Operand) :
    resolveOperand { st with ip := ip1 } op = resolveOperand st op := by
  cases op <;> rfl

/-- When the `while` guard fails, the run loop stops and yields `Ok(0)`
regardless of remaining fuel. -/
theorem runLoop_stop (F : SemParams) (fuel : Nat) (st : VM)
    (h : ¬(st.running = true ∧ st.ip < st.program.instructions.length)) :
    runLoop F fuel st = some (.ok 0) := by
  rw [runLoop.eq_def]
  simp [h]

/-- Fuel composition: if the loop passes through `k` guarded steps, the
remaining run continues from the reached state. -/
theorem runLoop_compose (F : SemParams) :
    ∀ (k : Nat) (st0 st : VM), stepsTo F k st0 = some st →
    ∀ fuel, runLoop F (k + fuel) st0 = runLoop F fuel st := by
  intro k
  induction k with
  | zero =>
    intro st0 st h fuel
    simp only [stepsTo, Option.some_inj] at h
    rw [h, Nat.zero_add]
  | succ k ih =>
    intro st0 st h fuel
    rw [stepsTo] at h
    by_cases hg : st0.running = true ∧ st0.ip < st0.program.instructions.length
    · rw [if_pos hg] at h
      cases hs : stepOnce F st0 with
      | error e => rw [hs] at h; simp at h
      | ok st1 =>
        rw [hs] at h
        have hkf : k + 1 + fuel = (k + fuel) + 1 := by omega
        rw [hkf, runLoop, if_pos hg, hs]
        exact ih st1 st h fuel
    · rw [if_neg hg] at h
      simp at h

/-- C7: if execution started by `run()` (which requires a `main`
function and begins at `main.start_ip + 1`) reaches, after `k` guarded
steps, a state about to execute a `Return` instruction while the call
stack is empty (and whose optional operand resolves), then that step
succeeds, the `running` flag becomes false, the dispatch loop stops, and
`run()` returns `Ok(0)`. -/
theorem C7_main_return_ok (F : SemParams) (P : Program) (input : List Int)
    (main_func : Function) (k fuel : Nat) (st : VM) (v : Option Operand)
    (hmain : aget mainName P.functions = some main_func)
    (hsteps : stepsTo F k { vmNew P input with ip := main_func.start_ip + 1 }
      = some st)
    (hrun : st.running = true)
    (hip : st.ip < st.program.instructions.length)
    (hinstr : st.program.instructions[st.ip]? = some (.Return v))
    (hstack : st.call_stack = [])
    (hres : match v with
      | none => True
      | some op => ∃ val, resolveOperand st op = .ok val) :
    ∃ st', stepOnce F st = .ok st' ∧ st'.running = false ∧
      runVM F P input (k + fuel + 1) = some (.ok 0) := by
  have hstep : stepOnce F st =
      .ok { st with ip := st.ip + 1, running := false } := by
    rw [stepOnce, hinstr]
    cases v with
    | none =>
      simp only [execOne]
      rw [show ({ st with ip := st.ip + 1 } : VM).call_stack = [] from hstack]
      rfl
    | some op =>
      obtain ⟨val, hval⟩ := hres
      simp only [execOne, resolveOperand_ip, bindE, hval, okBind]
      rw [show ({ st with ip := st.ip + 1 } : VM).call_stack = [] from hstack]
      rfl
  refine ⟨_, hstep, rfl, ?_⟩
  have h2 : runLoop F (fuel + 1) st = some (.ok 0) := by
    rw [runLoop.eq_def]
    dsimp only
    rw [if_pos ⟨hrun, hip⟩, hstep]
    exact runLoop_stop F fuel _ (by simp)
  have h3 : runLoop F (k + (fuel + 1))
      { vmNew P input with ip := main_func.start_ip + 1 } = some (.ok 0) :=
    (runLoop_compose F k _ st hsteps (fuel + 1)).trans h2
  have h4 : runVM F P input (k + fuel + 1) =
      runLoop F (k + fuel + 1)
        { vmNew P input with ip := main_func.start_ip + 1 } := by
    unfold runVM
    rw [hmain]
  rw [h4]
  exact h3

/-- The minimal image whose `main` immediately returns. -/
def progC7 : Program :=
  { instructions :=
      [.Label mainName, .FuncBegin mainName .I32, .Return none, .FuncEnd]
    globals := []
    functions :=
      [(mainName,
        { name := mainName, return_type := .I32, parameters := [],
          locals := [], start_ip := 1, end_ip := 3 })]
    labels := [(mainName, 0)]
    strings := [] }

theorem C7_main_return_ok_witness :
    ∃ st', stepOnce F0 { vmNew progC7 [] with ip := 1 + 1 } = .ok st' ∧
      st'.running = false ∧ runVM F0 progC7 [] (0 + 0 + 1) = some (.ok 0) :=
  C7_main_return_ok F0 progC7 [] _ 0 0 _ none rfl rfl rfl (by decide) rfl
    rfl trivial

/-! ## C9: heap invariant machinery -/

theorem aget_cons_self {κ α : Type} [DecidableEq κ] (k : κ) (v : α)
    (t : List (κ × α)) : aget k ((k, v) :: t) = some v := by
  simp [aget]

theorem aget_cons_ne {κ α : Type} [DecidableEq κ] {k1 k : κ} (v1 : α)
    (t : List (κ × α)) (h : k1 ≠ k) :
    aget k ((k1, v1) :: t) = aget k t := by
  simp [aget, h]

theorem aset_cons_self {κ α : Type} [DecidableEq κ] (k : κ) (v v1 : α)
    (t : List (κ × α)) : aset k v ((k, v1) :: t) = (k, v) :: t := by
  simp [aset]

theorem aset_cons_ne {κ α : Type} [DecidableEq κ] {k1 k : κ} (v v1 : α)
    (t : List (κ × α)) (h : k1 ≠ k) :
    aset k v ((k1, v1) :: t) = (k1, v1) :: aset k v t := by
  simp [aset, h]

theorem aget_some_mem {κ α : Type} [DecidableEq κ] {k : κ} {v : α} :
    ∀ {l : List (κ × α)}, aget k l = some v → (k, v) ∈ l := by
  intro l
  induction l with
  | nil => intro h; simp [aget] at h
  | cons q t ih =>
    intro h
    obtain ⟨k1, v1⟩ := q
    by_cases hk : k1 = k
    · subst hk
      rw [aget_cons_self] at h
      injection h with h
      rw [← h]
      exact List.mem_cons_self ..
    · rw [aget_cons_ne _ _ hk] at h
      exact List.mem_cons_of_mem _ (ih h)

/-- The heap-shape invariant of the interpreter: `next_heap_addr` is at
least the initial 0x1000, every live block sits at or above 0x1000 and
ends at or below `next_heap_addr`, base addresses are distinct, and
block byte ranges are pairwise disjoint. -/
def heapCoreInv (heap : List (Nat × List Nat)) (next : Nat) : Prop :=
  0x1000 ≤ next ∧
  (∀ p ∈ heap, 0x1000 ≤ p.1 ∧ p.1 + p.2.length ≤ next) ∧
  (heap.map Prod.fst).Nodup ∧
  heap.Pairwise rangesDisjoint

def HeapInv (st : VM) : Prop := heapCoreInv st.heap st.next_heap_addr

theorem okOfBind {α β : Type} {x : Except String α}
    {f : α → Except String β} {b : β} (h : x.bind f = .ok b) :
    ∃ a, x = .ok a ∧ f a = .ok b := by
  cases x with
  | error e => exact absurd h (by simp [Except.bind])
  | ok a => exact ⟨a, rfl, by simpa [Except.bind] using h⟩

theorem setVariable_frame {st : VM} {n : Name} {v : Value} {st' : VM}
    (h : setVariable st n v = .ok st') :
    st'.heap = st.heap ∧ st'.next_heap_addr = st.next_heap_addr ∧
      st'.call_stack = st.call_stack := by
  unfold setVariable at h
  split at h
  · cases h; exact ⟨rfl, rfl, rfl⟩
  · split at h
    · cases h; exact ⟨rfl, rfl, rfl⟩
    · cases h

theorem binaryOp_frame {st : VM} {dest : Name} {l r : Operand}
    {m : Value → Value → Except String Value} {st' : VM}
    (h : binaryOp st dest l r m = .ok st') :
    st'.heap = st.heap ∧ st'.next_heap_addr = st.next_heap_addr := by
  unfold binaryOp at h
  simp only [bindE] at h
  obtain ⟨a, ha, h2⟩ := okOfBind h
  obtain ⟨b, hb, h3⟩ := okOfBind h2
  obtain ⟨c, hc, h4⟩ := okOfBind h3
  exact ⟨(setVariable_frame h4).1, (setVariable_frame h4).2.1⟩

theorem comparisonOp_frame {st : VM} {dest : Name} {l r : Operand}
    {m : Value → Value → Except String Bool} {st' : VM}
    (h : comparisonOp st dest l r m = .ok st') :
    st'.heap = st.heap ∧ st'.next_heap_addr = st.next_heap_addr := by
  unfold comparisonOp at h
  simp only [bindE] at h
  obtain ⟨a, ha, h2⟩ := okOfBind h
  obtain ⟨b, hb, h3⟩ := okOfBind h2
  obtain ⟨c, hc, h4⟩ := okOfBind h3
  exact ⟨(setVariable_frame h4).1, (setVariable_frame h4).2.1⟩

theorem unaryOp_frame {st : VM} {dest : Name} {s : Operand}
    {m : Value → Except String Value} {st' : VM}
    (h : unaryOp st dest s m = .ok st') :
    st'.heap = st.heap ∧ st'.next_heap_addr = st.next_heap_addr := by
  unfold unaryOp at h
  simp only [bindE] at h
  obtain ⟨a, ha, h2⟩ := okOfBind h
  obtain ⟨b, hb, h3⟩ := okOfBind h2
  exact ⟨(setVariable_frame h3).1, (setVariable_frame h3).2.1⟩

theorem mem_aset {κ α : Type} [DecidableEq κ] {p : κ × α} {k : κ} {v : α} :
    ∀ {l : List (κ × α)}, p ∈ aset k v l → p = (k, v) ∨ p ∈ l := by
  intro l
  induction l with
  | nil => intro h; simpa [aset] using h
  | cons q t ih =>
    intro h
    obtain ⟨k1, v1⟩ := q
    by_cases hk : k1 = k
    · subst hk
      rw [aset_cons_self] at h
      rcases List.mem_cons.mp h with h | h
      · exact Or.inl h
      · exact Or.inr (List.mem_cons_of_mem _ h)
    · rw [aset_cons_ne _ _ _ hk] at h
      rcases List.mem_cons.mp h with h | h
      · exact Or.inr (by simp [h])
      · rcases ih h with h | h
        · exact Or.inl h
        · exact Or.inr (List.mem_cons_of_mem _ h)

theorem keys_aset {κ α : Type} [DecidableEq κ] {x k : κ} {v : α}
    {l : List (κ × α)} (h : x ∈ (aset k v l).map Prod.fst) :
    x = k ∨ x ∈ l.map Prod.fst := by
  simp only [List.mem_map] at h
  obtain ⟨p, hp, hx⟩ := h
  rcases mem_aset hp with rfl | hp1
  · exact Or.inl hx.symm
  · exact Or.inr (hx ▸ List.mem_map_of_mem Prod.fst hp1)

/-- Inserting a fresh block of any length at `next` preserves the heap
invariant with the advanced `next`. -/
theorem coreInv_insert {next : Nat} (bytes : List Nat) :
    ∀ (heap : List (Nat × List Nat)), heapCoreInv heap next →
      heapCoreInv (aset next bytes heap) (next + bytes.length) := by
  intro heap
  induction heap with
  | nil =>
    intro hinv
    refine ⟨by have := hinv.1; omega, ?_, by simp [aset], by simp [aset]⟩
    intro p hp
    have hp1 : p = (next, bytes) := by simpa [aset] using hp
    subst hp1
    exact ⟨hinv.1, le_refl _⟩
  | cons q t ih =>
    intro hinv
    obtain ⟨k1, v1⟩ := q
    obtain ⟨h1, h2, h3, h4⟩ := hinv
    have hq := h2 (k1, v1) (List.mem_cons_self ..)
    have h2t : ∀ p ∈ t, 0x1000 ≤ p.1 ∧ p.1 + p.2.length ≤ next :=
      fun p hp => h2 p (List.mem_cons_of_mem _ hp)
    simp only [List.map_cons, List.nodup_cons] at h3
    obtain ⟨hph, h4t⟩ := List.pairwise_cons.mp h4
    by_cases hk : k1 = next
    · subst hk
      rw [aset_cons_self]
      refine ⟨by omega, ?_, by simpa using h3, ?_⟩
      · intro p hp
        rcases List.mem_cons.mp hp with rfl | hp
        · exact ⟨h1, le_refl _⟩
        · have := h2t p hp
          exact ⟨this.1, by omega⟩
      · refine List.pairwise_cons.mpr ⟨?_, h4t⟩
        intro q hq1
        exact Or.inr (h2t q hq1).2
    · rw [aset_cons_ne _ _ _ hk]
      obtain ⟨ih1, ih2, ih3, ih4⟩ := ih ⟨h1, h2t, h3.2, h4t⟩
      refine ⟨by omega, ?_, ?_, ?_⟩
      · intro p hp
        rcases List.mem_cons.mp hp with rfl | hp
        · exact ⟨hq.1, by have := hq.2; omega⟩
        · exact ih2 p hp
      · simp only [List.map_cons, List.nodup_cons]
        refine ⟨?_, ih3⟩
        intro hx
        rcases keys_aset hx with rfl | hx
        · exact hk rfl
        · exact h3.1 hx
      · refine List.pairwise_cons.mpr ⟨?_, ih4⟩
        intro q hq1
        rcases mem_aset hq1 with rfl | hq1
        · exact Or.inl hq.2
        · exact hph q hq1

/-- Replacing the block at an existing key by one of equal length
preserves the heap invariant. -/
theorem coreInv_replace {next : Nat} {allocation newb : List Nat}
    (hlen : newb.length = allocation.length) :
    ∀ (heap : List (Nat × List Nat)) (base : Nat), heapCoreInv heap next →
      aget base heap = some allocation →
      heapCoreInv (aset base newb heap) next := by
  intro heap
  induction heap with
  | nil => intro base _ hget; simp [aget] at hget
  | cons q t ih =>
    intro base hinv hget
    obtain ⟨k1, v1⟩ := q
    obtain ⟨h1, h2, h3, h4⟩ := hinv
    have hq := h2 (k1, v1) (List.mem_cons_self ..)
    have h2t : ∀ p ∈ t, 0x1000 ≤ p.1 ∧ p.1 + p.2.length ≤ next :=
      fun p hp => h2 p (List.mem_cons_of_mem _ hp)
    simp only [List.map_cons, List.nodup_cons] at h3
    obtain ⟨hph, h4t⟩ := List.pairwise_cons.mp h4
    by_cases hk : k1 = base
    · subst hk
      rw [aget_cons_self] at hget
      injection hget with hget
      rw [aset_cons_self]
      refine ⟨h1, ?_, by simpa using h3, ?_⟩
      · intro p hp
        rcases List.mem_cons.mp hp with rfl | hp
        · have h5 : newb.length = v1.length := by rw [hlen, hget]
          refine ⟨hq.1, ?_⟩
          have h6 := hq.2
          dsimp only at h6 ⊢
          omega
        · exact h2t p hp
      · refine List.pairwise_cons.mpr ⟨?_, h4t⟩
        intro q hq1
        have hd := hph q hq1
        have h5 : newb.length = v1.length := by rw [hlen, hget]
        simp only [rangesDisjoint] at hd ⊢
        omega
    · rw [aget_cons_ne _ _ hk] at hget
      rw [aset_cons_ne _ _ _ hk]
      obtain ⟨ih1, ih2, ih3, ih4⟩ := ih base ⟨h1, h2t, h3.2, h4t⟩ hget
      refine ⟨h1, ?_, ?_, ?_⟩
      · intro p hp
        rcases List.mem_cons.mp hp with rfl | hp
        · exact hq
        · exact ih2 p hp
      · simp only [List.map_cons, List.nodup_cons]
        refine ⟨?_, ih3⟩
        intro hx
        rcases keys_aset hx with rfl | hx
        · exact h3.1 (List.mem_map_of_mem Prod.fst (aget_some_mem hget))
        · exact h3.1 hx
      · refine List.pairwise_cons.mpr ⟨?_, ih4⟩
        intro q hq1
        rcases mem_aset hq1 with rfl | hq1
        · have hd := hph (base, allocation) (aget_some_mem hget)
          simp only [rangesDisjoint] at hd ⊢
          omega
        · exact hph q hq1

/-- Removing a block preserves the heap invariant. -/
theorem coreInv_erase {heap : List (Nat × List Nat)} {next addr : Nat}
    (h : heapCoreInv heap next) :
    heapCoreInv (aerase addr heap) next := by
  obtain ⟨h1, h2, h3, h4⟩ := h
  have hsub : (aerase addr heap).Sublist heap := List.filter_sublist heap
  exact ⟨h1, fun p hp => h2 p (hsub.mem hp),
    (hsub.map Prod.fst).nodup h3, h4.sublist hsub⟩

/-- Success of `find_heap_allocation` names a live block containing the
address. -/
theorem findHeapAllocation_ok_spec {heap : List (Nat × List Nat)}
    {addr b off : Nat} :
    findHeapAllocation heap addr = .ok (b, off) →
    ∃ bs, (b, bs) ∈ heap ∧ b ≤ addr ∧ addr < b + bs.length ∧
      off = addr - b := by
  induction heap with
  | nil => intro h; exact absurd h (by simp [findHeapAllocation])
  | cons q t ih =>
    intro h
    obtain ⟨k1, v1⟩ := q
    by_cases hc : k1 ≤ addr ∧ addr < k1 + v1.length
    · rw [findHeapAllocation, if_pos hc] at h
      injection h with h
      injection h with hb hoff
      subst hb
      exact ⟨v1, List.mem_cons_self .., hc.1, hc.2, hoff.symm⟩
    · rw [findHeapAllocation, if_neg hc] at h
      obtain ⟨bs, hmem, hx1, hx2, hx3⟩ := ih h
      exact ⟨bs, List.mem_cons_of_mem _ hmem, hx1, hx2, hx3⟩

/-- `store_bytes_to_heap` preserves the heap invariant: it overwrites
bytes within one live block, keeping its base and length. -/
theorem storeBytes_inv {heap heap' : List (Nat × List Nat)}
    {next addr : Nat} {bytes : List Nat} (hinv : heapCoreInv heap next)
    (h : storeBytesToHeap heap addr bytes = .ok heap') :
    heapCoreInv heap' next := by
  unfold storeBytesToHeap at h
  simp only [bindE] at h
  obtain ⟨pr, hfind, h2⟩ := okOfBind h
  obtain ⟨b, off⟩ := pr
  dsimp only at h2
  split at h2
  · exact absurd h2 (by simp)
  · rename_i allocation hget
    split at h2
    · exact absurd h2 (by simp)
    · rename_i hle
      injection h2 with h2
      subst h2
      refine coreInv_replace ?_ heap b hinv hget
      simp only [List.length_append, List.length_take, List.length_drop]
      omega

/-! ## C9: the heap invariant across initialization and execution -/

theorem pureBind {ε α β : Type} (a : α) (f : α → Except ε β) :
    (pure a : Except ε α).bind f = f a := rfl

theorem invFrame {st st' : VM}
    (hinv : heapCoreInv st.heap st.next_heap_addr)
    (hh : st'.heap = st.heap)
    (hn : st'.next_heap_addr = st.next_heap_addr) :
    heapCoreInv st'.heap st'.next_heap_addr ∧
      st.next_heap_addr ≤ st'.next_heap_addr := by
  rw [hh, hn]
  exact ⟨hinv, le_refl _⟩

/-- Every successful instruction preserves the heap invariant and never
decreases `next_heap_addr`. -/
theorem execOne_heapInv {F : SemParams} (st : VM) {op : OpCode} {st' : VM}
    (hinv : heapCoreInv st.heap st.next_heap_addr)
    (h : execOne F st op = .ok st') :
    heapCoreInv st'.heap st'.next_heap_addr ∧
      st.next_heap_addr ≤ st'.next_heap_addr := by
  cases op with
  | CreateLocal dtype name =>
    simp only [execOne, Except.ok.injEq] at h
    subst h
    exact ⟨hinv, le_refl _⟩
  | CreateGlobal dtype name =>
    simp only [execOne, Except.ok.injEq] at h
    subst h
    exact ⟨hinv, le_refl _⟩
  | DeleteLocal name =>
    simp only [execOne, Except.ok.injEq] at h
    subst h
    exact ⟨hinv, le_refl _⟩
  | Label name =>
    simp only [execOne, Except.ok.injEq] at h
    subst h
    exact ⟨hinv, le_refl _⟩
  | FuncEnd =>
    simp only [execOne, Except.ok.injEq] at h
    subst h
    exact ⟨hinv, le_refl _⟩
  | Exit code =>
    simp only [execOne, Except.ok.injEq] at h
    subst h
    exact ⟨hinv, le_refl _⟩
  | Add dest l r =>
    simp only [execOne] at h
    have hf := binaryOp_frame h
    exact invFrame hinv hf.1 hf.2
  | Sub dest l r =>
    simp only [execOne] at h
    have hf := binaryOp_frame h
    exact invFrame hinv hf.1 hf.2
  | Mul dest l r =>
    simp only [execOne] at h
    have hf := binaryOp_frame h
    exact invFrame hinv hf.1 hf.2
  | Div dest l r =>
    simp only [execOne] at h
    have hf := binaryOp_frame h
    exact invFrame hinv hf.1 hf.2
  | Mod dest l r =>
    simp only [execOne] at h
    have hf := binaryOp_frame h
    exact invFrame hinv hf.1 hf.2
  | And dest l r =>
    simp only [execOne] at h
    have hf := binaryOp_frame h
    exact invFrame hinv hf.1 hf.2
  | Or dest l r =>
    simp only [execOne] at h
    have hf := binaryOp_frame h
    exact invFrame hinv hf.1 hf.2
  | Xor dest l r =>
    simp only [execOne] at h
    have hf := binaryOp_frame h
    exact invFrame hinv hf.1 hf.2
  | Shl dest l r =>
    simp only [execOne] at h
    have hf := binaryOp_frame h
    exact invFrame hinv hf.1 hf.2
  | Shr dest l r =>
    simp only [execOne] at h
    have hf := binaryOp_frame h
    exact invFrame hinv hf.1 hf.2
  | Lt dest l r =>
    simp only [execOne] at h
    have hf := comparisonOp_frame h
    exact invFrame hinv hf.1 hf.2
  | Le dest l r =>
    simp only [execOne] at h
    have hf := comparisonOp_frame h
    exact invFrame hinv hf.1 hf.2
  | Gt dest l r =>
    simp only [execOne] at h
    have hf := comparisonOp_frame h
    exact invFrame hinv hf.1 hf.2
  | Ge dest l r =>
    simp only [execOne] at h
    have hf := comparisonOp_frame h
    exact invFrame hinv hf.1 hf.2
  | Neg dest s =>
    simp only [execOne] at h
    have hf := unaryOp_frame h
    exact invFrame hinv hf.1 hf.2
  | Not dest s =>
    simp only [execOne] at h
    have hf := unaryOp_frame h
    exact invFrame hinv hf.1 hf.2
  | SetVar dest value =>
    simp only [execOne, bindE] at h
    obtain ⟨x1, hx1, h2⟩ := okOfBind h
    have hf := setVariable_frame h2
    exact invFrame hinv hf.1 hf.2.1
  | CopyVar dest s =>
    simp only [execOne, bindE] at h
    obtain ⟨x1, hx1, h2⟩ := okOfBind h
    have hf := setVariable_frame h2
    exact invFrame hinv hf.1 hf.2.1
  | GetAddr dest var =>
    simp only [execOne] at h
    have hf := setVariable_frame h
    exact invFrame hinv hf.1 hf.2.1
  | Eq dest l r =>
    simp only [execOne, bindE] at h
    obtain ⟨x1, hx1, h2⟩ := okOfBind h
    obtain ⟨x2, hx2, h3⟩ := okOfBind h2
    have hf := setVariable_frame h3
    exact invFrame hinv hf.1 hf.2.1
  | Ne dest l r =>
    simp only [execOne, bindE] at h
    obtain ⟨x1, hx1, h2⟩ := okOfBind h
    obtain ⟨x2, hx2, h3⟩ := okOfBind h2
    have hf := setVariable_frame h3
    exact invFrame hinv hf.1 hf.2.1
  | Cast dest s ttype =>
    simp only [execOne, bindE] at h
    obtain ⟨x1, hx1, h2⟩ := okOfBind h
    obtain ⟨x2, hx2, h3⟩ := okOfBind h2
    have hf := setVariable_frame h3
    exact invFrame hinv hf.1 hf.2.1
  | Sqrt dest s =>
    simp only [execOne, bindE] at h
    obtain ⟨x1, hx1, h2⟩ := okOfBind h
    try dsimp only at h2
    split at h2 <;>
      first
        | (simp only [pureBind] at h2
           have hf := setVariable_frame h2
           exact invFrame hinv hf.1 hf.2.1)
        | exact absurd h2 (by simp [errBind])
  | Abs dest s =>
    simp only [execOne, bindE] at h
    obtain ⟨x1, hx1, h2⟩ := okOfBind h
    try dsimp only at h2
    split at h2 <;>
      first
        | (simp only [pureBind] at h2
           have hf := setVariable_frame h2
           exact invFrame hinv hf.1 hf.2.1)
        | exact absurd h2 (by simp [errBind])
  | Sin dest s =>
    simp only [execOne, bindE] at h
    obtain ⟨x1, hx1, h2⟩ := okOfBind h
    try dsimp only at h2
    split at h2 <;>
      first
        | (simp only [pureBind] at h2
           have hf := setVariable_frame h2
           exact invFrame hinv hf.1 hf.2.1)
        | exact absurd h2 (by simp [errBind])
  | Cos dest s =>
    simp only [execOne, bindE] at h
    obtain ⟨x1, hx1, h2⟩ := okOfBind h
    try dsimp only at h2
    split at h2 <;>
      first
        | (simp only [pureBind] at h2
           have hf := setVariable_frame h2
           exact invFrame hinv hf.1 hf.2.1)
        | exact absurd h2 (by simp [errBind])
  | Tan dest s =>
    simp only [execOne, bindE] at h
    obtain ⟨x1, hx1, h2⟩ := okOfBind h
    try dsimp only at h2
    split at h2 <;>
      first
        | (simp only [pureBind] at h2
           have hf := setVariable_frame h2
           exact invFrame hinv hf.1 hf.2.1)
        | exact absurd h2 (by simp [errBind])
  | Pow dest pb pe =>
    simp only [execOne, bindE] at h
    obtain ⟨x1, hx1, h2⟩ := okOfBind h
    obtain ⟨x2, hx2, h3⟩ := okOfBind h2
    try dsimp only at h3
    split at h3 <;>
      first
        | (simp only [pureBind] at h3
           have hf := setVariable_frame h3
           exact invFrame hinv hf.1 hf.2.1)
        | exact absurd h3 (by simp [errBind])
  | Min dest pa pb =>
    simp only [execOne, bindE] at h
    obtain ⟨x1, hx1, h2⟩ := okOfBind h
    obtain ⟨x2, hx2, h3⟩ := okOfBind h2
    try dsimp only at h3
    split at h3 <;>
      first
        | (simp only [pureBind] at h3
           have hf := setVariable_frame h3
           exact invFrame hinv hf.1 hf.2.1)
        | exact absurd h3 (by simp [errBind])
  | Max dest pa pb =>
    simp only [execOne, bindE] at h
    obtain ⟨x1, hx1, h2⟩ := okOfBind h
    obtain ⟨x2, hx2, h3⟩ := okOfBind h2
    try dsimp only at h3
    split at h3 <;>
      first
        | (simp only [pureBind] at h3
           have hf := setVariable_frame h3
           exact invFrame hinv hf.1 hf.2.1)
        | exact absurd h3 (by simp [errBind])
  | Alloc dest size =>
    simp only [execOne, bindE] at h
    obtain ⟨x1, hx1, h2⟩ := okOfBind h
    obtain ⟨sz, hsz, h3⟩ := okOfBind h2
    have hf := setVariable_frame h3
    have h9 := coreInv_insert (List.replicate sz 0) st.heap hinv
    rw [List.length_replicate] at h9
    constructor
    · rw [hf.1, hf.2.1]
      exact h9
    · rw [hf.2.1]
      exact Nat.le_add_right _ _
  | Free ptr =>
    simp only [execOne, bindE] at h
    obtain ⟨x1, hx1, h2⟩ := okOfBind h
    obtain ⟨addr, ha, h3⟩ := okOfBind h2
    simp only [Except.ok.injEq] at h3
    subst h3
    exact ⟨coreInv_erase hinv, le_refl _⟩
  | Load dest ptr dtype =>
    simp only [execOne, bindE] at h
    obtain ⟨x1, hx1, h2⟩ := okOfBind h
    obtain ⟨addr, ha, h3⟩ := okOfBind h2
    obtain ⟨bytes, hb, h4⟩ := okOfBind h3
    obtain ⟨value, hv, h5⟩ := okOfBind h4
    have hf := setVariable_frame h5
    exact invFrame hinv hf.1 hf.2.1
  | Store ptr s dtype =>
    simp only [execOne, bindE] at h
    obtain ⟨x1, hx1, h2⟩ := okOfBind h
    obtain ⟨addr, ha, h3⟩ := okOfBind h2
    obtain ⟨value, hv, h4⟩ := okOfBind h3
    obtain ⟨bytes, hb, h5⟩ := okOfBind h4
    obtain ⟨heap1, hh1, h6⟩ := okOfBind h5
    simp only [Except.ok.injEq] at h6
    subst h6
    exact ⟨storeBytes_inv hinv hh1, le_refl _⟩
  | Input dest =>
    simp only [execOne] at h
    split at h
    · exact absurd h (by simp)
    · have hf := setVariable_frame h
      exact invFrame hinv hf.1 hf.2.1
  | PushArg var =>
    simp only [execOne, bindE] at h
    obtain ⟨x1, hx1, h2⟩ := okOfBind h
    simp only [Except.ok.injEq] at h2
    subst h2
    exact ⟨hinv, le_refl _⟩
  | Print var =>
    simp only [execOne, bindE] at h
    obtain ⟨x1, hx1, h2⟩ := okOfBind h
    simp only [Except.ok.injEq] at h2
    subst h2
    exact ⟨hinv, le_refl _⟩
  | Jmp label =>
    simp only [execOne] at h
    split at h
    · simp only [Except.ok.injEq] at h
      subst h
      exact ⟨hinv, le_refl _⟩
    · exact absurd h (by simp)
  | Jz var label =>
    simp only [execOne, bindE] at h
    obtain ⟨x1, hx1, h2⟩ := okOfBind h
    try dsimp only at h2
    split at h2
    · split at h2
      · simp only [Except.ok.injEq] at h2
        subst h2
        exact ⟨hinv, le_refl _⟩
      · exact absurd h2 (by simp)
    · simp only [Except.ok.injEq] at h2
      subst h2
      exact ⟨hinv, le_refl _⟩
  | Jnz var label =>
    simp only [execOne, bindE] at h
    obtain ⟨x1, hx1, h2⟩ := okOfBind h
    try dsimp only at h2
    split at h2
    · split at h2
      · simp only [Except.ok.injEq] at h2
        subst h2
        exact ⟨hinv, le_refl _⟩
      · exact absurd h2 (by simp)
    · simp only [Except.ok.injEq] at h2
      subst h2
      exact ⟨hinv, le_refl _⟩
  | FuncBegin name rtype =>
    simp only [execOne] at h
    split at h
    · simp only [Except.ok.injEq] at h
      subst h
      exact ⟨hinv, le_refl _⟩
    · exact absurd h (by simp)
  | Call result func args =>
    simp only [execOne] at h
    split at h
    · exact absurd h (by simp)
    · simp only [bindE] at h
      obtain ⟨vals, hvals, h2⟩ := okOfBind h
      simp only [Except.ok.injEq] at h2
      subst h2
      exact ⟨hinv, le_refl _⟩
  | Return value =>
    simp only [execOne, bindE] at h
    split at h
    · simp only [pureBind] at h
      try dsimp only at h
      split at h <;>
        first
          | (split at h <;>
              first
                | (have hf := setVariable_frame h
                   exact invFrame hinv hf.1 hf.2.1)
                | (simp only [Except.ok.injEq] at h
                   subst h
                   exact ⟨hinv, le_refl _⟩))
          | (simp only [Except.ok.injEq] at h
             subst h
             exact ⟨hinv, le_refl _⟩)
    · obtain ⟨rv, hrv, h2⟩ := okOfBind h
      simp only [pureBind] at h2
      try dsimp only at h2
      split at h2 <;>
        first
          | (split at h2 <;>
              first
                | (have hf := setVariable_frame h2
                   exact invFrame hinv hf.1 hf.2.1)
                | (simp only [Except.ok.injEq] at h2
                   subst h2
                   exact ⟨hinv, le_refl _⟩))
          | (simp only [Except.ok.injEq] at h2
             subst h2
             exact ⟨hinv, le_refl _⟩)
  | PopArg dest =>
    simp only [execOne] at h
    split at h
    · exact absurd h (by simp)
    · simp only [Except.ok.injEq] at h
      subst h
      exact ⟨hinv, le_refl _⟩

/-- One fetch-execute step preserves the heap invariant. -/
theorem stepOnce_heapInv {F : SemParams} {st st' : VM}
    (hinv : HeapInv st) (h : stepOnce F st = .ok st') :
    HeapInv st' ∧ st.next_heap_addr ≤ st'.next_heap_addr := by
  unfold stepOnce at h
  split at h
  · exact absurd h (by simp)
  · exact execOne_heapInv { st with ip := st.ip + 1 } hinv h

/-- The body of the `initialize_strings` fold (src/vm.rs): allocate the
string's bytes plus a zero terminator at `next_heap_addr`, advance it,
and point the named global at the allocation. -/
def strStep (s : VM) (lit : StrLit) : VM :=
  let bytes := lit.content ++ [0]
  let addr := s.next_heap_addr
  { s with
    next_heap_addr := addr + bytes.length
    heap := aset addr bytes s.heap
    globals := aset lit.global_name (Value.Ptr addr) s.globals }

theorem initStrings_eq (st : VM) :
    initStrings st = st.program.strings.foldl strStep st := rfl

theorem foldStr_inv : ∀ (lits : List StrLit) (st : VM),
    HeapInv st →
    HeapInv (List.foldl strStep st lits) ∧
      st.next_heap_addr ≤ (List.foldl strStep st lits).next_heap_addr := by
  intro lits
  induction lits with
  | nil => intro st hinv; exact ⟨hinv, le_refl _⟩
  | cons lit rest ih =>
    intro st hinv
    rw [List.foldl_cons]
    have h1 : HeapInv (strStep st lit) :=
      coreInv_insert (lit.content ++ [0]) st.heap hinv
    obtain ⟨ha, hb⟩ := ih (strStep st lit) h1
    refine ⟨ha, le_trans ?_ hb⟩
    show st.next_heap_addr ≤ (strStep st lit).next_heap_addr
    exact Nat.le_add_right _ _

/-- The state `VM::new` returns satisfies the heap invariant. -/
theorem vmNew_heapInv (P : Program) (input : List Int) :
    HeapInv (vmNew P input) := by
  unfold vmNew
  rw [initStrings_eq]
  exact (foldStr_inv _ _ ⟨le_refl _, by simp, by simp, by simp⟩).1

/-- An address inside live blocks identifies a unique block. -/
theorem heapInv_addr_unique {st : VM} (hinv : HeapInv st)
    {b1 b2 a : Nat} {bs1 bs2 : List Nat}
    (h1 : (b1, bs1) ∈ st.heap) (h2 : (b2, bs2) ∈ st.heap)
    (ha1 : b1 ≤ a) (ha2 : a < b1 + bs1.length)
    (hb1 : b2 ≤ a) (hb2 : a < b2 + bs2.length) :
    b1 = b2 ∧ bs1 = bs2 := by
  by_cases heq : (b1, bs1) = (b2, bs2)
  · injection heq with hx hy
    exact ⟨hx, hy⟩
  · have hd : b1 + bs1.length ≤ b2 ∨ b2 + bs2.length ≤ b1 :=
      (List.Pairwise.forall rangesDisjoint_symm hinv.2.2.2) h1 h2 heq
    omega

/-- A fresh allocation of any size at `next_heap_addr` is disjoint from
every live block. -/
theorem heapInv_fresh_disjoint {st : VM} (hinv : HeapInv st) (size : Nat) :
    ∀ p ∈ st.heap, rangesDisjoint p (st.next_heap_addr, List.replicate size 0) :=
  fun p hp => Or.inl (hinv.2.1 p hp).2

instance (p q : Nat × List Nat) : Decidable (rangesDisjoint p q) := by
  unfold rangesDisjoint
  infer_instance

instance (heap : List (Nat × List Nat)) (next : Nat) :
    Decidable (heapCoreInv heap next) := by
  unfold heapCoreInv
  infer_instance

instance (st : VM) : Decidable (HeapInv st) := by
  unfold HeapInv
  infer_instance

def dnameC9 : Name := [120]

def progC9 : Program :=
  { instructions := [.Alloc dnameC9 (.Immediate (.I32 4))], globals := [],
    functions := [], labels := [], strings := [] }

/-- A mid-execution state with one live heap block, for the C9 witness. -/
def stC9 : VM :=
  { program := progC9, ip := 0, globals := [],
    call_stack := [],
    current_frame :=
      { function_name := mainName, return_ip := 0,
        locals := [(dnameC9, Value.I32 0)], return_dest := none, args := [] },
    heap := [(0x1000, [1, 2, 3, 4])], next_heap_addr := 0x1004,
    running := true, input := [], output := [] }

/-- The state after executing the `Alloc` instruction of `stC9`. -/
def stC9' : VM :=
  { program := progC9, ip := 1, globals := [],
    call_stack := [],
    current_frame :=
      { function_name := mainName, return_ip := 0,
        locals := [(dnameC9, Value.Ptr 0x1004)], return_dest := none,
        args := [] },
    heap := [(0x1000, [1, 2, 3, 4]), (0x1004, [0, 0, 0, 0])],
    next_heap_addr := 0x1008, running := true, input := [], output := [] }

/-- C9: in every reachable VM state the heap invariant `HeapInv` holds:
the state `VM::new` builds (including `initialize_strings` allocations)
satisfies it, every successful `stepOnce` preserves it and never
decreases `next_heap_addr`; under the invariant, `next_heap_addr` is at
least 0x1000, every live block's byte range lies below `next_heap_addr`,
an address inside live blocks identifies a unique block, and a fresh
allocation at `next_heap_addr` is disjoint from every live block. -/
theorem C9_heap_invariant :
    (∀ (P : Program) (input : List Int), HeapInv (vmNew P input)) ∧
    (∀ (F : SemParams) (st st' : VM), HeapInv st → stepOnce F st = .ok st' →
      HeapInv st' ∧ st.next_heap_addr ≤ st'.next_heap_addr) ∧
    (∀ (st : VM), HeapInv st →
      (0x1000 ≤ st.next_heap_addr ∧
        ∀ p ∈ st.heap, 0x1000 ≤ p.1 ∧ p.1 + p.2.length ≤ st.next_heap_addr) ∧
      (∀ b1 bs1 b2 bs2 a, (b1, bs1) ∈ st.heap → (b2, bs2) ∈ st.heap →
        b1 ≤ a → a < b1 + bs1.length → b2 ≤ a → a < b2 + bs2.length →
        b1 = b2 ∧ bs1 = bs2) ∧
      (∀ size, ∀ p ∈ st.heap,
        rangesDisjoint p (st.next_heap_addr, List.replicate size 0))) :=
  ⟨vmNew_heapInv,
   fun _ _ _ hinv h => stepOnce_heapInv hinv h,
   fun _ hinv =>
     ⟨⟨hinv.1, hinv.2.1⟩,
      fun _ _ _ _ _ h1 h2 ha1 ha2 hb1 hb2 =>
        heapInv_addr_unique hinv h1 h2 ha1 ha2 hb1 hb2,
      fun size => heapInv_fresh_disjoint hinv size⟩⟩

/-- C9 witness: the invariant holds for the empty program's initial
state; the `Alloc` step from `stC9` to `stC9'` preserves it; and the
consequences hold at concrete addresses of `stC9`. -/
theorem C9_heap_invariant_witness :
    HeapInv (vmNew emptyProg []) ∧
    (HeapInv stC9' ∧ stC9.next_heap_addr ≤ stC9'.next_heap_addr) ∧
    ((0x1000 ≤ stC9.next_heap_addr ∧
        ∀ p ∈ stC9.heap, 0x1000 ≤ p.1 ∧ p.1 + p.2.length ≤ stC9.next_heap_addr) ∧
      ((0x1000 : Nat) = 0x1000 ∧ ([1, 2, 3, 4] : List Nat) = [1, 2, 3, 4]) ∧
      ∀ p ∈ stC9.heap,
        rangesDisjoint p (stC9.next_heap_addr, List.replicate 8 0)) :=
  ⟨C9_heap_invariant.1 emptyProg [],
   C9_heap_invariant.2.1 F0 stC9 stC9' (by decide) (by rfl),
   ⟨(C9_heap_invariant.2.2 stC9 (by decide)).1,
    (C9_heap_invariant.2.2 stC9 (by decide)).2.1 0x1000 [1, 2, 3, 4] 0x1000
      [1, 2, 3, 4] 0x1001 (by decide) (by decide) (by decide) (by decide)
      (by decide) (by decide),
    (C9_heap_invariant.2.2 stC9 (by decide)).2.2 8⟩⟩

end VarVM
